import Mathlib

/-!
# Elrond <-> Ethereum bridge relayer: executor, steps and gas station

A shallow embedding of the bridge executor (`bridges/ethElrond/bridgeExecutor.go`,
`ethToElrond/v2/bridgeExecutor.go`), of the quorum check of the legacy executor
(`ethToElrond/bridgeExecutors/ethElrondBridgeExecutor.go`), of the Elrond->Ethereum steps and
of the gas station (`bridge/gasManagement/gasStation.go`), followed by the properties proved
about them.

Conventions of the embedding

* A Go `uint64` is a `Nat`; every addition the code performs on one is reduced modulo `2^64`.
  A Go `int` is an `Int`.
* A Go pointer that the code tests against `nil` or dereferences is an `Option`; dereferencing
  `none` is a run-time crash, which is an explicit outcome of a program (`Res.crash`).
* A Go `(value, error)` result is a pair whose second component is an `Option Error`.
* Stateful code is a function from a state to an outcome (`Prog`).  The state of an executor
  is the executor's own fields together with the history of every call it made on one of its
  collaborators (logger, status handler, chain clients, ...).  A collaborator is a record of
  response functions; a response may depend on the whole history before the call.
-/

namespace Bridge

/-! ## Machine integers -/

/-- Number of values of a Go `uint64`. -/
def uint64Size : Nat := 2 ^ 64

/-- Reduction of a natural number to a Go `uint64`. -/
def toUint64 (n : Nat) : Nat := n % uint64Size

/-! ## Outcomes and programs -/

/-- Outcome of running a piece of Go code from a state: it returns a value, or the goroutine
crashes (nil dereference).  Both carry the state reached. -/
inductive Res (σ α : Type) where
  | ret (value : α) (state : σ)
  | crash (state : σ)
deriving DecidableEq, Repr

/-- State reached by an outcome. -/
def Res.state {σ α : Type} : Res σ α → σ
  | .ret _ s => s
  | .crash s => s

/-- Value returned by an outcome, when it returns. -/
def Res.value? {σ α : Type} : Res σ α → Option α
  | .ret a _ => some a
  | .crash _ => none

/-- A program over the state `σ` returning an `α`. -/
def Prog (σ α : Type) : Type := σ → Res σ α

/-- Run a program from a state. -/
def Prog.run {σ α : Type} (p : Prog σ α) (s : σ) : Res σ α := p s

/-- Program that returns `a` and leaves the state alone. -/
def Prog.pure {σ α : Type} (a : α) : Prog σ α := fun s => .ret a s

/-- Sequencing: a crash of the first program ends the run. -/
def Prog.bind {σ α β : Type} (p : Prog σ α) (f : α → Prog σ β) : Prog σ β := fun s =>
  match p s with
  | .ret a s' => f a s'
  | .crash s' => .crash s'

instance {σ : Type} : Monad (Prog σ) where
  pure := Prog.pure
  bind := Prog.bind

/-- The run-time crash of a nil dereference. -/
def Prog.crash {σ α : Type} : Prog σ α := fun s => .crash s

/-- State reached after `n` consecutive runs of `p` from `s`. -/
def Prog.stateAfter {σ α : Type} (p : Prog σ α) : Nat → σ → σ
  | 0, s => s
  | n + 1, s => (p (Prog.stateAfter p n s)).state

/-- Outcome of the `k`-th of `k` consecutive runs of `p` from `s` (for `k ≥ 1`). -/
def Prog.nthRun {σ α : Type} (p : Prog σ α) (k : Nat) (s : σ) : Res σ α :=
  p (Prog.stateAfter p (k - 1) s)

/-! ## Data model (`clients/batch.go`, as used by the executor) -/

/-- One deposit of a batch (`clients.DepositTransfer`). -/
structure DepositTransfer where
  Nonce : Nat
  ToBytes : List Nat
  DisplayableTo : String
  FromBytes : List Nat
  DisplayableFrom : String
  TokenBytes : List Nat
  DisplayableToken : String
  ConvertedTokenBytes : List Nat
  Amount : Int
deriving DecidableEq, Repr

/-- A batch of deposits (`clients.TransferBatch`). -/
structure TransferBatch where
  ID : Nat
  Deposits : List DepositTransfer
  Statuses : List Nat
deriving DecidableEq, Repr

/-- Status byte `Executed` of a deposit. -/
def Executed : Nat := 3

/-- Status byte `Rejected` of a deposit. -/
def Rejected : Nat := 4

/-- Modelled from the spec: the method `ResolveNewDeposits` of a batch, whose file
`clients/batch.go` is not among the sources.  With `n` the new number of deposits and `len`
the number of deposits: if `n < len` the trailing `len - n` status bytes are set to
`Rejected`; if `n > len`, `n - len` trailing `Rejected` bytes are appended; if `n = len` the
statuses are left untouched. -/
def TransferBatch.ResolveNewDeposits (tb : TransferBatch) (newNumDeposits : Int) :
    TransferBatch :=
  let len : Int := tb.Deposits.length
  if newNumDeposits < len then
    let trailing := min (len - newNumDeposits).toNat tb.Statuses.length
    { tb with Statuses :=
        tb.Statuses.take (tb.Statuses.length - trailing) ++ List.replicate trailing Rejected }
  else if newNumDeposits > len then
    { tb with Statuses := tb.Statuses ++ List.replicate (newNumDeposits - len).toNat Rejected }
  else
    tb

/-- A 32-byte digest (`common.Hash`), as the number it encodes. -/
abbrev Hash : Type := Nat

/-! ## Errors -/

/-- An argument of a `fmt.Errorf`. -/
inductive FmtArg where
  | num (n : Int)
  | str (s : String)
  | bool (b : Bool)
  | deposit (d : DepositTransfer)
deriving DecidableEq, Repr

/-- A Go `error` value: a package-level sentinel (`errors.New`), an error made by a
collaborator, or `fmt.Errorf` with a leading `%w` wrapping `base`. -/
inductive Error where
  | sentinel (pkg : String) (name : String)
  | external (code : Nat)
  | wrapf (base : Error) (format : String) (args : List FmtArg)
deriving DecidableEq, Repr

/-- Go's `errors.Is err target`: `err` is `target` or wraps it. -/
def Error.Is : Error → Error → Bool
  | .wrapf base format args, target =>
    if Error.wrapf base format args = target then true else base.Is target
  | e, target => decide (e = target)

/-- An argument of a logger call. -/
inductive LogArg where
  | num (n : Int)
  | str (s : String)
  | bool (b : Bool)
  | err (e : Option Error)
  | bytes (b : Option (List Nat))
deriving DecidableEq, Repr

/-! ## Collaborators of the executor -/

/-- Log levels of the logger (`logger.LogLevel`). -/
inductive LogLevel where
  | LogTrace
  | LogDebug
  | LogInfo
  | LogWarning
  | LogError
  | LogNone
deriving DecidableEq, Repr

/-- A call on the Elrond client, with its arguments. -/
inductive ElrondCall where
  | GetPending
  | GetLastExecutedEthBatchID
  | GetLastExecutedEthTxID
  | GetActionIDForProposeTransfer (batch : TransferBatch)
  | GetActionIDForSetStatusOnPendingTransfer (batch : TransferBatch)
  | WasProposedTransfer (batch : TransferBatch)
  | ProposeTransfer (batch : TransferBatch)
  | WasProposedSetStatus (batch : TransferBatch)
  | ProposeSetStatus (batch : TransferBatch)
  | WasSigned (actionID : Nat)
  | Sign (actionID : Nat)
  | QuorumReached (actionID : Nat)
  | WasExecuted (actionID : Nat)
  | PerformAction (actionID : Nat) (batch : TransferBatch)
  | GetMaxNumberOfRetriesOnQuorumReached
  | CheckClientAvailability
deriving DecidableEq, Repr

/-- A call on the Ethereum client, with its arguments. -/
inductive EthereumCall where
  | GetBatch (nonce : Nat)
  | GetTransactionsStatuses (batchID : Nat)
  | WasExecuted (batchID : Nat)
  | GenerateMessageHash (batch : TransferBatch)
  | BroadcastSignatureForMessageHash (hash : Hash)
  | GetQuorumSize
  | ExecuteTransfer (msgHash : Hash) (batch : TransferBatch) (quorum : Int)
  | IsQuorumReached (msgHash : Hash)
  | GetMaxNumberOfRetriesOnQuorumReached
  | CheckClientAvailability
deriving DecidableEq, Repr

/-- A call the executor makes on one of its collaborators. -/
inductive Event where
  | log (level : LogLevel) (message : String) (extras : List LogArg)
  | setIntMetric (metric : String) (value : Int)
  | setStringMetric (metric : String) (value : String)
  | myTurnAsLeader
  | elrond (call : ElrondCall)
  | ethereum (call : EthereumCall)
  | clearStoredSignatures
  | validateBatch (batch : Option TransferBatch)
  | wait (nanoseconds : Int)
deriving DecidableEq, Repr

/-- Whether an event is a call on one of the two chain clients. -/
def Event.isChainClientCall : Event → Bool
  | .elrond _ => true
  | .ethereum _ => true
  | _ => false

/-- The Elrond client as the executor uses it: the response to each call, given the history
of the calls made before it. -/
structure ElrondClient where
  GetPending : List Event → Option TransferBatch × Option Error
  GetLastExecutedEthBatchID : List Event → Nat × Option Error
  GetLastExecutedEthTxID : List Event → Nat × Option Error
  GetActionIDForProposeTransfer : List Event → TransferBatch → Nat × Option Error
  GetActionIDForSetStatusOnPendingTransfer : List Event → TransferBatch → Nat × Option Error
  WasProposedTransfer : List Event → TransferBatch → Bool × Option Error
  ProposeTransfer : List Event → TransferBatch → String × Option Error
  WasProposedSetStatus : List Event → TransferBatch → Bool × Option Error
  ProposeSetStatus : List Event → TransferBatch → String × Option Error
  WasSigned : List Event → Nat → Bool × Option Error
  Sign : List Event → Nat → String × Option Error
  QuorumReached : List Event → Nat → Bool × Option Error
  WasExecuted : List Event → Nat → Bool × Option Error
  PerformAction : List Event → Nat → TransferBatch → String × Option Error
  GetMaxNumberOfRetriesOnQuorumReached : List Event → Nat
  CheckClientAvailability : List Event → Option Error

/-- The Ethereum client as the executor uses it.  `GetQuorumSize` returns a `*big.Int` and
`GetTransactionsStatuses` a byte slice, which may be nil. -/
structure EthereumClient where
  GetBatch : List Event → Nat → Option TransferBatch × Option Error
  GetTransactionsStatuses : List Event → Nat → Option (List Nat) × Option Error
  WasExecuted : List Event → Nat → Bool × Option Error
  GenerateMessageHash : List Event → TransferBatch → Hash × Option Error
  GetQuorumSize : List Event → Option Int × Option Error
  ExecuteTransfer : List Event → Hash → TransferBatch → Int → String × Option Error
  IsQuorumReached : List Event → Hash → Bool × Option Error
  GetMaxNumberOfRetriesOnQuorumReached : List Event → Nat
  CheckClientAvailability : List Event → Option Error

/-- The topology provider: whether this relayer is the leader now. -/
structure TopologyProvider where
  MyTurnAsLeader : List Event → Bool

/-- The batch validator (`clients.BatchValidator`). -/
structure BatchValidator where
  ValidateBatch : List Event → Option TransferBatch → Bool × Option Error

/-- The logger: its calls answer nothing and are recorded as `Event.log`. -/
structure Logger where
deriving DecidableEq, Repr

/-- The status handler: its calls answer nothing and are recorded as metric events. -/
structure StatusHandler where
deriving DecidableEq, Repr

/-- The signatures holder: `ClearStoredSignatures` answers nothing. -/
structure SignaturesHolder where
deriving DecidableEq, Repr

/-- The collaborators of a constructed executor that answer with a value, the race between
the sub-interval timer and the cancellation of the context, and what the code of a batch does
with a nil receiver: whether the method `ResolveNewDeposits` (file `clients/batch.go`, not
among the sources) returns when it is called on a nil batch, rather than stop at a nil
dereference. -/
structure Collaborators where
  topologyProvider : TopologyProvider
  elrondClient : ElrondClient
  ethereumClient : EthereumClient
  batchValidator : BatchValidator
  timerFiresBeforeContextDone : List Event → Bool
  resolveNewDepositsReturnsOnNilBatch : Bool

/-- State of a running executor: its fields and the calls made so far (oldest first). -/
structure ExecState (ε : Type) where
  executor : ε
  history : List Event
deriving DecidableEq, Repr

/-- Record a call on a collaborator and return its response to the history before it. -/
def call {ε α : Type} (event : Event) (response : List Event → α) : Prog (ExecState ε) α :=
  fun s => .ret (response s.history) { s with history := s.history ++ [event] }

/-- Read the executor's fields. -/
def getExecutor {ε : Type} : Prog (ExecState ε) ε := fun s => .ret s.executor s

/-- Update the executor's fields. -/
def modifyExecutor {ε : Type} (f : ε → ε) : Prog (ExecState ε) Unit :=
  fun s => .ret () { s with executor := f s.executor }

/-- Go's conversion `int(x)` of a `uint64` and the wrap-around of `int` arithmetic. -/
def toInt64 (x : Int) : Int := (x + 2 ^ 63) % 2 ^ 64 - 2 ^ 63

/-- Key of the number-of-batches metric (`core.MetricNumBatches`). -/
def MetricNumBatches : String := "MetricNumBatches"

/-- Key of the last-error metric (`core.MetricLastError`). -/
def MetricLastError : String := "MetricLastError"

/-- Sentinel error `ErrInvalidValue` of the package `clients`. -/
def clients.ErrInvalidValue : Error := .sentinel "clients" "ErrInvalidValue"

/-! ## The executor of `bridges/ethElrond` -/

namespace ethElrond

/-- The value `InvalidActionID`. -/
def InvalidActionID : Nat := 0

/-- Sentinel error `ErrNilBatch`. -/
def ErrNilBatch : Error := .sentinel "ethElrond" "ErrNilBatch"

/-- Sentinel error `ErrInvalidDepositNonce`. -/
def ErrInvalidDepositNonce : Error := .sentinel "ethElrond" "ErrInvalidDepositNonce"

/-- Sentinel error `ErrBatchNotFound`. -/
def ErrBatchNotFound : Error := .sentinel "ethElrond" "ErrBatchNotFound"

/-- The constant `splits`: number of sub-intervals of the wait on Ethereum. -/
def splits : Nat := 10

/-- The constant `minRetries`. -/
def minRetries : Nat := 1

/-- The arguments `ArgsBridgeExecutor`; an interface argument may be nil. -/
structure ArgsBridgeExecutor where
  Log : Option Logger
  TopologyProvider : Option TopologyProvider
  ElrondClient : Option ElrondClient
  EthereumClient : Option EthereumClient
  TimeForWaitOnEthereum : Int
  StatusHandler : Option StatusHandler
  SignaturesHolder : Option SignaturesHolder
  BatchValidator : Option BatchValidator
  MaxQuorumRetriesOnEthereum : Nat
  MaxQuorumRetriesOnElrond : Nat
  MaxRestriesOnWasProposed : Nat

/-- The data fields of the struct `bridgeExecutor`: configuration and per-batch context.
The collaborators it holds are passed to every operation as a `Collaborators`. -/
structure bridgeExecutor where
  timeForWaitOnEthereum : Int
  maxQuorumRetriesOnEthereum : Nat
  maxQuorumRetriesOnElrond : Nat
  maxRetriesOnWasProposed : Nat
  batch : Option TransferBatch
  actionID : Nat
  msgHash : Hash
  quorumRetriesOnEthereum : Nat
  quorumRetriesOnElrond : Nat
  retriesOnWasProposed : Nat
deriving DecidableEq, Repr

/-- State of a running `bridgeExecutor`. -/
abbrev State : Type := ExecState bridgeExecutor

/-- The function `createBridgeExecutor`: the fields not listed take Go's zero value. -/
def createBridgeExecutor (args : ArgsBridgeExecutor) : bridgeExecutor :=
  { timeForWaitOnEthereum := args.TimeForWaitOnEthereum
    maxQuorumRetriesOnEthereum := args.MaxQuorumRetriesOnEthereum
    maxQuorumRetriesOnElrond := args.MaxQuorumRetriesOnElrond
    maxRetriesOnWasProposed := args.MaxRestriesOnWasProposed
    batch := none
    actionID := 0
    msgHash := 0
    quorumRetriesOnEthereum := 0
    quorumRetriesOnElrond := 0
    retriesOnWasProposed := 0 }

/-- Sentinel error `ErrNilLogger`. -/
def ErrNilLogger : Error := .sentinel "ethElrond" "ErrNilLogger"

/-- Sentinel error `ErrNilElrondClient`. -/
def ErrNilElrondClient : Error := .sentinel "ethElrond" "ErrNilElrondClient"

/-- Sentinel error `ErrNilEthereumClient`. -/
def ErrNilEthereumClient : Error := .sentinel "ethElrond" "ErrNilEthereumClient"

/-- Sentinel error `ErrNilTopologyProvider`. -/
def ErrNilTopologyProvider : Error := .sentinel "ethElrond" "ErrNilTopologyProvider"

/-- Sentinel error `ErrNilStatusHandler`. -/
def ErrNilStatusHandler : Error := .sentinel "ethElrond" "ErrNilStatusHandler"

/-- Sentinel error `ErrInvalidDuration`. -/
def ErrInvalidDuration : Error := .sentinel "ethElrond" "ErrInvalidDuration"

/-- Sentinel error `ErrNilSignaturesHolder`. -/
def ErrNilSignaturesHolder : Error := .sentinel "ethElrond" "ErrNilSignaturesHolder"

/-- Sentinel error `ErrNilBatchValidator`. -/
def ErrNilBatchValidator : Error := .sentinel "ethElrond" "ErrNilBatchValidator"

/-- The function `checkArgs` of the executor.  `durationLimit` is the package constant of
that name, declared outside the sources at hand. -/
def checkArgs (durationLimit : Int) (args : ArgsBridgeExecutor) : Option Error :=
  if args.Log.isNone then
    some ErrNilLogger
  else if args.ElrondClient.isNone then
    some ErrNilElrondClient
  else if args.EthereumClient.isNone then
    some ErrNilEthereumClient
  else if args.TopologyProvider.isNone then
    some ErrNilTopologyProvider
  else if args.StatusHandler.isNone then
    some ErrNilStatusHandler
  else if args.TimeForWaitOnEthereum < durationLimit then
    some ErrInvalidDuration
  else if args.SignaturesHolder.isNone then
    some ErrNilSignaturesHolder
  else if args.BatchValidator.isNone then
    some ErrNilBatchValidator
  else if args.MaxQuorumRetriesOnEthereum < minRetries then
    some (.wrapf clients.ErrInvalidValue
      " for args.MaxQuorumRetriesOnEthereum, got: %d, minimum: %d"
      [.num args.MaxQuorumRetriesOnEthereum, .num minRetries])
  else if args.MaxQuorumRetriesOnElrond < minRetries then
    some (.wrapf clients.ErrInvalidValue
      " for args.MaxQuorumRetriesOnElrond, got: %d, minimum: %d"
      [.num args.MaxQuorumRetriesOnElrond, .num minRetries])
  else if args.MaxRestriesOnWasProposed < minRetries then
    some (.wrapf clients.ErrInvalidValue
      " for args.MaxRestriesOnWasProposed, got: %d, minimum: %d"
      [.num args.MaxRestriesOnWasProposed, .num minRetries])
  else
    none

/-- The function `NewBridgeExecutor`: the executor, or nil and the error of `checkArgs`. -/
def NewBridgeExecutor (durationLimit : Int) (args : ArgsBridgeExecutor) :
    Option bridgeExecutor × Option Error :=
  match checkArgs durationLimit args with
  | some err => (none, some err)
  | none => (some (createBridgeExecutor args), none)

/-- How values become text in the last-error metric: the method `String` of a log level and
the function `convertObjectToString`, both declared outside the sources at hand. -/
structure Rendering where
  levelString : LogLevel → String
  convertObjectToString : LogArg → String

/-- The loop of `setExecutionMessageInStatusHandler`, `for i := 0; i < len(extras)-1; i += 2`,
over the extras from index `i` on: a last extra without a partner is left out. -/
def setExecutionMessageInStatusHandler.loop (r : Rendering) : String → List LogArg → String
  | msg, key :: value :: rest =>
    setExecutionMessageInStatusHandler.loop r
      (msg ++ (" " ++ r.convertObjectToString key ++ " = " ++ r.convertObjectToString value)) rest
  | msg, _ => msg

/-- Method `setExecutionMessageInStatusHandler`. -/
def setExecutionMessageInStatusHandler (r : Rendering) (level : LogLevel) (message : String)
    (extras : List LogArg) : Prog State Unit :=
  call (.setStringMetric MetricLastError
    (setExecutionMessageInStatusHandler.loop r (r.levelString level ++ ": " ++ message) extras))
    (fun _ => ())

/-- Method `PrintInfo`. -/
def PrintInfo (r : Rendering) (logLevel : LogLevel) (message : String) (extras : List LogArg) :
    Prog State Unit := do
  call (.log logLevel message extras) (fun _ => ())
  match logLevel with
  | .LogWarning => setExecutionMessageInStatusHandler r logLevel message extras
  | .LogError => setExecutionMessageInStatusHandler r logLevel message extras
  | _ => return ()

/-- Method `MyTurnAsLeader`. -/
def MyTurnAsLeader (c : Collaborators) : Prog State Bool :=
  call .myTurnAsLeader c.topologyProvider.MyTurnAsLeader

/-- Method `GetBatchFromElrond`: `batch.ID` is read whenever the error is nil. -/
def GetBatchFromElrond (c : Collaborators) : Prog State (Option TransferBatch × Option Error) := do
  let (batch, err) ← call (.elrond .GetPending) c.elrondClient.GetPending
  if err = none then
    match batch with
    | none => Prog.crash
    | some b =>
      call (.setIntMetric MetricNumBatches (toInt64 (toInt64 b.ID - 1))) (fun _ => ())
      return (batch, err)
  else
    return (batch, err)

/-- Method `StoreBatchFromElrond`. -/
def StoreBatchFromElrond (batch : Option TransferBatch) : Prog State (Option Error) := do
  match batch with
  | none => return some ErrNilBatch
  | some b =>
    modifyExecutor (fun e => { e with batch := some b })
    return none

/-- Method `GetStoredBatch`. -/
def GetStoredBatch : Prog State (Option TransferBatch) := do
  let executor ← getExecutor
  return executor.batch

/-- Method `GetLastExecutedEthBatchIDFromElrond`. -/
def GetLastExecutedEthBatchIDFromElrond (c : Collaborators) : Prog State (Nat × Option Error) := do
  let (batchID, err) ← call (.elrond .GetLastExecutedEthBatchID)
    c.elrondClient.GetLastExecutedEthBatchID
  if err = none then
    call (.setIntMetric MetricNumBatches (toInt64 batchID)) (fun _ => ())
  return (batchID, err)

/-- The loop of `verifyDepositNonces` over the deposits, `startNonce` being the expected
nonce of the first of them. -/
def verifyDepositNoncesLoop : Nat → List DepositTransfer → Option Error
  | _, [] => none
  | startNonce, dt :: rest =>
    if dt.Nonce != startNonce then
      some (.wrapf ErrInvalidDepositNonce " for deposit %s, expected: %d"
        [.deposit dt, .num startNonce])
    else
      verifyDepositNoncesLoop (toUint64 (startNonce + 1)) rest

/-- Method `verifyDepositNonces`. -/
def verifyDepositNonces (lastNonce : Nat) : Prog State (Option Error) := do
  let executor ← getExecutor
  match executor.batch with
  | none => Prog.crash
  | some batch => return verifyDepositNoncesLoop (toUint64 (lastNonce + 1)) batch.Deposits

/-- Method `VerifyLastDepositNonceExecutedOnEthereumBatch`. -/
def VerifyLastDepositNonceExecutedOnEthereumBatch (c : Collaborators) :
    Prog State (Option Error) := do
  let executor ← getExecutor
  if executor.batch = none then
    return some ErrNilBatch
  else
    let (lastNonce, err) ← call (.elrond .GetLastExecutedEthTxID)
      c.elrondClient.GetLastExecutedEthTxID
    if err ≠ none then
      return err
    else
      verifyDepositNonces lastNonce

/-- Method `GetAndStoreActionIDForProposeTransferOnElrond`. -/
def GetAndStoreActionIDForProposeTransferOnElrond (c : Collaborators) :
    Prog State (Nat × Option Error) := do
  let executor ← getExecutor
  match executor.batch with
  | none => return (InvalidActionID, some ErrNilBatch)
  | some batch =>
    let (actionID, err) ← call (.elrond (.GetActionIDForProposeTransfer batch))
      (fun h => c.elrondClient.GetActionIDForProposeTransfer h batch)
    if err ≠ none then
      return (InvalidActionID, err)
    else
      modifyExecutor (fun e => { e with actionID := actionID })
      return (actionID, none)

/-- Method `GetAndStoreActionIDForProposeSetStatusFromElrond`. -/
def GetAndStoreActionIDForProposeSetStatusFromElrond (c : Collaborators) :
    Prog State (Nat × Option Error) := do
  let executor ← getExecutor
  match executor.batch with
  | none => return (InvalidActionID, some ErrNilBatch)
  | some batch =>
    let (actionID, err) ← call (.elrond (.GetActionIDForSetStatusOnPendingTransfer batch))
      (fun h => c.elrondClient.GetActionIDForSetStatusOnPendingTransfer h batch)
    if err ≠ none then
      return (InvalidActionID, err)
    else
      modifyExecutor (fun e => { e with actionID := actionID })
      return (actionID, none)

/-- Method `GetStoredActionID`. -/
def GetStoredActionID : Prog State Nat := do
  let executor ← getExecutor
  return executor.actionID

/-- Method `WasTransferProposedOnElrond`. -/
def WasTransferProposedOnElrond (c : Collaborators) : Prog State (Bool × Option Error) := do
  let executor ← getExecutor
  match executor.batch with
  | none => return (false, some ErrNilBatch)
  | some batch =>
    call (.elrond (.WasProposedTransfer batch))
      (fun h => c.elrondClient.WasProposedTransfer h batch)

/-- Method `ProposeTransferOnElrond`. -/
def ProposeTransferOnElrond (c : Collaborators) : Prog State (Option Error) := do
  let executor ← getExecutor
  match executor.batch with
  | none => return some ErrNilBatch
  | some batch =>
    let (hash, err) ← call (.elrond (.ProposeTransfer batch))
      (fun h => c.elrondClient.ProposeTransfer h batch)
    if err ≠ none then
      return err
    else
      call (.log .LogInfo "proposed transfer" [.str "hash", .str hash,
        .str "batch ID", .num batch.ID, .str "action ID", .num executor.actionID]) (fun _ => ())
      return none

/-- Method `ProcessMaxRetriesOnWasTransferProposedOnElrond`. -/
def ProcessMaxRetriesOnWasTransferProposedOnElrond : Prog State Bool := do
  let executor ← getExecutor
  if executor.retriesOnWasProposed < executor.maxRetriesOnWasProposed then
    modifyExecutor (fun e => { e with retriesOnWasProposed := toUint64 (e.retriesOnWasProposed + 1) })
    return false
  else
    return true

/-- Method `ResetRetriesOnWasTransferProposedOnElrond`. -/
def ResetRetriesOnWasTransferProposedOnElrond : Prog State Unit :=
  modifyExecutor (fun e => { e with retriesOnWasProposed := 0 })

/-- Method `WasSetStatusProposedOnElrond`. -/
def WasSetStatusProposedOnElrond (c : Collaborators) : Prog State (Bool × Option Error) := do
  let executor ← getExecutor
  match executor.batch with
  | none => return (false, some ErrNilBatch)
  | some batch =>
    call (.elrond (.WasProposedSetStatus batch))
      (fun h => c.elrondClient.WasProposedSetStatus h batch)

/-- Method `ProposeSetStatusOnElrond`. -/
def ProposeSetStatusOnElrond (c : Collaborators) : Prog State (Option Error) := do
  let executor ← getExecutor
  match executor.batch with
  | none => return some ErrNilBatch
  | some batch =>
    let (hash, err) ← call (.elrond (.ProposeSetStatus batch))
      (fun h => c.elrondClient.ProposeSetStatus h batch)
    if err ≠ none then
      return err
    else
      call (.log .LogInfo "proposed set status" [.str "hash", .str hash,
        .str "batch ID", .num batch.ID]) (fun _ => ())
      return none

/-- Method `WasActionSignedOnElrond`. -/
def WasActionSignedOnElrond (c : Collaborators) : Prog State (Bool × Option Error) := do
  let executor ← getExecutor
  call (.elrond (.WasSigned executor.actionID))
    (fun h => c.elrondClient.WasSigned h executor.actionID)

/-- Method `SignActionOnElrond`. -/
def SignActionOnElrond (c : Collaborators) : Prog State (Option Error) := do
  let executor ← getExecutor
  let (hash, err) ← call (.elrond (.Sign executor.actionID))
    (fun h => c.elrondClient.Sign h executor.actionID)
  if err ≠ none then
    return err
  else
    call (.log .LogInfo "signed proposed transfer" [.str "hash", .str hash,
      .str "action ID", .num executor.actionID]) (fun _ => ())
    return none

/-- Method `ProcessQuorumReachedOnElrond`. -/
def ProcessQuorumReachedOnElrond (c : Collaborators) : Prog State (Bool × Option Error) := do
  let executor ← getExecutor
  call (.elrond (.QuorumReached executor.actionID))
    (fun h => c.elrondClient.QuorumReached h executor.actionID)

/-- Method `GetBatchStatusesFromEthereum`: on an error the statuses returned are nil. -/
def GetBatchStatusesFromEthereum (c : Collaborators) :
    Prog State (Option (List Nat) × Option Error) := do
  let executor ← getExecutor
  match executor.batch with
  | none => return (none, some ErrNilBatch)
  | some batch =>
    let (statuses, err) ← call (.ethereum (.GetTransactionsStatuses batch.ID))
      (fun h => c.ethereumClient.GetTransactionsStatuses h batch.ID)
    if err ≠ none then
      return (none, err)
    else
      return (statuses, none)

/-- Method `WasActionPerformedOnElrond`. -/
def WasActionPerformedOnElrond (c : Collaborators) : Prog State (Bool × Option Error) := do
  let executor ← getExecutor
  call (.elrond (.WasExecuted executor.actionID))
    (fun h => c.elrondClient.WasExecuted h executor.actionID)

/-- Method `PerformActionOnElrond`. -/
def PerformActionOnElrond (c : Collaborators) : Prog State (Option Error) := do
  let executor ← getExecutor
  match executor.batch with
  | none => return some ErrNilBatch
  | some batch =>
    let (hash, err) ← call (.elrond (.PerformAction executor.actionID batch))
      (fun h => c.elrondClient.PerformAction h executor.actionID batch)
    if err ≠ none then
      return err
    else
      call (.log .LogInfo "sent perform action transaction" [.str "hash", .str hash,
        .str "batch ID", .num batch.ID, .str "action ID", .num executor.actionID]) (fun _ => ())
      return none

/-- Method `ProcessMaxQuorumRetriesOnElrond`. -/
def ProcessMaxQuorumRetriesOnElrond : Prog State Bool := do
  let executor ← getExecutor
  if executor.quorumRetriesOnElrond < executor.maxQuorumRetriesOnElrond then
    modifyExecutor (fun e => { e with quorumRetriesOnElrond := toUint64 (e.quorumRetriesOnElrond + 1) })
    return false
  else
    return true

/-- Method `ResetRetriesCountOnElrond`. -/
def ResetRetriesCountOnElrond : Prog State Unit :=
  modifyExecutor (fun e => { e with quorumRetriesOnElrond := 0 })

/-- Method `GetAndStoreBatchFromEthereum`: `batch.ID` is read once the error is nil. -/
def GetAndStoreBatchFromEthereum (c : Collaborators) (nonce : Nat) :
    Prog State (Option Error) := do
  let (batch, err) ← call (.ethereum (.GetBatch nonce))
    (fun h => c.ethereumClient.GetBatch h nonce)
  if err ≠ none then
    return err
  else
    match batch with
    | none => Prog.crash
    | some b =>
      let isBatchInvalid := b.ID != nonce || b.Deposits.length == 0
      if isBatchInvalid then
        return some (.wrapf ErrBatchNotFound
          ", requested nonce: %d, fetched nonce: %d, num deposits: %d"
          [.num nonce, .num b.ID, .num b.Deposits.length])
      else
        modifyExecutor (fun e => { e with batch := some b })
        return none

/-- Method `WasTransferPerformedOnEthereum`. -/
def WasTransferPerformedOnEthereum (c : Collaborators) : Prog State (Bool × Option Error) := do
  let executor ← getExecutor
  match executor.batch with
  | none => return (false, some ErrNilBatch)
  | some batch =>
    call (.ethereum (.WasExecuted batch.ID))
      (fun h => c.ethereumClient.WasExecuted h batch.ID)

/-- Method `SignTransferOnEthereum`. -/
def SignTransferOnEthereum (c : Collaborators) : Prog State (Option Error) := do
  let executor ← getExecutor
  match executor.batch with
  | none => return some ErrNilBatch
  | some batch =>
    let (hash, err) ← call (.ethereum (.GenerateMessageHash batch))
      (fun h => c.ethereumClient.GenerateMessageHash h batch)
    if err ≠ none then
      return err
    else
      call (.log .LogInfo "generated message hash on Ethereum" [.str "hash", .num hash,
        .str "batch ID", .num batch.ID]) (fun _ => ())
      modifyExecutor (fun e => { e with msgHash := hash })
      call (.ethereum (.BroadcastSignatureForMessageHash hash)) (fun _ => ())
      return none

/-- The method `Int64` of a `big.Int`: the low 64 bits of the magnitude, with the sign. -/
def bigIntInt64 (x : Int) : Int := toInt64 (x.sign * ((x.natAbs % uint64Size : Nat) : Int))

/-- Method `PerformTransferOnEthereum`: `quorumSize.Int64()` is read once the error is nil. -/
def PerformTransferOnEthereum (c : Collaborators) : Prog State (Option Error) := do
  let executor ← getExecutor
  match executor.batch with
  | none => return some ErrNilBatch
  | some batch =>
    let (quorumSize, err) ← call (.ethereum .GetQuorumSize) c.ethereumClient.GetQuorumSize
    if err ≠ none then
      return err
    else
      match quorumSize with
      | none => Prog.crash
      | some q =>
        call (.log .LogDebug "fetched quorum size" [.str "quorum", .num (bigIntInt64 q)])
          (fun _ => ())
        let (hash, err) ← call
          (.ethereum (.ExecuteTransfer executor.msgHash batch (bigIntInt64 q)))
          (fun h => c.ethereumClient.ExecuteTransfer h executor.msgHash batch (bigIntInt64 q))
        if err ≠ none then
          return err
        else
          call (.log .LogInfo "sent execute transfer" [.str "hash", .str hash,
            .str "batch ID", .num batch.ID]) (fun _ => ())
          return none

/-- Method `ProcessQuorumReachedOnEthereum`. -/
def ProcessQuorumReachedOnEthereum (c : Collaborators) : Prog State (Bool × Option Error) := do
  let executor ← getExecutor
  call (.ethereum (.IsQuorumReached executor.msgHash))
    (fun h => c.ethereumClient.IsQuorumReached h executor.msgHash)

/-- Method `ProcessMaxQuorumRetriesOnEthereum`. -/
def ProcessMaxQuorumRetriesOnEthereum : Prog State Bool := do
  let executor ← getExecutor
  if executor.quorumRetriesOnEthereum < executor.maxQuorumRetriesOnEthereum then
    modifyExecutor (fun e => { e with quorumRetriesOnEthereum := toUint64 (e.quorumRetriesOnEthereum + 1) })
    return false
  else
    return true

/-- Method `ResetRetriesCountOnEthereum`. -/
def ResetRetriesCountOnEthereum : Prog State Unit :=
  modifyExecutor (fun e => { e with quorumRetriesOnEthereum := 0 })

/-- Method `ClearStoredP2PSignaturesForEthereum`. -/
def ClearStoredP2PSignaturesForEthereum : Prog State Unit := do
  call .clearStoredSignatures (fun _ => ())
  call (.log .LogInfo "cleared stored P2P signatures" []) (fun _ => ())

/-- Method `ValidateBatch`; a nil batch is passed on as it is. -/
def ValidateBatch (c : Collaborators) (batch : Option TransferBatch) :
    Prog State (Bool × Option Error) :=
  call (.validateBatch batch) (fun h => c.batchValidator.ValidateBatch h batch)

/-- Method `CheckElrondClientAvailability`. -/
def CheckElrondClientAvailability (c : Collaborators) : Prog State (Option Error) :=
  call (.elrond .CheckClientAvailability) c.elrondClient.CheckClientAvailability

/-- Method `CheckEthereumClientAvailability`. -/
def CheckEthereumClientAvailability (c : Collaborators) : Prog State (Option Error) :=
  call (.ethereum .CheckClientAvailability) c.ethereumClient.CheckClientAvailability

/-- Method `waitWithContextSucceeded`: a timer of a tenth of the configured wait races the
cancellation of the context; true when the timer fires first. -/
def waitWithContextSucceeded (c : Collaborators) : Prog State Bool := do
  let executor ← getExecutor
  let timerFired ← call (.wait (executor.timeForWaitOnEthereum.tdiv splits))
    c.timerFiresBeforeContextDone
  if timerFired then
    return true
  else
    call (.log .LogDebug "closing due to context expiration" []) (fun _ => ())
    return false

/-- One iteration of the loop of `WaitForTransferConfirmation`, entered with `wasPerformed`
false: the value of `wasPerformed` after it. -/
def WaitForTransferConfirmation.iteration (c : Collaborators) : Prog State Bool := do
  if (← waitWithContextSucceeded c) then
    let (wasPerformed, _) ← WasTransferPerformedOnEthereum c
    return wasPerformed
  else
    return false

/-- The loop of `WaitForTransferConfirmation` with `remaining` iterations left, that is
`for ; i < splits && !wasPerformed; i++` at `i = splits - remaining`. -/
def WaitForTransferConfirmation.loop (c : Collaborators) : Nat → Bool → Prog State Unit
  | 0, _ => return ()
  | remaining + 1, wasPerformed =>
    if wasPerformed then
      return ()
    else do
      let wasPerformed ← WaitForTransferConfirmation.iteration c
      WaitForTransferConfirmation.loop c remaining wasPerformed

/-- Method `WaitForTransferConfirmation`. -/
def WaitForTransferConfirmation (c : Collaborators) : Prog State Unit :=
  WaitForTransferConfirmation.loop c splits false

/-- One iteration of the loop of `WaitAndReturnFinalBatchStatuses`: `some r` when the
iteration returns `r` from the method, `none` when it goes on to the next iteration. -/
def WaitAndReturnFinalBatchStatuses.iteration (c : Collaborators) :
    Prog State (Option (Option (List Nat))) := do
  if !(← waitWithContextSucceeded c) then
    return some none
  else
    let (statuses, err) ← GetBatchStatusesFromEthereum c
    if err ≠ none then
      call (.log .LogDebug "got message while fetching batch statuses"
        [.str "message", .err err]) (fun _ => ())
      return none
    else if (statuses.getD []).length == 0 then
      call (.log .LogDebug "no status available" []) (fun _ => ())
      return none
    else
      call (.log .LogDebug "bridgeExecutor.WaitAndReturnFinalBatchStatuses"
        [.str "statuses", .bytes statuses]) (fun _ => ())
      return some statuses

/-- The loop of `WaitAndReturnFinalBatchStatuses` with `remaining` iterations left; after
the last one the method returns nil. -/
def WaitAndReturnFinalBatchStatuses.loop (c : Collaborators) :
    Nat → Prog State (Option (List Nat))
  | 0 => return none
  | remaining + 1 => do
    match ← WaitAndReturnFinalBatchStatuses.iteration c with
    | some result => return result
    | none => WaitAndReturnFinalBatchStatuses.loop c remaining

/-- Method `WaitAndReturnFinalBatchStatuses`. -/
def WaitAndReturnFinalBatchStatuses (c : Collaborators) : Prog State (Option (List Nat)) :=
  WaitAndReturnFinalBatchStatuses.loop c splits

/-- Method `ResolveNewDepositsStatuses`: the stored batch, nil or not, is the receiver of
`ResolveNewDeposits`; the method has no guard of its own and returns nothing.  On a stored
batch the call is the one modelled by `TransferBatch.ResolveNewDeposits`.  On a nil batch the
outcome is the one of `ResolveNewDeposits` on a nil receiver, which the sources at hand do
not show: the collaborators say whether it returns, a nil receiver having nothing to change,
or stops at a nil dereference. -/
def ResolveNewDepositsStatuses (c : Collaborators) (numDeposits : Nat) : Prog State Unit := do
  let executor ← getExecutor
  match executor.batch with
  | none => if c.resolveNewDepositsReturnsOnNilBatch then return () else Prog.crash
  | some batch =>
    modifyExecutor (fun e =>
      { e with batch := some (batch.ResolveNewDeposits (toInt64 numDeposits)) })

/-- The loop that the specification gives for `WaitForTransferConfirmation`, with
`remaining` sub-intervals left: wait; if the context was cancelled, return; otherwise poll
`WasTransferPerformedOnEthereum`; stop on the first true. -/
def WaitForTransferConfirmation.referenceLoop (c : Collaborators) : Nat → Prog State Unit
  | 0 => return ()
  | remaining + 1 => do
    if !(← waitWithContextSucceeded c) then
      return ()
    else
      let (wasPerformed, _) ← WasTransferPerformedOnEthereum c
      if wasPerformed then
        return ()
      else
        WaitForTransferConfirmation.referenceLoop c remaining

/-- The reference of the specification for `WaitForTransferConfirmation`: the loop above
over `splits` sub-intervals. -/
def WaitForTransferConfirmation.reference (c : Collaborators) : Prog State Unit :=
  WaitForTransferConfirmation.referenceLoop c splits

end ethElrond

/-! ## The executor of `ethToElrond/v2` -/

namespace v2

/-- The value `InvalidActionID` of the package. -/
def InvalidActionID : Nat := 0

/-- Sentinel error `ErrNilBatch` of the package. -/
def ErrNilBatch : Error := .sentinel "v2" "ErrNilBatch"

/-- Sentinel error `ErrInvalidDepositNonce` of the package. -/
def ErrInvalidDepositNonce : Error := .sentinel "v2" "ErrInvalidDepositNonce"

/-- The collaborators of a v2 executor that answer with a value. -/
structure Collaborators where
  topologyProviderOnElrond : TopologyProvider
  topologyProviderOnEthereum : TopologyProvider
  elrondClient : ElrondClient
  ethereumClient : EthereumClient

/-- The data fields of the v2 struct `bridgeExecutor`. -/
structure bridgeExecutor where
  batch : Option TransferBatch
  actionID : Nat
  msgHash : Hash
  retriesOnElrond : Nat
  retriesOnEthereum : Nat
deriving DecidableEq, Repr

/-- State of a running v2 `bridgeExecutor`. -/
abbrev State : Type := ExecState bridgeExecutor

/-- The loop of the v2 `verifyDepositNonces` over the deposits. -/
def verifyDepositNoncesLoop : Nat → List DepositTransfer → Option Error
  | _, [] => none
  | startNonce, dt :: rest =>
    if dt.Nonce != startNonce then
      some (.wrapf ErrInvalidDepositNonce " for deposit %s, expected: %d"
        [.deposit dt, .num startNonce])
    else
      verifyDepositNoncesLoop (toUint64 (startNonce + 1)) rest

/-- The v2 method `verifyDepositNonces`. -/
def verifyDepositNonces (lastNonce : Nat) : Prog State (Option Error) := do
  let executor ← getExecutor
  match executor.batch with
  | none => Prog.crash
  | some batch => return verifyDepositNoncesLoop (toUint64 (lastNonce + 1)) batch.Deposits

/-- The v2 method `VerifyLastDepositNonceExecutedOnEthereumBatch`. -/
def VerifyLastDepositNonceExecutedOnEthereumBatch (c : Collaborators) :
    Prog State (Option Error) := do
  let executor ← getExecutor
  if executor.batch = none then
    return some ErrNilBatch
  else
    let (lastNonce, err) ← call (.elrond .GetLastExecutedEthTxID)
      c.elrondClient.GetLastExecutedEthTxID
    if err ≠ none then
      return err
    else
      verifyDepositNonces lastNonce

/-- The v2 method `GetAndStoreActionIDForProposeTransferOnElrond`. -/
def GetAndStoreActionIDForProposeTransferOnElrond (c : Collaborators) :
    Prog State (Nat × Option Error) := do
  let executor ← getExecutor
  match executor.batch with
  | none => return (InvalidActionID, some ErrNilBatch)
  | some batch =>
    let (actionID, err) ← call (.elrond (.GetActionIDForProposeTransfer batch))
      (fun h => c.elrondClient.GetActionIDForProposeTransfer h batch)
    if err ≠ none then
      return (InvalidActionID, err)
    else
      modifyExecutor (fun e => { e with actionID := actionID })
      return (actionID, none)

/-- The v2 method `GetAndStoreActionIDForProposeSetStatusFromElrond`. -/
def GetAndStoreActionIDForProposeSetStatusFromElrond (c : Collaborators) :
    Prog State (Nat × Option Error) := do
  let executor ← getExecutor
  match executor.batch with
  | none => return (InvalidActionID, some ErrNilBatch)
  | some batch =>
    let (actionID, err) ← call (.elrond (.GetActionIDForSetStatusOnPendingTransfer batch))
      (fun h => c.elrondClient.GetActionIDForSetStatusOnPendingTransfer h batch)
    if err ≠ none then
      return (InvalidActionID, err)
    else
      modifyExecutor (fun e => { e with actionID := actionID })
      return (actionID, none)

/-- The v2 method `GetStoredActionID`. -/
def GetStoredActionID : Prog State Nat := do
  let executor ← getExecutor
  return executor.actionID

/-- The v2 method `WasActionSignedOnElrond`. -/
def WasActionSignedOnElrond (c : Collaborators) : Prog State (Bool × Option Error) := do
  let executor ← getExecutor
  call (.elrond (.WasExecuted executor.actionID))
    (fun h => c.elrondClient.WasExecuted h executor.actionID)

/-- The v2 method `WasActionPerformedOnElrond`. -/
def WasActionPerformedOnElrond (c : Collaborators) : Prog State (Bool × Option Error) := do
  let executor ← getExecutor
  call (.elrond (.WasExecuted executor.actionID))
    (fun h => c.elrondClient.WasExecuted h executor.actionID)

/-- The v2 method `GetAndStoreBatchFromEthereum`: once the error is nil the fetched batch is
stored as it comes, nil included. -/
def GetAndStoreBatchFromEthereum (c : Collaborators) (nonce : Nat) :
    Prog State (Option Error) := do
  let (batch, err) ← call (.ethereum (.GetBatch nonce))
    (fun h => c.ethereumClient.GetBatch h nonce)
  if err ≠ none then
    return err
  else
    modifyExecutor (fun e => { e with batch := batch })
    return none

end v2

/-! ## The quorum check of the legacy executor (`ethToElrond/bridgeExecutors`) -/

namespace bridgeExecutors

/-- The two bridges that the legacy executor holds. -/
inductive Side where
  | source
  | destination
deriving DecidableEq, Repr

/-- A call that the legacy executor makes while it checks a quorum.  The type `ι` stands for
`bridge.ActionId`, declared outside the sources at hand. -/
inductive Call (ι : Type) where
  | SignersCount (side : Side) (actionId : ι)
  | GetQuorum
  | log (level : LogLevel) (message : String) (extras : List LogArg)
deriving DecidableEq, Repr

/-- The collaborators of the quorum check: the method `SignersCount` of the two bridges and
the method `GetQuorum` of the quorum provider, as responses to the calls made before. -/
structure Collaborators (ι : Type) where
  sourceBridge : List (Call ι) → ι → Nat
  destinationBridge : List (Call ι) → ι → Nat
  quorumProvider : List (Call ι) → Nat × Option Error

/-- The bridge on a side. -/
def Collaborators.bridge {ι : Type} (c : Collaborators ι) : Side → List (Call ι) → ι → Nat
  | .source => c.sourceBridge
  | .destination => c.destinationBridge

/-- The fields of `ethElrondBridgeExecutor` that the quorum check reads, and the calls made
so far (oldest first). -/
structure ethElrondBridgeExecutor (ι : Type) where
  executorName : String
  actionId : ι
  history : List (Call ι)
deriving DecidableEq, Repr

/-- Record a call of the legacy executor and return its response. -/
def record {ι α : Type} (event : Call ι) (response : List (Call ι) → α) :
    Prog (ethElrondBridgeExecutor ι) α :=
  fun s => .ret (response s.history) { s with history := s.history ++ [event] }

/-- Read the fields of the legacy executor. -/
def getFields {ι : Type} : Prog (ethElrondBridgeExecutor ι) (ethElrondBridgeExecutor ι) :=
  fun s => .ret s s

/-- Method `appendMessageToName`. -/
def appendMessageToName {ι : Type} (executor : ethElrondBridgeExecutor ι) (message : String) :
    String :=
  executor.executorName ++ ": " ++ message

/-- Method `isQuorumReached`, on two values of type `uint`. -/
def isQuorumReached (quorum count : Nat) : Bool := decide (quorum ≤ count)

/-- Method `isQuorumReachedOnBridge`, the bridge given by its side.  `errorText` is the
method `Error` of an error.  An error of `GetQuorum` is logged; the check goes on with the
quorum returned beside it. -/
def isQuorumReachedOnBridge {ι : Type} (c : Collaborators ι) (errorText : Error → String)
    (side : Side) : Prog (ethElrondBridgeExecutor ι) Bool := do
  let executor ← getFields
  let count ← record (.SignersCount side executor.actionId)
    (fun h => c.bridge side h executor.actionId)
  let (quorum, err) ← record .GetQuorum c.quorumProvider
  match err with
  | some e =>
    record (.log .LogError (appendMessageToName executor (errorText e)) []) (fun _ => ())
  | none => pure ()
  record (.log .LogInfo (appendMessageToName executor "got signatures")
    [.str "got", .num count, .str "quorum", .num quorum]) (fun _ => ())
  return isQuorumReached quorum count

/-- Method `IsQuorumReachedForProposeTransfer`. -/
def IsQuorumReachedForProposeTransfer {ι : Type} (c : Collaborators ι)
    (errorText : Error → String) : Prog (ethElrondBridgeExecutor ι) Bool :=
  isQuorumReachedOnBridge c errorText .destination

/-- Method `IsQuorumReachedForProposeSetStatus`. -/
def IsQuorumReachedForProposeSetStatus {ι : Type} (c : Collaborators ι)
    (errorText : Error → String) : Prog (ethElrondBridgeExecutor ι) Bool :=
  isQuorumReachedOnBridge c errorText .source

end bridgeExecutors

/-! ## Steps -/

/-- Step identifiers (`core.StepIdentifier`, a string).  The constants are declared outside
the sources at hand; each one named there is a label of its own. -/
inductive StepIdentifier where
  | GettingPendingBatchFromElrond
  | SigningProposedTransferOnEthereum
  | WaitingForQuorumOnTransfer
  | PerformingTransfer
  | WaitingTransferConfirmation
  | ResolvingSetStatusOnElrond
  | ProposingSetStatusOnElrond
  | SigningProposedTransferOnElrond
  | GettingPendingBatchFromEthereum
  | WaitingForQuorum
  | PerformingActionID
deriving DecidableEq, Repr

/-! ### Elrond->Ethereum steps of `bridges/ethElrond` -/

namespace elrondToEth

open StepIdentifier

/-- The part of the interface `Executor` that the steps below call.  A step works with any
implementation, over any state `σ`. -/
structure Executor (σ : Type) where
  PrintInfo : LogLevel → String → List LogArg → Prog σ Unit
  ResetRetriesCountOnEthereum : Prog σ Unit
  ResetRetriesCountOnElrond : Prog σ Unit
  GetBatchFromElrond : Prog σ (Option TransferBatch × Option Error)
  StoreBatchFromElrond : Option TransferBatch → Prog σ (Option Error)
  WasTransferPerformedOnEthereum : Prog σ (Bool × Option Error)
  ProcessMaxQuorumRetriesOnEthereum : Prog σ Bool
  ProcessQuorumReachedOnEthereum : Prog σ (Bool × Option Error)

/-- Method `getPendingStep.Identifier`. -/
def getPendingStep.Identifier : StepIdentifier := GettingPendingBatchFromElrond

/-- Method `getPendingStep.Execute`.  `batchToString` is the method `String` of a batch. -/
def getPendingStep.Execute {σ : Type} (bridge : Executor σ)
    (batchToString : TransferBatch → String) : Prog σ StepIdentifier := do
  bridge.ResetRetriesCountOnEthereum
  bridge.ResetRetriesCountOnElrond
  let (batch, err) ← bridge.GetBatchFromElrond
  if err ≠ none then
    bridge.PrintInfo .LogDebug "error fetching Elrond batch" [.str "error", .err err]
    return getPendingStep.Identifier
  else
    match batch with
    | none =>
      bridge.PrintInfo .LogDebug "no new batch found on Elrond" []
      return getPendingStep.Identifier
    | some b =>
      let err ← bridge.StoreBatchFromElrond batch
      if err ≠ none then
        bridge.PrintInfo .LogError "error storing Elrond batch" [.str "error", .err err]
        return getPendingStep.Identifier
      else
        bridge.PrintInfo .LogInfo ("fetched new batch from Elrond " ++ batchToString b) []
        let (wasPerformed, err) ← bridge.WasTransferPerformedOnEthereum
        if err ≠ none then
          bridge.PrintInfo .LogError "error determining if transfer was performed or not"
            [.str "error", .err err]
          return getPendingStep.Identifier
        else if wasPerformed then
          bridge.PrintInfo .LogInfo "transfer performed" []
          return ResolvingSetStatusOnElrond
        else
          return SigningProposedTransferOnEthereum

/-- Method `waitForQuorumOnTransferStep.Identifier`. -/
def waitForQuorumOnTransferStep.Identifier : StepIdentifier := WaitingForQuorumOnTransfer

/-- Method `waitForQuorumOnTransferStep.Execute`. -/
def waitForQuorumOnTransferStep.Execute {σ : Type} (bridge : Executor σ) :
    Prog σ StepIdentifier := do
  if (← bridge.ProcessMaxQuorumRetriesOnEthereum) then
    bridge.PrintInfo .LogDebug "max number of retries reached, resetting counter" []
    return GettingPendingBatchFromElrond
  else
    let (isQuorumReached, err) ← bridge.ProcessQuorumReachedOnEthereum
    if err ≠ none then
      bridge.PrintInfo .LogError "error while checking the quorum on Ethereum"
        [.str "error", .err err]
      return GettingPendingBatchFromElrond
    else
      bridge.PrintInfo .LogDebug "quorum reached check"
        [.str "is reached", .bool isQuorumReached]
      if !isQuorumReached then
        return waitForQuorumOnTransferStep.Identifier
      else
        return PerformingTransfer

end elrondToEth

/-- The `bridgeExecutor` of `bridges/ethElrond` behind the interface `Executor`, as the steps
receive it. -/
def ethElrond.asExecutor (c : Collaborators) (r : ethElrond.Rendering) :
    elrondToEth.Executor ethElrond.State :=
  { PrintInfo := ethElrond.PrintInfo r
    ResetRetriesCountOnEthereum := ethElrond.ResetRetriesCountOnEthereum
    ResetRetriesCountOnElrond := ethElrond.ResetRetriesCountOnElrond
    GetBatchFromElrond := ethElrond.GetBatchFromElrond c
    StoreBatchFromElrond := ethElrond.StoreBatchFromElrond
    WasTransferPerformedOnEthereum := ethElrond.WasTransferPerformedOnEthereum c
    ProcessMaxQuorumRetriesOnEthereum := ethElrond.ProcessMaxQuorumRetriesOnEthereum
    ProcessQuorumReachedOnEthereum := ethElrond.ProcessQuorumReachedOnEthereum c }

/-! ### Sequences of operations on the executor -/

/-- A run of `p` whose returned value is dropped. -/
def Prog.discard {σ α : Type} (p : Prog σ α) : Prog σ Unit := do
  let _ ← p
  return ()

/-- A call of an exported method of the `bridgeExecutor`, with its arguments. -/
inductive ethElrond.Operation where
  | PrintInfo (level : LogLevel) (message : String) (extras : List LogArg)
  | MyTurnAsLeader
  | GetBatchFromElrond
  | StoreBatchFromElrond (batch : Option TransferBatch)
  | GetStoredBatch
  | GetLastExecutedEthBatchIDFromElrond
  | VerifyLastDepositNonceExecutedOnEthereumBatch
  | GetAndStoreActionIDForProposeTransferOnElrond
  | GetAndStoreActionIDForProposeSetStatusFromElrond
  | GetStoredActionID
  | WasTransferProposedOnElrond
  | ProposeTransferOnElrond
  | ProcessMaxRetriesOnWasTransferProposedOnElrond
  | ResetRetriesOnWasTransferProposedOnElrond
  | WasSetStatusProposedOnElrond
  | ProposeSetStatusOnElrond
  | WasActionSignedOnElrond
  | SignActionOnElrond
  | ProcessQuorumReachedOnElrond
  | WaitForTransferConfirmation
  | WaitAndReturnFinalBatchStatuses
  | GetBatchStatusesFromEthereum
  | WasActionPerformedOnElrond
  | PerformActionOnElrond
  | ResolveNewDepositsStatuses (numDeposits : Nat)
  | ProcessMaxQuorumRetriesOnElrond
  | ResetRetriesCountOnElrond
  | GetAndStoreBatchFromEthereum (nonce : Nat)
  | WasTransferPerformedOnEthereum
  | SignTransferOnEthereum
  | PerformTransferOnEthereum
  | ProcessQuorumReachedOnEthereum
  | ProcessMaxQuorumRetriesOnEthereum
  | ResetRetriesCountOnEthereum
  | ClearStoredP2PSignaturesForEthereum
  | ValidateBatch (batch : Option TransferBatch)
  | CheckElrondClientAvailability
  | CheckEthereumClientAvailability
deriving DecidableEq, Repr

/-- The method that an operation calls, its returned value dropped. -/
def ethElrond.Operation.run (c : Collaborators) (r : ethElrond.Rendering) :
    ethElrond.Operation → Prog ethElrond.State Unit
  | .PrintInfo level message extras => ethElrond.PrintInfo r level message extras
  | .MyTurnAsLeader => Prog.discard (ethElrond.MyTurnAsLeader c)
  | .GetBatchFromElrond => Prog.discard (ethElrond.GetBatchFromElrond c)
  | .StoreBatchFromElrond batch => Prog.discard (ethElrond.StoreBatchFromElrond batch)
  | .GetStoredBatch => Prog.discard (ethElrond.GetStoredBatch)
  | .GetLastExecutedEthBatchIDFromElrond => Prog.discard (ethElrond.GetLastExecutedEthBatchIDFromElrond c)
  | .VerifyLastDepositNonceExecutedOnEthereumBatch => Prog.discard (ethElrond.VerifyLastDepositNonceExecutedOnEthereumBatch c)
  | .GetAndStoreActionIDForProposeTransferOnElrond => Prog.discard (ethElrond.GetAndStoreActionIDForProposeTransferOnElrond c)
  | .GetAndStoreActionIDForProposeSetStatusFromElrond => Prog.discard (ethElrond.GetAndStoreActionIDForProposeSetStatusFromElrond c)
  | .GetStoredActionID => Prog.discard (ethElrond.GetStoredActionID)
  | .WasTransferProposedOnElrond => Prog.discard (ethElrond.WasTransferProposedOnElrond c)
  | .ProposeTransferOnElrond => Prog.discard (ethElrond.ProposeTransferOnElrond c)
  | .ProcessMaxRetriesOnWasTransferProposedOnElrond => Prog.discard (ethElrond.ProcessMaxRetriesOnWasTransferProposedOnElrond)
  | .ResetRetriesOnWasTransferProposedOnElrond => ethElrond.ResetRetriesOnWasTransferProposedOnElrond
  | .WasSetStatusProposedOnElrond => Prog.discard (ethElrond.WasSetStatusProposedOnElrond c)
  | .ProposeSetStatusOnElrond => Prog.discard (ethElrond.ProposeSetStatusOnElrond c)
  | .WasActionSignedOnElrond => Prog.discard (ethElrond.WasActionSignedOnElrond c)
  | .SignActionOnElrond => Prog.discard (ethElrond.SignActionOnElrond c)
  | .ProcessQuorumReachedOnElrond => Prog.discard (ethElrond.ProcessQuorumReachedOnElrond c)
  | .WaitForTransferConfirmation => ethElrond.WaitForTransferConfirmation c
  | .WaitAndReturnFinalBatchStatuses => Prog.discard (ethElrond.WaitAndReturnFinalBatchStatuses c)
  | .GetBatchStatusesFromEthereum => Prog.discard (ethElrond.GetBatchStatusesFromEthereum c)
  | .WasActionPerformedOnElrond => Prog.discard (ethElrond.WasActionPerformedOnElrond c)
  | .PerformActionOnElrond => Prog.discard (ethElrond.PerformActionOnElrond c)
  | .ResolveNewDepositsStatuses numDeposits => ethElrond.ResolveNewDepositsStatuses c numDeposits
  | .ProcessMaxQuorumRetriesOnElrond => Prog.discard (ethElrond.ProcessMaxQuorumRetriesOnElrond)
  | .ResetRetriesCountOnElrond => ethElrond.ResetRetriesCountOnElrond
  | .GetAndStoreBatchFromEthereum nonce => Prog.discard (ethElrond.GetAndStoreBatchFromEthereum c nonce)
  | .WasTransferPerformedOnEthereum => Prog.discard (ethElrond.WasTransferPerformedOnEthereum c)
  | .SignTransferOnEthereum => Prog.discard (ethElrond.SignTransferOnEthereum c)
  | .PerformTransferOnEthereum => Prog.discard (ethElrond.PerformTransferOnEthereum c)
  | .ProcessQuorumReachedOnEthereum => Prog.discard (ethElrond.ProcessQuorumReachedOnEthereum c)
  | .ProcessMaxQuorumRetriesOnEthereum => Prog.discard (ethElrond.ProcessMaxQuorumRetriesOnEthereum)
  | .ResetRetriesCountOnEthereum => ethElrond.ResetRetriesCountOnEthereum
  | .ClearStoredP2PSignaturesForEthereum => ethElrond.ClearStoredP2PSignaturesForEthereum
  | .ValidateBatch batch => Prog.discard (ethElrond.ValidateBatch c batch)
  | .CheckElrondClientAvailability => Prog.discard (ethElrond.CheckElrondClientAvailability c)
  | .CheckEthereumClientAvailability => Prog.discard (ethElrond.CheckEthereumClientAvailability c)

/-- The operations of a list, called one after the other. -/
def ethElrond.Operation.runAll (c : Collaborators) (r : ethElrond.Rendering) :
    List ethElrond.Operation → Prog ethElrond.State Unit
  | [] => return ()
  | operation :: rest => do
    operation.run c r
    ethElrond.Operation.runAll c r rest

/-! ### Elrond->Ethereum steps of `ethToElrond/v2` -/

namespace v2.elrondToEth.steps

open StepIdentifier

/-- The part of the interface `ElrondToEthBridge` that the steps below call; `Log` stands
for a call on the logger that `GetLogger` returns. -/
structure ElrondToEthBridge (σ : Type) where
  Log : LogLevel → String → List LogArg → Prog σ Unit
  WasTransferPerformedOnEthereum : Prog σ (Bool × Option Error)
  MyTurnAsLeader : Prog σ Bool
  PerformTransferOnEthereum : Prog σ (Option Error)
  ResetRetriesCountOnEthereum : Prog σ Unit
  ResetRetriesCountOnElrond : Prog σ Unit
  GetBatchFromElrond : Prog σ (Option TransferBatch × Option Error)
  StoreBatchFromElrond : Option TransferBatch → Prog σ (Option Error)
  GetStoredBatchFromElrond : Prog σ (Option TransferBatch)

/-- Method `performTransferStep.Execute` of the v2 steps. -/
def performTransferStep.Execute {σ : Type} (bridge : ElrondToEthBridge σ) :
    Prog σ (StepIdentifier × Option Error) := do
  let (wasPerformed, err) ← bridge.WasTransferPerformedOnEthereum
  if err ≠ none then
    bridge.Log .LogError "error determining if transfer was performed or not"
      [.str "error", .err err]
    return (GettingPendingBatchFromElrond, none)
  else if wasPerformed then
    bridge.Log .LogInfo "transfer performed" []
    return (ResolvingSetStatusOnElrond, none)
  else
    if !(← bridge.MyTurnAsLeader) then
      let err ← bridge.PerformTransferOnEthereum
      if err ≠ none then
        bridge.Log .LogInfo "error performing action ID" [.str "error", .err err]
        return (GettingPendingBatchFromElrond, none)
      else
        return (WaitingTransferConfirmation, none)
    else
      bridge.Log .LogDebug "not my turn as leader in this round" []
      return (WaitingTransferConfirmation, none)

/-- Method `performTransferStep.Identifier` of the v2 steps. -/
def performTransferStep.Identifier : StepIdentifier := PerformingTransfer

/-- Method `getPendingStep.Identifier` of the v2 steps. -/
def getPendingStep.Identifier : StepIdentifier := GettingPendingBatchFromElrond

/-- Method `getPendingStep.Execute` of the v2 steps.  `batchToString` is the method `String`
of a batch. -/
def getPendingStep.Execute {σ : Type} (bridge : ElrondToEthBridge σ)
    (batchToString : TransferBatch → String) : Prog σ (StepIdentifier × Option Error) := do
  bridge.ResetRetriesCountOnEthereum
  bridge.ResetRetriesCountOnElrond
  let (batch, err) ← bridge.GetBatchFromElrond
  if err ≠ none then
    bridge.Log .LogError "error fetching Elrond batch" [.str "error", .err err]
    return (getPendingStep.Identifier, none)
  else
    match batch with
    | none =>
      bridge.Log .LogDebug "no new batch found on Elrond" []
      return (getPendingStep.Identifier, none)
    | some b =>
      let err ← bridge.StoreBatchFromElrond batch
      if err ≠ none then
        bridge.Log .LogError "error storing Elrond batch" [.str "error", .err err]
        return (getPendingStep.Identifier, none)
      else
        let storedBatch ← bridge.GetStoredBatchFromElrond
        match storedBatch with
        | none =>
          bridge.Log .LogDebug "nil batch stored" []
          return (getPendingStep.Identifier, none)
        | some _ =>
          bridge.Log .LogInfo ("fetched new batch from Elrond " ++ batchToString b) []
          let (wasPerformed, err) ← bridge.WasTransferPerformedOnEthereum
          if err ≠ none then
            bridge.Log .LogError "error determining if transfer was performed or not"
              [.str "error", .err err]
            return (GettingPendingBatchFromElrond, none)
          else if wasPerformed then
            bridge.Log .LogInfo "transfer performed" []
            return (ProposingSetStatusOnElrond, none)
          else
            return (SigningProposedTransferOnEthereum, none)

end v2.elrondToEth.steps

/-! ## The gas station (`bridge/gasManagement/gasStation.go`) -/

namespace gasManagement

/-- The gas price selector (`core.EthGasPriceSelector`, a string): one of the four constants
or any other string `s`. -/
inductive EthGasPriceSelector where
  | EthFastGasPrice
  | EthFastestGasPrice
  | EthSafeLowGasPrice
  | EthAverageGasPrice
  | other (s : String)
deriving DecidableEq, Repr

/-- The string of a selector, for messages. -/
def EthGasPriceSelector.String : EthGasPriceSelector → String
  | .EthFastGasPrice => "EthFastGasPrice"
  | .EthFastestGasPrice => "EthFastestGasPrice"
  | .EthSafeLowGasPrice => "EthSafeLowGasPrice"
  | .EthAverageGasPrice => "EthAverageGasPrice"
  | .other s => s

/-- The fields of `gasStationResponse` that the gas station reads. -/
structure gasStationResponse where
  Fast : Int
  Fastest : Int
  SafeLow : Int
  Average : Int
deriving DecidableEq, Repr

/-- Sentinel error `ErrLatestGasPricesWereNotFetched`. -/
def ErrLatestGasPricesWereNotFetched : Error :=
  .sentinel "gasManagement" "ErrLatestGasPricesWereNotFetched"

/-- Sentinel error `ErrInvalidGasPriceSelector`. -/
def ErrInvalidGasPriceSelector : Error := .sentinel "gasManagement" "ErrInvalidGasPriceSelector"

/-- Sentinel error `ErrGasPriceIsHigherThanTheMaximumSet`. -/
def ErrGasPriceIsHigherThanTheMaximumSet : Error :=
  .sentinel "gasManagement" "ErrGasPriceIsHigherThanTheMaximumSet"

/-- The data fields of the struct `gasStation`; durations are in nanoseconds. -/
structure gasStation where
  requestURL : String
  requestTime : Int
  requestPollingInterval : Int
  maximumGasPrice : Int
  gasPriceSelector : EthGasPriceSelector
  latestResponse : Option gasStationResponse
deriving DecidableEq, Repr

/-- The constant `minPollingInterval`: one second. -/
def minPollingInterval : Int := 1000000000

/-- The constant `minRequestTime`: one millisecond. -/
def minRequestTime : Int := 1000000

/-- Sentinel error `ErrInvalidValue` of the package. -/
def ErrInvalidValue : Error := .sentinel "gasManagement" "ErrInvalidValue"

/-- The arguments `ArgsGasStation`; durations are in nanoseconds. -/
structure ArgsGasStation where
  RequestURL : String
  RequestPollingInterval : Int
  RequestTime : Int
  MaximumGasPrice : Int
  GasPriceSelector : EthGasPriceSelector
deriving DecidableEq, Repr

/-- The function `checkArgs` of the gas station. -/
def checkArgs (args : ArgsGasStation) : Option Error :=
  if args.RequestPollingInterval < minPollingInterval then
    some (.wrapf ErrInvalidValue " in checkArgs for value RequestPollingInterval" [])
  else if args.RequestTime < minRequestTime then
    some (.wrapf ErrInvalidValue " in checkArgs for value RequestTime" [])
  else
    match args.GasPriceSelector with
    | .EthFastGasPrice => none
    | .EthFastestGasPrice => none
    | .EthSafeLowGasPrice => none
    | .EthAverageGasPrice => none
    | .other _ =>
      some (.wrapf ErrInvalidGasPriceSelector ": %q" [.str args.GasPriceSelector.String])

/-- The function `NewGasStation`: the station as it is returned, before the first poll of the
loop it starts. -/
def NewGasStation (args : ArgsGasStation) : Option gasStation × Option Error :=
  match checkArgs args with
  | some err => (none, some err)
  | none =>
    (some { requestURL := args.RequestURL
            requestTime := args.RequestTime
            requestPollingInterval := args.RequestPollingInterval
            maximumGasPrice := args.MaximumGasPrice
            gasPriceSelector := args.GasPriceSelector
            latestResponse := none }, none)

/-- What the HTTP round trip of one poll gives: the error of building the request, of the
client's `Do` and of reading the body, each nil when that stage went well, and the body. -/
structure HTTPExchange where
  newRequestError : Option Error
  doError : Option Error
  readError : Option Error
  body : List Nat
deriving DecidableEq, Repr

/-- Method `doRequestReturningBytes`, on the round trip `x`. -/
def doRequestReturningBytes (x : HTTPExchange) : Option (List Nat) × Option Error :=
  if x.newRequestError ≠ none then
    (none, x.newRequestError)
  else if x.doError ≠ none then
    (none, x.doError)
  else if x.readError ≠ none then
    (none, x.readError)
  else
    (some x.body, none)

/-- Method `doRequest`, on the round trip `x`: the station after it and the error.
`unmarshal` is `json.Unmarshal` into a fresh `gasStationResponse`. -/
def doRequest (unmarshal : List Nat → gasStationResponse × Option Error) (gs : gasStation)
    (x : HTTPExchange) : gasStation × Option Error :=
  match doRequestReturningBytes x with
  | (bytes, none) =>
    match unmarshal (bytes.getD []) with
    | (response, none) => ({ gs with latestResponse := some response }, none)
    | (_, some err) => (gs, some err)
  | (_, some err) => (gs, some err)

/-- Method `processLoop`, as far as the station goes: the polls made until the context is
done, one `doRequest` per round trip, errors being logged only. -/
def processLoop (unmarshal : List Nat → gasStationResponse × Option Error) (gs : gasStation) :
    List HTTPExchange → gasStation
  | [] => gs
  | x :: rest => processLoop unmarshal (doRequest unmarshal gs x).1 rest

/-- Method `GetCurrentGasPrice`, a read of the station under its read lock. -/
def GetCurrentGasPrice (gs : gasStation) : Int × Option Error :=
  match gs.latestResponse with
  | none => (0, some ErrLatestGasPricesWereNotFetched)
  | some latestResponse =>
    let selected : Option Int :=
      match gs.gasPriceSelector with
      | .EthFastGasPrice => some latestResponse.Fast
      | .EthFastestGasPrice => some latestResponse.Fastest
      | .EthSafeLowGasPrice => some latestResponse.SafeLow
      | .EthAverageGasPrice => some latestResponse.Average
      | .other _ => none
    match selected with
    | none => (0, some (.wrapf ErrInvalidGasPriceSelector ": %q" [.str gs.gasPriceSelector.String]))
    | some gasPrice =>
      if gasPrice > gs.maximumGasPrice then
        (0, some (.wrapf ErrGasPriceIsHigherThanTheMaximumSet
          " maximum value: %d, fetched value: %d, gas price selector: %s"
          [.num gs.maximumGasPrice, .num gasPrice, .str gs.gasPriceSelector.String]))
      else
        (gasPrice, none)

end gasManagement

/-! ## Test doubles

Collaborators that answer every call with zero values and no error; a scenario overrides the
responses it needs. -/

/-- Elrond client answering zero values and no error. -/
def ElrondClient.quiet : ElrondClient :=
  { GetPending := fun _ => (none, none)
    GetLastExecutedEthBatchID := fun _ => (0, none)
    GetLastExecutedEthTxID := fun _ => (0, none)
    GetActionIDForProposeTransfer := fun _ _ => (0, none)
    GetActionIDForSetStatusOnPendingTransfer := fun _ _ => (0, none)
    WasProposedTransfer := fun _ _ => (false, none)
    ProposeTransfer := fun _ _ => ("", none)
    WasProposedSetStatus := fun _ _ => (false, none)
    ProposeSetStatus := fun _ _ => ("", none)
    WasSigned := fun _ _ => (false, none)
    Sign := fun _ _ => ("", none)
    QuorumReached := fun _ _ => (false, none)
    WasExecuted := fun _ _ => (false, none)
    PerformAction := fun _ _ _ => ("", none)
    GetMaxNumberOfRetriesOnQuorumReached := fun _ => 0
    CheckClientAvailability := fun _ => none }

/-- Ethereum client answering zero values and no error. -/
def EthereumClient.quiet : EthereumClient :=
  { GetBatch := fun _ _ => (none, none)
    GetTransactionsStatuses := fun _ _ => (none, none)
    WasExecuted := fun _ _ => (false, none)
    GenerateMessageHash := fun _ _ => (0, none)
    GetQuorumSize := fun _ => (some 0, none)
    ExecuteTransfer := fun _ _ _ _ => ("", none)
    IsQuorumReached := fun _ _ => (false, none)
    GetMaxNumberOfRetriesOnQuorumReached := fun _ => 0
    CheckClientAvailability := fun _ => none }

/-- Collaborators of a `bridges/ethElrond` executor around the two given clients. -/
def Collaborators.around (elrondClient : ElrondClient) (ethereumClient : EthereumClient) :
    Collaborators :=
  { topologyProvider := { MyTurnAsLeader := fun _ => false }
    elrondClient := elrondClient
    ethereumClient := ethereumClient
    batchValidator := { ValidateBatch := fun _ _ => (true, none) }
    timerFiresBeforeContextDone := fun _ => true
    resolveNewDepositsReturnsOnNilBatch := false }

/-- Collaborators of a v2 executor around the two given clients. -/
def v2.Collaborators.around (elrondClient : ElrondClient) (ethereumClient : EthereumClient) :
    v2.Collaborators :=
  { topologyProviderOnElrond := { MyTurnAsLeader := fun _ => false }
    topologyProviderOnEthereum := { MyTurnAsLeader := fun _ => false }
    elrondClient := elrondClient
    ethereumClient := ethereumClient }

/-- A deposit with the given nonce and empty fields otherwise. -/
def depositWithNonce (nonce : Nat) : DepositTransfer :=
  { Nonce := nonce, ToBytes := [], DisplayableTo := "", FromBytes := [], DisplayableFrom := "",
    TokenBytes := [], DisplayableToken := "", ConvertedTokenBytes := [], Amount := 0 }

/-- A batch with the given id whose deposits carry the given nonces, all pending. -/
def batchWithNonces (id : Nat) (nonces : List Nat) : TransferBatch :=
  { ID := id, Deposits := nonces.map depositWithNonce, Statuses := nonces.map (fun _ => 0) }

/-- Arguments of a `bridges/ethElrond` executor with the given retry bounds, around the quiet
collaborators. -/
def ethElrond.argsWithBounds (onEthereum onElrond onWasProposed : Nat) :
    ethElrond.ArgsBridgeExecutor :=
  { Log := some {}
    TopologyProvider := some { MyTurnAsLeader := fun _ => false }
    ElrondClient := some ElrondClient.quiet
    EthereumClient := some EthereumClient.quiet
    TimeForWaitOnEthereum := 1000000000
    StatusHandler := some {}
    SignaturesHolder := some {}
    BatchValidator := some { ValidateBatch := fun _ _ => (true, none) }
    MaxQuorumRetriesOnEthereum := onEthereum
    MaxQuorumRetriesOnElrond := onElrond
    MaxRestriesOnWasProposed := onWasProposed }

/-- A `bridges/ethElrond` executor with every retry bound at `bound`, holding `batch`. -/
def ethElrond.executorHolding (bound : Nat) (batch : Option TransferBatch) :
    ethElrond.bridgeExecutor :=
  { ethElrond.createBridgeExecutor (ethElrond.argsWithBounds bound bound bound) with
    batch := batch }

/-- A state of a `bridges/ethElrond` executor with every retry bound at `bound`, holding
`batch`, before any call. -/
def ethElrond.stateHolding (bound : Nat) (batch : Option TransferBatch) : ethElrond.State :=
  ⟨ethElrond.executorHolding bound batch, []⟩

/-- A v2 executor holding `batch`. -/
def v2.executorHolding (batch : Option TransferBatch) : v2.bridgeExecutor :=
  { batch := batch, actionID := 0, msgHash := 0, retriesOnElrond := 0, retriesOnEthereum := 0 }

/-- A gas station with maximum 100 and selector fast whose last response has `fast`. -/
def gasManagement.stationWithFast (fast : Int) : gasManagement.gasStation :=
  { requestURL := "", requestTime := 1000000, requestPollingInterval := 1000000000,
    maximumGasPrice := 100, gasPriceSelector := .EthFastGasPrice,
    latestResponse := some { Fast := fast, Fastest := 0, SafeLow := 0, Average := 0 } }

/-- An Elrond client that answers action id 7 for a proposed transfer and fails, with an
error of its own, when asked for the action id of a set-status. -/
def ElrondClient.knowsTransferOnly : ElrondClient :=
  { ElrondClient.quiet with
    GetActionIDForProposeTransfer := fun _ _ => (7, none)
    GetActionIDForSetStatusOnPendingTransfer := fun _ _ => (9, some (.external 1)) }

/-- An Elrond client on which this relayer has signed every action and no action was
executed yet. -/
def ElrondClient.signedNotExecuted : ElrondClient :=
  { ElrondClient.quiet with
    WasSigned := fun _ _ => (true, none)
    WasExecuted := fun _ _ => (false, none) }

/-- An Ethereum client whose statuses are empty until four calls were made by the executor
and are executed, rejected afterwards. -/
def EthereumClient.statusesLate : EthereumClient :=
  { EthereumClient.quiet with
    GetTransactionsStatuses := fun h _ => if h.length < 4 then (some [], none) else (some [3, 4], none) }

/-- Collaborators around the two quiet clients whose context is cancelled once `after` calls
were made by the executor. -/
def Collaborators.cancelledAfter (after : Nat) : Collaborators :=
  { Collaborators.around ElrondClient.quiet EthereumClient.quiet with
    timerFiresBeforeContextDone := fun h => decide (h.length < after) }

/-- A decoder standing for `json.Unmarshal`: it reads a body of four numbers as the four
prices and fails, with an error of its own, on any other body. -/
def gasManagement.decodeFour : List Nat → gasManagement.gasStationResponse × Option Error
  | [fast, fastest, safeLow, average] =>
    ({ Fast := fast, Fastest := fastest, SafeLow := safeLow, Average := average }, none)
  | _ => ({ Fast := 0, Fastest := 0, SafeLow := 0, Average := 0 }, some (.external 2))

/-- A round trip of the gas station that gives `body` without error. -/
def gasManagement.HTTPExchange.ok (body : List Nat) : gasManagement.HTTPExchange :=
  { newRequestError := none, doError := none, readError := none, body := body }

/-- A round trip of the gas station whose request fails. -/
def gasManagement.HTTPExchange.refused : gasManagement.HTTPExchange :=
  { newRequestError := none, doError := some (.external 1), readError := none, body := [] }

/-- Arguments of a gas station polling every second with the given selector. -/
def gasManagement.argsWithSelector (selector : gasManagement.EthGasPriceSelector) :
    gasManagement.ArgsGasStation :=
  { RequestURL := "", RequestPollingInterval := 1000000000, RequestTime := 1000000,
    MaximumGasPrice := 100, GasPriceSelector := selector }

/-- The station of `NewGasStation` for the selector fast: no response fetched yet. -/
def gasManagement.freshStation : gasManagement.gasStation :=
  { requestURL := "", requestTime := 1000000, requestPollingInterval := 1000000000,
    maximumGasPrice := 100, gasPriceSelector := .EthFastGasPrice, latestResponse := none }

/-- The values that the recorded calls wrote to a string metric of the status handler,
oldest first. -/
def stringMetricWrites (metric : String) (history : List Event) : List String :=
  history.filterMap (fun event =>
    match event with
    | .setStringMetric m value => if m = metric then some value else none
    | _ => none)

/-- A rendering for scenarios: a level is written by its name, an extra by a short text. -/
def ethElrond.Rendering.plain : ethElrond.Rendering :=
  { levelString := fun level =>
      match level with
      | .LogTrace => "TRACE"
      | .LogDebug => "DEBUG"
      | .LogInfo => "INFO"
      | .LogWarning => "WARN"
      | .LogError => "ERROR"
      | .LogNone => "NONE"
    convertObjectToString := fun arg =>
      match arg with
      | .str text => text
      | .num n => toString n
      | .bool b => toString b
      | .err none => "<nil>"
      | .err (some _) => "error"
      | .bytes _ => "bytes" }

/-- The program keeps the observation `f` of the executor's fields: after a run, returned or
crashed, `f` has the value it had before. -/
def Prog.Keeps {ε α β : Type} (f : ε → β) (p : Prog (ExecState ε) α) : Prop :=
  ∀ s : ExecState ε, f (p s).state.executor = f s.executor

/-- An Ethereum client that answers every `GenerateMessageHash` with the given hash and
error, and is quiet otherwise. -/
def EthereumClient.hashing (hash : Hash) (err : Option Error) : EthereumClient :=
  { EthereumClient.quiet with GenerateMessageHash := fun _ _ => (hash, err) }

/-- An Elrond client on which `batch` is pending, quiet otherwise. -/
def ElrondClient.pending (batch : TransferBatch) : ElrondClient :=
  { ElrondClient.quiet with GetPending := fun _ => (some batch, none) }

/-- An Ethereum client that answers every `GetBatch` with `batch` and no error, and is quiet
otherwise. -/
def EthereumClient.serving (batch : Option TransferBatch) : EthereumClient :=
  { EthereumClient.quiet with GetBatch := fun _ _ => (batch, none) }

/-- The three retry counters of an executor, each with its bound. -/
def ethElrond.bridgeExecutor.counters (e : ethElrond.bridgeExecutor) :
    (Nat × Nat) × (Nat × Nat) × (Nat × Nat) :=
  ((e.quorumRetriesOnEthereum, e.maxQuorumRetriesOnEthereum),
    (e.quorumRetriesOnElrond, e.maxQuorumRetriesOnElrond),
    (e.retriesOnWasProposed, e.maxRetriesOnWasProposed))

/-- Each retry counter of the executor is at most its configured bound. -/
def ethElrond.bridgeExecutor.CountersWithinBounds (e : ethElrond.bridgeExecutor) : Prop :=
  e.quorumRetriesOnEthereum ≤ e.maxQuorumRetriesOnEthereum ∧
  e.quorumRetriesOnElrond ≤ e.maxQuorumRetriesOnElrond ∧
  e.retriesOnWasProposed ≤ e.maxRetriesOnWasProposed

/-- Collaborators of the legacy executor: `signers` signatures on both bridges and a quorum
provider that answers `quorum`. -/
def bridgeExecutors.Collaborators.answering (signers : Nat) (quorum : Nat × Option Error) :
    bridgeExecutors.Collaborators Nat :=
  { sourceBridge := fun _ _ => signers
    destinationBridge := fun _ _ => signers
    quorumProvider := fun _ => quorum }

/-- A text for an error, for scenarios. -/
def errorTextPlain : Error → String
  | .sentinel _ name => name
  | .external _ => "external error"
  | .wrapf _ format _ => format

/-! ### Executors seen from a step -/

/-- A program returns from every state. -/
def Prog.Returns {σ α : Type} (p : Prog σ α) : Prop := ∀ s : σ, ∃ a s', p s = .ret a s'

/-- One call of a step on its executor, as the step sees it: the method and whether the
error it returned was non-nil. -/
structure Observed where
  method : String
  failed : Bool
deriving DecidableEq, Repr

/-- Run `p` on the first component of the state and, when it returns, note the call. -/
def Prog.observe {σ α : Type} (p : Prog σ α) (record : α → Observed) :
    Prog (σ × List Observed) α := fun s =>
  match p s.1 with
  | .ret a s' => .ret a (s', s.2 ++ [record a])
  | .crash s' => .crash (s', s.2)

/-- Any executor, with every call that returns noted in order. -/
def elrondToEth.Executor.observed {σ : Type} (bridge : elrondToEth.Executor σ) :
    elrondToEth.Executor (σ × List Observed) :=
  { PrintInfo := fun level message extras =>
      (bridge.PrintInfo level message extras).observe (fun _ => ⟨"PrintInfo", false⟩)
    ResetRetriesCountOnEthereum :=
      bridge.ResetRetriesCountOnEthereum.observe (fun _ => ⟨"ResetRetriesCountOnEthereum", false⟩)
    ResetRetriesCountOnElrond :=
      bridge.ResetRetriesCountOnElrond.observe (fun _ => ⟨"ResetRetriesCountOnElrond", false⟩)
    GetBatchFromElrond :=
      bridge.GetBatchFromElrond.observe (fun r => ⟨"GetBatchFromElrond", r.2.isSome⟩)
    StoreBatchFromElrond := fun batch =>
      (bridge.StoreBatchFromElrond batch).observe (fun r => ⟨"StoreBatchFromElrond", r.isSome⟩)
    WasTransferPerformedOnEthereum :=
      bridge.WasTransferPerformedOnEthereum.observe
        (fun r => ⟨"WasTransferPerformedOnEthereum", r.2.isSome⟩)
    ProcessMaxQuorumRetriesOnEthereum :=
      bridge.ProcessMaxQuorumRetriesOnEthereum.observe
        (fun _ => ⟨"ProcessMaxQuorumRetriesOnEthereum", false⟩)
    ProcessQuorumReachedOnEthereum :=
      bridge.ProcessQuorumReachedOnEthereum.observe
        (fun r => ⟨"ProcessQuorumReachedOnEthereum", r.2.isSome⟩) }

/-- Every method of the executor returns from every state. -/
def elrondToEth.Executor.Returns {σ : Type} (bridge : elrondToEth.Executor σ) : Prop :=
  (∀ level message extras, (bridge.PrintInfo level message extras).Returns) ∧
  bridge.ResetRetriesCountOnEthereum.Returns ∧
  bridge.ResetRetriesCountOnElrond.Returns ∧
  bridge.GetBatchFromElrond.Returns ∧
  (∀ batch, (bridge.StoreBatchFromElrond batch).Returns) ∧
  bridge.WasTransferPerformedOnEthereum.Returns ∧
  bridge.ProcessMaxQuorumRetriesOnEthereum.Returns ∧
  bridge.ProcessQuorumReachedOnEthereum.Returns

/-- Return `a` and append `name` to the list of the methods called. -/
def answer {α : Type} (name : String) (a : α) : Prog (List String) α :=
  fun calls => .ret a (calls ++ [name])

/-- The responses of a stub executor. -/
structure elrondToEth.Script where
  GetBatchFromElrond : Option TransferBatch × Option Error
  StoreBatchFromElrond : Option Error
  WasTransferPerformedOnEthereum : Bool × Option Error
  ProcessMaxQuorumRetriesOnEthereum : Bool
  ProcessQuorumReachedOnEthereum : Bool × Option Error

/-- A stub executor: every method answers as the script says and leaves its name in the
state. -/
def elrondToEth.Executor.scripted (script : elrondToEth.Script) :
    elrondToEth.Executor (List String) :=
  { PrintInfo := fun _ _ _ => answer "PrintInfo" ()
    ResetRetriesCountOnEthereum := answer "ResetRetriesCountOnEthereum" ()
    ResetRetriesCountOnElrond := answer "ResetRetriesCountOnElrond" ()
    GetBatchFromElrond := answer "GetBatchFromElrond" script.GetBatchFromElrond
    StoreBatchFromElrond := fun _ => answer "StoreBatchFromElrond" script.StoreBatchFromElrond
    WasTransferPerformedOnEthereum :=
      answer "WasTransferPerformedOnEthereum" script.WasTransferPerformedOnEthereum
    ProcessMaxQuorumRetriesOnEthereum :=
      answer "ProcessMaxQuorumRetriesOnEthereum" script.ProcessMaxQuorumRetriesOnEthereum
    ProcessQuorumReachedOnEthereum :=
      answer "ProcessQuorumReachedOnEthereum" script.ProcessQuorumReachedOnEthereum }

/-- The script of the happy path: a batch is pending, nothing was performed yet, the retries
are not exhausted and the quorum is reached. -/
def elrondToEth.Script.happy : elrondToEth.Script :=
  { GetBatchFromElrond := (some (batchWithNonces 1 [1]), none)
    StoreBatchFromElrond := none
    WasTransferPerformedOnEthereum := (false, none)
    ProcessMaxQuorumRetriesOnEthereum := false
    ProcessQuorumReachedOnEthereum := (true, none) }

/-- A stub of the v2 bridge: the three answers, every method leaving its name in the state. -/
def v2.elrondToEth.steps.ElrondToEthBridge.scripted (wasPerformed : Bool × Option Error)
    (myTurnAsLeader : Bool) (performTransfer : Option Error) :
    v2.elrondToEth.steps.ElrondToEthBridge (List String) :=
  { Log := fun _ _ _ => answer "GetLogger" ()
    WasTransferPerformedOnEthereum := answer "WasTransferPerformedOnEthereum" wasPerformed
    MyTurnAsLeader := answer "MyTurnAsLeader" myTurnAsLeader
    PerformTransferOnEthereum := answer "PerformTransferOnEthereum" performTransfer
    ResetRetriesCountOnEthereum := answer "ResetRetriesCountOnEthereum" ()
    ResetRetriesCountOnElrond := answer "ResetRetriesCountOnElrond" ()
    GetBatchFromElrond := answer "GetBatchFromElrond" (none, none)
    StoreBatchFromElrond := fun _ => answer "StoreBatchFromElrond" none
    GetStoredBatchFromElrond := answer "GetStoredBatchFromElrond" none }

/-- A stub of the v2 bridge that answers as the script of the `bridges/ethElrond` stub says
and reads back `stored` as the stored batch; it is not the leader and performs no transfer. -/
def v2.elrondToEth.steps.ElrondToEthBridge.following (script : elrondToEth.Script)
    (stored : Option TransferBatch) : v2.elrondToEth.steps.ElrondToEthBridge (List String) :=
  { Log := fun _ _ _ => answer "GetLogger" ()
    WasTransferPerformedOnEthereum :=
      answer "WasTransferPerformedOnEthereum" script.WasTransferPerformedOnEthereum
    MyTurnAsLeader := answer "MyTurnAsLeader" false
    PerformTransferOnEthereum := answer "PerformTransferOnEthereum" none
    ResetRetriesCountOnEthereum := answer "ResetRetriesCountOnEthereum" ()
    ResetRetriesCountOnElrond := answer "ResetRetriesCountOnElrond" ()
    GetBatchFromElrond := answer "GetBatchFromElrond" script.GetBatchFromElrond
    StoreBatchFromElrond := fun _ => answer "StoreBatchFromElrond" script.StoreBatchFromElrond
    GetStoredBatchFromElrond := answer "GetStoredBatchFromElrond" stored }

/-- The script in which a batch is fetched and stored and the transfer is found performed
on Ethereum already. -/
def elrondToEth.Script.performed : elrondToEth.Script :=
  { elrondToEth.Script.happy with WasTransferPerformedOnEthereum := (true, none) }

/-- The script in which the fetched batch has the deposit nonces 1 and 3, a gap, is stored
without error, and the transfer was not performed yet. -/
def elrondToEth.Script.gap : elrondToEth.Script :=
  { elrondToEth.Script.happy with GetBatchFromElrond := (some (batchWithNonces 1 [1, 3]), none) }

/-! ## Lemmas on programs -/

@[simp] theorem Prog.pure_apply {σ α : Type} (a : α) (s : σ) :
    (Pure.pure a : Prog σ α) s = Res.ret a s := rfl

@[simp] theorem Prog.bind_apply {σ α β : Type} (p : Prog σ α) (f : α → Prog σ β) (s : σ) :
    (p >>= f) s = match p s with
      | .ret a s' => f a s'
      | .crash s' => .crash s' := rfl

@[simp] theorem Prog.crash_apply {σ α : Type} (s : σ) :
    (Prog.crash : Prog σ α) s = Res.crash s := rfl

@[simp] theorem call_apply {ε α : Type} (event : Event) (response : List Event → α)
    (s : ExecState ε) :
    call event response s = Res.ret (response s.history)
      { s with history := s.history ++ [event] } := rfl

@[simp] theorem getExecutor_apply {ε : Type} (s : ExecState ε) :
    (getExecutor : Prog (ExecState ε) ε) s = Res.ret s.executor s := rfl

@[simp] theorem modifyExecutor_apply {ε : Type} (f : ε → ε) (s : ExecState ε) :
    modifyExecutor f s = Res.ret () { s with executor := f s.executor } := rfl

/-! ## Deposit nonces -/

theorem toUint64_of_lt {n : Nat} (h : n < uint64Size) : toUint64 n = n :=
  Nat.mod_eq_of_lt h

theorem ethElrond.verifyDepositNoncesLoop_eq_none_iff (deposits : List DepositTransfer) :
    ∀ startNonce : Nat, startNonce + deposits.length < uint64Size →
      (ethElrond.verifyDepositNoncesLoop startNonce deposits = none ↔
        ∀ (i : Nat) (h : i < deposits.length), (deposits.get ⟨i, h⟩).Nonce = startNonce + i) := by
  induction deposits with
  | nil => intro startNonce _; simp [ethElrond.verifyDepositNoncesLoop]
  | cons dt rest ih =>
    intro startNonce hlt
    simp only [List.length_cons] at hlt
    have hnext : toUint64 (startNonce + 1) = startNonce + 1 := toUint64_of_lt (by omega)
    simp only [ethElrond.verifyDepositNoncesLoop, hnext]
    by_cases hd : dt.Nonce = startNonce
    · have ihr := ih (startNonce + 1) (by omega)
      simp only [hd, bne_self_eq_false, Bool.false_eq_true, if_false, ihr]
      constructor
      · intro h i hi
        cases i with
        | zero => simp [hd]
        | succ j =>
          have := h j (by simpa using hi)
          simp only [List.get_eq_getElem, List.getElem_cons_succ] at this ⊢
          omega
      · intro h j hj
        have := h (j + 1) (by simpa using hj)
        simp only [List.get_eq_getElem, List.getElem_cons_succ] at this ⊢
        omega
    · have hne : (dt.Nonce != startNonce) = true := by simpa using hd
      simp only [hne, if_true]
      constructor
      · intro h; cases h
      · intro h
        exact absurd (by simpa using h 0 (by simp)) hd

theorem ethElrond.verifyDepositNoncesLoop_error (deposits : List DepositTransfer) :
    ∀ (startNonce : Nat) (e : Error),
      ethElrond.verifyDepositNoncesLoop startNonce deposits = some e →
        e.Is ethElrond.ErrInvalidDepositNonce = true := by
  induction deposits with
  | nil => intro startNonce e h; simp [ethElrond.verifyDepositNoncesLoop] at h
  | cons dt rest ih =>
    intro startNonce e h
    simp only [ethElrond.verifyDepositNoncesLoop] at h
    split at h
    · cases h
      simp [Error.Is, ethElrond.ErrInvalidDepositNonce]
    · exact ih _ e h

theorem v2.verifyDepositNoncesLoop_eq_none_iff_v2 (deposits : List DepositTransfer) :
    ∀ startNonce : Nat, startNonce + deposits.length < uint64Size →
      (v2.verifyDepositNoncesLoop startNonce deposits = none ↔
        ∀ (i : Nat) (h : i < deposits.length), (deposits.get ⟨i, h⟩).Nonce = startNonce + i) := by
  induction deposits with
  | nil => intro startNonce _; simp [v2.verifyDepositNoncesLoop]
  | cons dt rest ih =>
    intro startNonce hlt
    simp only [List.length_cons] at hlt
    have hnext : toUint64 (startNonce + 1) = startNonce + 1 := toUint64_of_lt (by omega)
    simp only [v2.verifyDepositNoncesLoop, hnext]
    by_cases hd : dt.Nonce = startNonce
    · have ihr := ih (startNonce + 1) (by omega)
      simp only [hd, bne_self_eq_false, Bool.false_eq_true, if_false, ihr]
      constructor
      · intro h i hi
        cases i with
        | zero => simp [hd]
        | succ j =>
          have := h j (by simpa using hi)
          simp only [List.get_eq_getElem, List.getElem_cons_succ] at this ⊢
          omega
      · intro h j hj
        have := h (j + 1) (by simpa using hj)
        simp only [List.get_eq_getElem, List.getElem_cons_succ] at this ⊢
        omega
    · have hne : (dt.Nonce != startNonce) = true := by simpa using hd
      simp only [hne, if_true]
      constructor
      · intro h; cases h
      · intro h
        exact absurd (by simpa using h 0 (by simp)) hd

theorem v2.verifyDepositNoncesLoop_error_v2 (deposits : List DepositTransfer) :
    ∀ (startNonce : Nat) (e : Error),
      v2.verifyDepositNoncesLoop startNonce deposits = some e →
        e.Is v2.ErrInvalidDepositNonce = true := by
  induction deposits with
  | nil => intro startNonce e h; simp [v2.verifyDepositNoncesLoop] at h
  | cons dt rest ih =>
    intro startNonce e h
    simp only [v2.verifyDepositNoncesLoop] at h
    split at h
    · cases h
      simp [Error.Is, v2.ErrInvalidDepositNonce]
    · exact ih _ e h

/-- With a stored batch and the Elrond client answering the last executed nonce `L`, the
verification makes that one client call and returns the result of the loop. -/
theorem ethElrond.VerifyLastDepositNonce_run (c : Collaborators) (s : ethElrond.State)
    (b : TransferBatch) (L : Nat) (hb : s.executor.batch = some b)
    (hL : c.elrondClient.GetLastExecutedEthTxID s.history = (L, none)) :
    ethElrond.VerifyLastDepositNonceExecutedOnEthereumBatch c s =
      .ret (ethElrond.verifyDepositNoncesLoop (toUint64 (L + 1)) b.Deposits)
        { s with history := s.history ++ [.elrond .GetLastExecutedEthTxID] } := by
  simp [ethElrond.VerifyLastDepositNonceExecutedOnEthereumBatch, ethElrond.verifyDepositNonces,
    hb, hL]

theorem v2.VerifyLastDepositNonce_run_v2 (c : v2.Collaborators) (s : v2.State)
    (b : TransferBatch) (L : Nat) (hb : s.executor.batch = some b)
    (hL : c.elrondClient.GetLastExecutedEthTxID s.history = (L, none)) :
    v2.VerifyLastDepositNonceExecutedOnEthereumBatch c s =
      .ret (v2.verifyDepositNoncesLoop (toUint64 (L + 1)) b.Deposits)
        { s with history := s.history ++ [.elrond .GetLastExecutedEthTxID] } := by
  simp [v2.VerifyLastDepositNonceExecutedOnEthereumBatch, v2.verifyDepositNonces, hb, hL]

/-- C1: with a stored batch and the Elrond client answering the last executed nonce `L`
without error, `L + 1 + len(deposits)` fitting in 64 bits, both executors make the one client
call and return no error exactly when `deposits[i].Nonce = L + 1 + i` for every index `i`;
any error they return wraps `ErrInvalidDepositNonce`. -/
theorem C1_verify_deposit_nonces (c : Collaborators) (c2 : v2.Collaborators)
    (s : ethElrond.State) (s2 : v2.State) (b : TransferBatch) (L : Nat)
    (hb : s.executor.batch = some b) (hb2 : s2.executor.batch = some b)
    (hL : c.elrondClient.GetLastExecutedEthTxID s.history = (L, none))
    (hL2 : c2.elrondClient.GetLastExecutedEthTxID s2.history = (L, none))
    (hrep : L + 1 + b.Deposits.length < uint64Size) :
    (∃ err : Option Error,
      ethElrond.VerifyLastDepositNonceExecutedOnEthereumBatch c s =
        .ret err { s with history := s.history ++ [.elrond .GetLastExecutedEthTxID] } ∧
      (err = none ↔
        ∀ (i : Nat) (h : i < b.Deposits.length), (b.Deposits.get ⟨i, h⟩).Nonce = L + 1 + i) ∧
      (∀ e : Error, err = some e → e.Is ethElrond.ErrInvalidDepositNonce = true)) ∧
    (∃ err : Option Error,
      v2.VerifyLastDepositNonceExecutedOnEthereumBatch c2 s2 =
        .ret err { s2 with history := s2.history ++ [.elrond .GetLastExecutedEthTxID] } ∧
      (err = none ↔
        ∀ (i : Nat) (h : i < b.Deposits.length), (b.Deposits.get ⟨i, h⟩).Nonce = L + 1 + i) ∧
      (∀ e : Error, err = some e → e.Is v2.ErrInvalidDepositNonce = true)) := by
  have hstart : toUint64 (L + 1) = L + 1 := toUint64_of_lt (by omega)
  refine ⟨⟨_, ethElrond.VerifyLastDepositNonce_run c s b L hb hL, ?_, ?_⟩,
    ⟨_, v2.VerifyLastDepositNonce_run_v2 c2 s2 b L hb2 hL2, ?_, ?_⟩⟩
  · rw [hstart]
    exact ethElrond.verifyDepositNoncesLoop_eq_none_iff b.Deposits (L + 1) hrep
  · exact ethElrond.verifyDepositNoncesLoop_error b.Deposits _
  · rw [hstart]
    exact v2.verifyDepositNoncesLoop_eq_none_iff_v2 b.Deposits (L + 1) hrep
  · exact v2.verifyDepositNoncesLoop_error_v2 b.Deposits _

/-- C1, witness: the batch with deposit nonces 1 and 4 against `L = 0`. -/
theorem C1_verify_deposit_nonces_witness :
    (∃ err : Option Error,
      ethElrond.VerifyLastDepositNonceExecutedOnEthereumBatch
          (Collaborators.around ElrondClient.quiet EthereumClient.quiet)
          ⟨ethElrond.executorHolding 1 (some (batchWithNonces 7 [1, 4])), []⟩ =
        .ret err ⟨ethElrond.executorHolding 1 (some (batchWithNonces 7 [1, 4])),
          [] ++ [.elrond .GetLastExecutedEthTxID]⟩ ∧
      (err = none ↔
        ∀ (i : Nat) (h : i < (batchWithNonces 7 [1, 4]).Deposits.length),
          ((batchWithNonces 7 [1, 4]).Deposits.get ⟨i, h⟩).Nonce = 0 + 1 + i) ∧
      (∀ e : Error, err = some e → e.Is ethElrond.ErrInvalidDepositNonce = true)) ∧
    (∃ err : Option Error,
      v2.VerifyLastDepositNonceExecutedOnEthereumBatch
          (v2.Collaborators.around ElrondClient.quiet EthereumClient.quiet)
          ⟨v2.executorHolding (some (batchWithNonces 7 [1, 4])), []⟩ =
        .ret err ⟨v2.executorHolding (some (batchWithNonces 7 [1, 4])),
          [] ++ [.elrond .GetLastExecutedEthTxID]⟩ ∧
      (err = none ↔
        ∀ (i : Nat) (h : i < (batchWithNonces 7 [1, 4]).Deposits.length),
          ((batchWithNonces 7 [1, 4]).Deposits.get ⟨i, h⟩).Nonce = 0 + 1 + i) ∧
      (∀ e : Error, err = some e → e.Is v2.ErrInvalidDepositNonce = true)) :=
  C1_verify_deposit_nonces
    (Collaborators.around ElrondClient.quiet EthereumClient.quiet)
    (v2.Collaborators.around ElrondClient.quiet EthereumClient.quiet)
    ⟨ethElrond.executorHolding 1 (some (batchWithNonces 7 [1, 4])), []⟩
    ⟨v2.executorHolding (some (batchWithNonces 7 [1, 4])), []⟩
    (batchWithNonces 7 [1, 4]) 0 rfl rfl rfl rfl (by decide)

/-- The scenario of the specification: deposit nonces 1 and 4 against `L = 0` are rejected
with an error wrapping `ErrInvalidDepositNonce`. -/
theorem ethElrond.verify_rejects_nonce_gap :
    ethElrond.VerifyLastDepositNonceExecutedOnEthereumBatch
        (Collaborators.around ElrondClient.quiet EthereumClient.quiet)
        ⟨ethElrond.executorHolding 1 (some (batchWithNonces 7 [1, 4])), []⟩ =
      .ret (some (.wrapf ethElrond.ErrInvalidDepositNonce " for deposit %s, expected: %d"
          [.deposit (depositWithNonce 4), .num 2]))
        ⟨ethElrond.executorHolding 1 (some (batchWithNonces 7 [1, 4])),
          [.elrond .GetLastExecutedEthTxID]⟩ := by
  decide

/-! ## Retry counters -/

theorem ethElrond.ProcessMaxQuorumRetriesOnEthereum_apply (s : ethElrond.State) :
    ethElrond.ProcessMaxQuorumRetriesOnEthereum s =
      if s.executor.quorumRetriesOnEthereum < s.executor.maxQuorumRetriesOnEthereum then
        .ret false { s with executor := { s.executor with
          quorumRetriesOnEthereum := toUint64 (s.executor.quorumRetriesOnEthereum + 1) } }
      else .ret true s := by
  simp only [ethElrond.ProcessMaxQuorumRetriesOnEthereum, Prog.bind_apply, getExecutor_apply]
  split <;> rfl

theorem ethElrond.stateAfter_ProcessMaxQuorumRetriesOnEthereum (s : ethElrond.State)
    (h0 : s.executor.quorumRetriesOnEthereum = 0)
    (hB : s.executor.maxQuorumRetriesOnEthereum < uint64Size) (n : Nat) :
    Prog.stateAfter ethElrond.ProcessMaxQuorumRetriesOnEthereum n s =
      { s with executor := { s.executor with
          quorumRetriesOnEthereum := min n s.executor.maxQuorumRetriesOnEthereum } } := by
  induction n with
  | zero =>
    obtain ⟨executor, history⟩ := s
    cases executor
    simp_all [Prog.stateAfter]
  | succ n ih =>
    rw [Prog.stateAfter, ih, ethElrond.ProcessMaxQuorumRetriesOnEthereum_apply]
    by_cases hlt : n < s.executor.maxQuorumRetriesOnEthereum
    · have h1 : min n s.executor.maxQuorumRetriesOnEthereum = n := by omega
      have h2 : min (n + 1) s.executor.maxQuorumRetriesOnEthereum = n + 1 := by omega
      have h3 : toUint64 (n + 1) = n + 1 := toUint64_of_lt (by omega)
      simp [h1, h2, h3, hlt, Res.state]
    · have h1 : min n s.executor.maxQuorumRetriesOnEthereum = s.executor.maxQuorumRetriesOnEthereum := by omega
      have h2 : min (n + 1) s.executor.maxQuorumRetriesOnEthereum = s.executor.maxQuorumRetriesOnEthereum := by omega
      simp [h1, h2, Res.state]

theorem ethElrond.ProcessMaxQuorumRetriesOnElrond_apply (s : ethElrond.State) :
    ethElrond.ProcessMaxQuorumRetriesOnElrond s =
      if s.executor.quorumRetriesOnElrond < s.executor.maxQuorumRetriesOnElrond then
        .ret false { s with executor := { s.executor with
          quorumRetriesOnElrond := toUint64 (s.executor.quorumRetriesOnElrond + 1) } }
      else .ret true s := by
  simp only [ethElrond.ProcessMaxQuorumRetriesOnElrond, Prog.bind_apply, getExecutor_apply]
  split <;> rfl

theorem ethElrond.stateAfter_ProcessMaxQuorumRetriesOnElrond (s : ethElrond.State)
    (h0 : s.executor.quorumRetriesOnElrond = 0)
    (hB : s.executor.maxQuorumRetriesOnElrond < uint64Size) (n : Nat) :
    Prog.stateAfter ethElrond.ProcessMaxQuorumRetriesOnElrond n s =
      { s with executor := { s.executor with
          quorumRetriesOnElrond := min n s.executor.maxQuorumRetriesOnElrond } } := by
  induction n with
  | zero =>
    obtain ⟨executor, history⟩ := s
    cases executor
    simp_all [Prog.stateAfter]
  | succ n ih =>
    rw [Prog.stateAfter, ih, ethElrond.ProcessMaxQuorumRetriesOnElrond_apply]
    by_cases hlt : n < s.executor.maxQuorumRetriesOnElrond
    · have h1 : min n s.executor.maxQuorumRetriesOnElrond = n := by omega
      have h2 : min (n + 1) s.executor.maxQuorumRetriesOnElrond = n + 1 := by omega
      have h3 : toUint64 (n + 1) = n + 1 := toUint64_of_lt (by omega)
      simp [h1, h2, h3, hlt, Res.state]
    · have h1 : min n s.executor.maxQuorumRetriesOnElrond = s.executor.maxQuorumRetriesOnElrond := by omega
      have h2 : min (n + 1) s.executor.maxQuorumRetriesOnElrond = s.executor.maxQuorumRetriesOnElrond := by omega
      simp [h1, h2, Res.state]

theorem ethElrond.ProcessMaxRetriesOnWasTransferProposedOnElrond_apply (s : ethElrond.State) :
    ethElrond.ProcessMaxRetriesOnWasTransferProposedOnElrond s =
      if s.executor.retriesOnWasProposed < s.executor.maxRetriesOnWasProposed then
        .ret false { s with executor := { s.executor with
          retriesOnWasProposed := toUint64 (s.executor.retriesOnWasProposed + 1) } }
      else .ret true s := by
  simp only [ethElrond.ProcessMaxRetriesOnWasTransferProposedOnElrond, Prog.bind_apply, getExecutor_apply]
  split <;> rfl

theorem ethElrond.stateAfter_ProcessMaxRetriesOnWasTransferProposedOnElrond (s : ethElrond.State)
    (h0 : s.executor.retriesOnWasProposed = 0)
    (hB : s.executor.maxRetriesOnWasProposed < uint64Size) (n : Nat) :
    Prog.stateAfter ethElrond.ProcessMaxRetriesOnWasTransferProposedOnElrond n s =
      { s with executor := { s.executor with
          retriesOnWasProposed := min n s.executor.maxRetriesOnWasProposed } } := by
  induction n with
  | zero =>
    obtain ⟨executor, history⟩ := s
    cases executor
    simp_all [Prog.stateAfter]
  | succ n ih =>
    rw [Prog.stateAfter, ih, ethElrond.ProcessMaxRetriesOnWasTransferProposedOnElrond_apply]
    by_cases hlt : n < s.executor.maxRetriesOnWasProposed
    · have h1 : min n s.executor.maxRetriesOnWasProposed = n := by omega
      have h2 : min (n + 1) s.executor.maxRetriesOnWasProposed = n + 1 := by omega
      have h3 : toUint64 (n + 1) = n + 1 := toUint64_of_lt (by omega)
      simp [h1, h2, h3, hlt, Res.state]
    · have h1 : min n s.executor.maxRetriesOnWasProposed = s.executor.maxRetriesOnWasProposed := by omega
      have h2 : min (n + 1) s.executor.maxRetriesOnWasProposed = s.executor.maxRetriesOnWasProposed := by omega
      simp [h1, h2, Res.state]

theorem ethElrond.nthRun_ProcessMaxQuorumRetriesOnEthereum (s : ethElrond.State)
    (h0 : s.executor.quorumRetriesOnEthereum = 0)
    (hB : s.executor.maxQuorumRetriesOnEthereum < uint64Size) (k : Nat) (hk : 1 ≤ k) :
    Prog.nthRun ethElrond.ProcessMaxQuorumRetriesOnEthereum k s =
      .ret (decide (s.executor.maxQuorumRetriesOnEthereum < k))
        { s with executor := { s.executor with
          quorumRetriesOnEthereum := min k s.executor.maxQuorumRetriesOnEthereum } } := by
  obtain ⟨n, rfl⟩ : ∃ n, k = n + 1 := ⟨k - 1, by omega⟩
  have hstep := ethElrond.stateAfter_ProcessMaxQuorumRetriesOnEthereum s h0 hB (n + 1)
  rw [Prog.stateAfter] at hstep
  have hprev := ethElrond.stateAfter_ProcessMaxQuorumRetriesOnEthereum s h0 hB n
  simp only [Prog.nthRun, Nat.add_sub_cancel] at hstep ⊢
  rw [← hstep, hprev, ethElrond.ProcessMaxQuorumRetriesOnEthereum_apply]
  by_cases hlt : n < s.executor.maxQuorumRetriesOnEthereum
  · have h1 : min n s.executor.maxQuorumRetriesOnEthereum = n := by omega
    have h2 : ¬ s.executor.maxQuorumRetriesOnEthereum < n + 1 := by omega
    simp [h1, h2, hlt, Res.state]
  · have h1 : min n s.executor.maxQuorumRetriesOnEthereum = s.executor.maxQuorumRetriesOnEthereum := by omega
    have h2 : s.executor.maxQuorumRetriesOnEthereum < n + 1 := by omega
    simp [h1, h2, Res.state]

theorem ethElrond.nthRun_ProcessMaxQuorumRetriesOnElrond (s : ethElrond.State)
    (h0 : s.executor.quorumRetriesOnElrond = 0)
    (hB : s.executor.maxQuorumRetriesOnElrond < uint64Size) (k : Nat) (hk : 1 ≤ k) :
    Prog.nthRun ethElrond.ProcessMaxQuorumRetriesOnElrond k s =
      .ret (decide (s.executor.maxQuorumRetriesOnElrond < k))
        { s with executor := { s.executor with
          quorumRetriesOnElrond := min k s.executor.maxQuorumRetriesOnElrond } } := by
  obtain ⟨n, rfl⟩ : ∃ n, k = n + 1 := ⟨k - 1, by omega⟩
  have hstep := ethElrond.stateAfter_ProcessMaxQuorumRetriesOnElrond s h0 hB (n + 1)
  rw [Prog.stateAfter] at hstep
  have hprev := ethElrond.stateAfter_ProcessMaxQuorumRetriesOnElrond s h0 hB n
  simp only [Prog.nthRun, Nat.add_sub_cancel] at hstep ⊢
  rw [← hstep, hprev, ethElrond.ProcessMaxQuorumRetriesOnElrond_apply]
  by_cases hlt : n < s.executor.maxQuorumRetriesOnElrond
  · have h1 : min n s.executor.maxQuorumRetriesOnElrond = n := by omega
    have h2 : ¬ s.executor.maxQuorumRetriesOnElrond < n + 1 := by omega
    simp [h1, h2, hlt, Res.state]
  · have h1 : min n s.executor.maxQuorumRetriesOnElrond = s.executor.maxQuorumRetriesOnElrond := by omega
    have h2 : s.executor.maxQuorumRetriesOnElrond < n + 1 := by omega
    simp [h1, h2, Res.state]

theorem ethElrond.nthRun_ProcessMaxRetriesOnWasTransferProposedOnElrond (s : ethElrond.State)
    (h0 : s.executor.retriesOnWasProposed = 0)
    (hB : s.executor.maxRetriesOnWasProposed < uint64Size) (k : Nat) (hk : 1 ≤ k) :
    Prog.nthRun ethElrond.ProcessMaxRetriesOnWasTransferProposedOnElrond k s =
      .ret (decide (s.executor.maxRetriesOnWasProposed < k))
        { s with executor := { s.executor with
          retriesOnWasProposed := min k s.executor.maxRetriesOnWasProposed } } := by
  obtain ⟨n, rfl⟩ : ∃ n, k = n + 1 := ⟨k - 1, by omega⟩
  have hstep := ethElrond.stateAfter_ProcessMaxRetriesOnWasTransferProposedOnElrond s h0 hB (n + 1)
  rw [Prog.stateAfter] at hstep
  have hprev := ethElrond.stateAfter_ProcessMaxRetriesOnWasTransferProposedOnElrond s h0 hB n
  simp only [Prog.nthRun, Nat.add_sub_cancel] at hstep ⊢
  rw [← hstep, hprev, ethElrond.ProcessMaxRetriesOnWasTransferProposedOnElrond_apply]
  by_cases hlt : n < s.executor.maxRetriesOnWasProposed
  · have h1 : min n s.executor.maxRetriesOnWasProposed = n := by omega
    have h2 : ¬ s.executor.maxRetriesOnWasProposed < n + 1 := by omega
    simp [h1, h2, hlt, Res.state]
  · have h1 : min n s.executor.maxRetriesOnWasProposed = s.executor.maxRetriesOnWasProposed := by omega
    have h2 : s.executor.maxRetriesOnWasProposed < n + 1 := by omega
    simp [h1, h2, Res.state]

/-- C2: for each of the three retry counters, with its bound `B` a `uint64`: from a freshly
constructed executor, and from the state right after the matching reset, the `k`-th
consecutive call (`k ≥ 1`) returns true exactly when `k > B` and leaves the counter at
`min k B`, nothing else changed; and any single call either returns false having incremented
the counter by one, or returns true having changed nothing. -/
theorem C2_retry_counters (args : ethElrond.ArgsBridgeExecutor) (history : List Event)
    (s : ethElrond.State) (k : Nat) (hk : 1 ≤ k)
    (hargs : args.MaxQuorumRetriesOnEthereum < uint64Size ∧
      args.MaxQuorumRetriesOnElrond < uint64Size ∧ args.MaxRestriesOnWasProposed < uint64Size)
    (hs : s.executor.maxQuorumRetriesOnEthereum < uint64Size ∧
      s.executor.maxQuorumRetriesOnElrond < uint64Size ∧
      s.executor.maxRetriesOnWasProposed < uint64Size) :
    (Prog.nthRun ethElrond.ProcessMaxQuorumRetriesOnEthereum k
        ⟨ethElrond.createBridgeExecutor args, history⟩ =
      .ret (decide (args.MaxQuorumRetriesOnEthereum < k))
        ⟨{ ethElrond.createBridgeExecutor args with
            quorumRetriesOnEthereum := min k args.MaxQuorumRetriesOnEthereum }, history⟩) ∧
    (Prog.nthRun ethElrond.ProcessMaxQuorumRetriesOnElrond k
        ⟨ethElrond.createBridgeExecutor args, history⟩ =
      .ret (decide (args.MaxQuorumRetriesOnElrond < k))
        ⟨{ ethElrond.createBridgeExecutor args with
            quorumRetriesOnElrond := min k args.MaxQuorumRetriesOnElrond }, history⟩) ∧
    (Prog.nthRun ethElrond.ProcessMaxRetriesOnWasTransferProposedOnElrond k
        ⟨ethElrond.createBridgeExecutor args, history⟩ =
      .ret (decide (args.MaxRestriesOnWasProposed < k))
        ⟨{ ethElrond.createBridgeExecutor args with
            retriesOnWasProposed := min k args.MaxRestriesOnWasProposed }, history⟩) ∧
    (Prog.nthRun ethElrond.ProcessMaxQuorumRetriesOnEthereum k
        (ethElrond.ResetRetriesCountOnEthereum s).state =
      .ret (decide (s.executor.maxQuorumRetriesOnEthereum < k))
        { s with executor := { s.executor with
            quorumRetriesOnEthereum := min k s.executor.maxQuorumRetriesOnEthereum } }) ∧
    (Prog.nthRun ethElrond.ProcessMaxQuorumRetriesOnElrond k
        (ethElrond.ResetRetriesCountOnElrond s).state =
      .ret (decide (s.executor.maxQuorumRetriesOnElrond < k))
        { s with executor := { s.executor with
            quorumRetriesOnElrond := min k s.executor.maxQuorumRetriesOnElrond } }) ∧
    (Prog.nthRun ethElrond.ProcessMaxRetriesOnWasTransferProposedOnElrond k
        (ethElrond.ResetRetriesOnWasTransferProposedOnElrond s).state =
      .ret (decide (s.executor.maxRetriesOnWasProposed < k))
        { s with executor := { s.executor with
            retriesOnWasProposed := min k s.executor.maxRetriesOnWasProposed } }) ∧
    (ethElrond.ProcessMaxQuorumRetriesOnEthereum s =
      (if s.executor.quorumRetriesOnEthereum < s.executor.maxQuorumRetriesOnEthereum then
        .ret false { s with executor := { s.executor with
          quorumRetriesOnEthereum := s.executor.quorumRetriesOnEthereum + 1 } }
      else .ret true s)) ∧
    (ethElrond.ProcessMaxQuorumRetriesOnElrond s =
      (if s.executor.quorumRetriesOnElrond < s.executor.maxQuorumRetriesOnElrond then
        .ret false { s with executor := { s.executor with
          quorumRetriesOnElrond := s.executor.quorumRetriesOnElrond + 1 } }
      else .ret true s)) ∧
    (ethElrond.ProcessMaxRetriesOnWasTransferProposedOnElrond s =
      (if s.executor.retriesOnWasProposed < s.executor.maxRetriesOnWasProposed then
        .ret false { s with executor := { s.executor with
          retriesOnWasProposed := s.executor.retriesOnWasProposed + 1 } }
      else .ret true s)) := by
  obtain ⟨ha1, ha2, ha3⟩ := hargs
  obtain ⟨hs1, hs2, hs3⟩ := hs
  refine ⟨?_, ?_, ?_, ?_, ?_, ?_, ?_, ?_, ?_⟩
  · exact ethElrond.nthRun_ProcessMaxQuorumRetriesOnEthereum
      ⟨ethElrond.createBridgeExecutor args, history⟩ rfl ha1 k hk
  · exact ethElrond.nthRun_ProcessMaxQuorumRetriesOnElrond
      ⟨ethElrond.createBridgeExecutor args, history⟩ rfl ha2 k hk
  · exact ethElrond.nthRun_ProcessMaxRetriesOnWasTransferProposedOnElrond
      ⟨ethElrond.createBridgeExecutor args, history⟩ rfl ha3 k hk
  · exact ethElrond.nthRun_ProcessMaxQuorumRetriesOnEthereum
      (ethElrond.ResetRetriesCountOnEthereum s).state rfl hs1 k hk
  · exact ethElrond.nthRun_ProcessMaxQuorumRetriesOnElrond
      (ethElrond.ResetRetriesCountOnElrond s).state rfl hs2 k hk
  · exact ethElrond.nthRun_ProcessMaxRetriesOnWasTransferProposedOnElrond
      (ethElrond.ResetRetriesOnWasTransferProposedOnElrond s).state rfl hs3 k hk
  · rw [ethElrond.ProcessMaxQuorumRetriesOnEthereum_apply]
    split
    · rw [toUint64_of_lt (by omega)]
    · rfl
  · rw [ethElrond.ProcessMaxQuorumRetriesOnElrond_apply]
    split
    · rw [toUint64_of_lt (by omega)]
    · rfl
  · rw [ethElrond.ProcessMaxRetriesOnWasTransferProposedOnElrond_apply]
    split
    · rw [toUint64_of_lt (by omega)]
    · rfl

/-- C2, witness: a fresh executor with bounds 2, 3 and 1 and an executor with bounds 2, at
the third consecutive call. -/
theorem C2_retry_counters_witness :
    (Prog.nthRun ethElrond.ProcessMaxQuorumRetriesOnEthereum 3
        ⟨ethElrond.createBridgeExecutor (ethElrond.argsWithBounds 2 3 1), []⟩ =
      .ret true ⟨{ ethElrond.createBridgeExecutor (ethElrond.argsWithBounds 2 3 1) with
        quorumRetriesOnEthereum := 2 }, []⟩) ∧
    (Prog.nthRun ethElrond.ProcessMaxQuorumRetriesOnElrond 3
        ⟨ethElrond.createBridgeExecutor (ethElrond.argsWithBounds 2 3 1), []⟩ =
      .ret false ⟨{ ethElrond.createBridgeExecutor (ethElrond.argsWithBounds 2 3 1) with
        quorumRetriesOnElrond := 3 }, []⟩) ∧
    (Prog.nthRun ethElrond.ProcessMaxRetriesOnWasTransferProposedOnElrond 3
        ⟨ethElrond.createBridgeExecutor (ethElrond.argsWithBounds 2 3 1), []⟩ =
      .ret true ⟨{ ethElrond.createBridgeExecutor (ethElrond.argsWithBounds 2 3 1) with
        retriesOnWasProposed := 1 }, []⟩) ∧
    (Prog.nthRun ethElrond.ProcessMaxQuorumRetriesOnEthereum 3
        (ethElrond.ResetRetriesCountOnEthereum (ethElrond.stateHolding 2 none)).state =
      .ret true ⟨{ ethElrond.executorHolding 2 none with quorumRetriesOnEthereum := 2 }, []⟩) ∧
    (Prog.nthRun ethElrond.ProcessMaxQuorumRetriesOnElrond 3
        (ethElrond.ResetRetriesCountOnElrond (ethElrond.stateHolding 2 none)).state =
      .ret true ⟨{ ethElrond.executorHolding 2 none with quorumRetriesOnElrond := 2 }, []⟩) ∧
    (Prog.nthRun ethElrond.ProcessMaxRetriesOnWasTransferProposedOnElrond 3
        (ethElrond.ResetRetriesOnWasTransferProposedOnElrond
          (ethElrond.stateHolding 2 none)).state =
      .ret true ⟨{ ethElrond.executorHolding 2 none with retriesOnWasProposed := 2 }, []⟩) ∧
    (ethElrond.ProcessMaxQuorumRetriesOnEthereum (ethElrond.stateHolding 2 none) =
      .ret false ⟨{ ethElrond.executorHolding 2 none with quorumRetriesOnEthereum := 1 }, []⟩) ∧
    (ethElrond.ProcessMaxQuorumRetriesOnElrond (ethElrond.stateHolding 2 none) =
      .ret false ⟨{ ethElrond.executorHolding 2 none with quorumRetriesOnElrond := 1 }, []⟩) ∧
    (ethElrond.ProcessMaxRetriesOnWasTransferProposedOnElrond (ethElrond.stateHolding 2 none) =
      .ret false ⟨{ ethElrond.executorHolding 2 none with retriesOnWasProposed := 1 }, []⟩) :=
  C2_retry_counters (ethElrond.argsWithBounds 2 3 1) [] (ethElrond.stateHolding 2 none) 3
    (by decide) (by decide) (by decide)

/-! ## Gas station -/

/-- C3: with a fetched response `r`, a valid selector and `v` the field of `r` it selects,
`GetCurrentGasPrice` returns `v` without error exactly when `v` is at most the maximum, and
otherwise returns 0 with an error wrapping `ErrGasPriceIsHigherThanTheMaximumSet`. -/
theorem C3_gas_price_within_maximum (gs : gasManagement.gasStation)
    (r : gasManagement.gasStationResponse) (v : Int) (hr : gs.latestResponse = some r)
    (hv : (gs.gasPriceSelector = .EthFastGasPrice ∧ v = r.Fast) ∨
      (gs.gasPriceSelector = .EthFastestGasPrice ∧ v = r.Fastest) ∨
      (gs.gasPriceSelector = .EthSafeLowGasPrice ∧ v = r.SafeLow) ∨
      (gs.gasPriceSelector = .EthAverageGasPrice ∧ v = r.Average)) :
    (gasManagement.GetCurrentGasPrice gs = (v, none) ↔ v ≤ gs.maximumGasPrice) ∧
    (¬ v ≤ gs.maximumGasPrice →
      ∃ e : Error, gasManagement.GetCurrentGasPrice gs = (0, some e) ∧
        e.Is gasManagement.ErrGasPriceIsHigherThanTheMaximumSet = true) := by
  have hrun : gasManagement.GetCurrentGasPrice gs =
      if v > gs.maximumGasPrice then
        (0, some (.wrapf gasManagement.ErrGasPriceIsHigherThanTheMaximumSet
          " maximum value: %d, fetched value: %d, gas price selector: %s"
          [.num gs.maximumGasPrice, .num v, .str gs.gasPriceSelector.String]))
      else (v, none) := by
    rcases hv with ⟨hs, rfl⟩ | ⟨hs, rfl⟩ | ⟨hs, rfl⟩ | ⟨hs, rfl⟩ <;>
      simp only [gasManagement.GetCurrentGasPrice, hr, hs]
  rw [hrun]
  by_cases hle : v ≤ gs.maximumGasPrice
  · have hgt : ¬ v > gs.maximumGasPrice := by omega
    simp [hgt, hle]
  · have hgt : v > gs.maximumGasPrice := by omega
    simp [hgt, hle, Error.Is, gasManagement.ErrGasPriceIsHigherThanTheMaximumSet]

/-- C3, witness: maximum 100 and selector fast; the response with fast = 50 reads 50 and the
response with fast = 200 gives the error. -/
theorem C3_gas_price_within_maximum_witness :
    ((gasManagement.GetCurrentGasPrice (gasManagement.stationWithFast 50) = (50, none) ↔
        (50 : Int) ≤ 100) ∧
      (¬ (50 : Int) ≤ 100 →
        ∃ e : Error, gasManagement.GetCurrentGasPrice (gasManagement.stationWithFast 50) =
            (0, some e) ∧
          e.Is gasManagement.ErrGasPriceIsHigherThanTheMaximumSet = true)) ∧
    ((gasManagement.GetCurrentGasPrice (gasManagement.stationWithFast 200) = (200, none) ↔
        (200 : Int) ≤ 100) ∧
      (¬ (200 : Int) ≤ 100 →
        ∃ e : Error, gasManagement.GetCurrentGasPrice (gasManagement.stationWithFast 200) =
            (0, some e) ∧
          e.Is gasManagement.ErrGasPriceIsHigherThanTheMaximumSet = true)) :=
  ⟨C3_gas_price_within_maximum (gasManagement.stationWithFast 50)
      { Fast := 50, Fastest := 0, SafeLow := 0, Average := 0 } 50 rfl (Or.inl ⟨rfl, rfl⟩),
    C3_gas_price_within_maximum (gasManagement.stationWithFast 200)
      { Fast := 200, Fastest := 0, SafeLow := 0, Average := 0 } 200 rfl (Or.inl ⟨rfl, rfl⟩)⟩

/-- The scenario of the specification: maximum 100, selector fast; 50 is read, then 200 gives
`ErrGasPriceIsHigherThanTheMaximumSet`. -/
theorem gasManagement.reads_50_then_rejects_200 :
    gasManagement.GetCurrentGasPrice (gasManagement.stationWithFast 50) = (50, none) ∧
    gasManagement.GetCurrentGasPrice (gasManagement.stationWithFast 200) =
      (0, some (.wrapf gasManagement.ErrGasPriceIsHigherThanTheMaximumSet
        " maximum value: %d, fetched value: %d, gas price selector: %s"
        [.num 100, .num 200, .str "EthFastGasPrice"])) := by
  decide

/-! ## Fetching the batch from Ethereum -/

theorem ethElrond.GetAndStoreBatchFromEthereum_apply (c : Collaborators) (nonce : Nat)
    (s : ethElrond.State) :
    ethElrond.GetAndStoreBatchFromEthereum c nonce s =
      match c.ethereumClient.GetBatch s.history nonce with
      | (_, some e) => .ret (some e) { s with history := s.history ++ [.ethereum (.GetBatch nonce)] }
      | (none, none) => .crash { s with history := s.history ++ [.ethereum (.GetBatch nonce)] }
      | (some b, none) =>
        if b.ID = nonce ∧ b.Deposits.length ≠ 0 then
          .ret none { executor := { s.executor with batch := some b },
                      history := s.history ++ [.ethereum (.GetBatch nonce)] }
        else
          .ret (some (.wrapf ethElrond.ErrBatchNotFound
            ", requested nonce: %d, fetched nonce: %d, num deposits: %d"
            [.num nonce, .num b.ID, .num b.Deposits.length]))
            { s with history := s.history ++ [.ethereum (.GetBatch nonce)] } := by
  simp only [ethElrond.GetAndStoreBatchFromEthereum, Prog.bind_apply, call_apply]
  rcases hresp : c.ethereumClient.GetBatch s.history nonce with ⟨ob, oe⟩
  cases oe with
  | some e => simp
  | none =>
    cases ob with
    | none => simp
    | some b =>
      by_cases h1 : b.ID = nonce <;> by_cases h2 : b.Deposits.length = 0 <;>
        simp [h1, h2]

/-- C4: `GetAndStoreBatchFromEthereum(nonce)` asks the Ethereum client once; it succeeds
exactly when the client returns no error and a batch whose ID is `nonce` with at least one
deposit, and then the fetched batch is the stored one; a fetched batch with another ID or no
deposit gives an error wrapping `ErrBatchNotFound`; whenever it does not succeed the stored
batch, as every other field, is as before. -/
theorem C4_get_and_store_batch_from_ethereum (c : Collaborators) (nonce : Nat)
    (s : ethElrond.State) :
    ((ethElrond.GetAndStoreBatchFromEthereum c nonce s).value? = some none ↔
      (c.ethereumClient.GetBatch s.history nonce).2 = none ∧
        ∃ b : TransferBatch, (c.ethereumClient.GetBatch s.history nonce).1 = some b ∧
          b.ID = nonce ∧ 1 ≤ b.Deposits.length) ∧
    ((ethElrond.GetAndStoreBatchFromEthereum c nonce s).value? = some none →
      (ethElrond.GetAndStoreBatchFromEthereum c nonce s).state.executor =
        { s.executor with batch := (c.ethereumClient.GetBatch s.history nonce).1 }) ∧
    (∀ b : TransferBatch, c.ethereumClient.GetBatch s.history nonce = (some b, none) →
      b.ID ≠ nonce ∨ b.Deposits.length = 0 →
      ∃ e : Error, (ethElrond.GetAndStoreBatchFromEthereum c nonce s).value? = some (some e) ∧
        e.Is ethElrond.ErrBatchNotFound = true) ∧
    ((ethElrond.GetAndStoreBatchFromEthereum c nonce s).value? ≠ some none →
      (ethElrond.GetAndStoreBatchFromEthereum c nonce s).state.executor = s.executor) ∧
    (ethElrond.GetAndStoreBatchFromEthereum c nonce s).state.history =
      s.history ++ [.ethereum (.GetBatch nonce)] := by
  rw [ethElrond.GetAndStoreBatchFromEthereum_apply]
  rcases hresp : c.ethereumClient.GetBatch s.history nonce with ⟨ob, oe⟩
  cases oe with
  | some e => simp [Res.value?, Res.state]
  | none =>
    cases ob with
    | none => simp [Res.value?, Res.state]
    | some b =>
      by_cases h1 : b.ID = nonce <;> by_cases h2 : b.Deposits.length = 0 <;>
        simp [h1, h2, Res.value?, Res.state, Error.Is, ethElrond.ErrBatchNotFound]
      exact ⟨by omega, fun h => h2 (by simp [h])⟩

/-- C4, witness: asked for nonce 5, the client answers batch 6 (refused, the stored batch
stays), an empty batch 5 (refused) and batch 5 with one deposit (stored). -/
theorem C4_get_and_store_batch_from_ethereum_witness :
    (ethElrond.GetAndStoreBatchFromEthereum
        (Collaborators.around ElrondClient.quiet
          { EthereumClient.quiet with GetBatch := fun _ _ => (some (batchWithNonces 6 [1]), none) })
        5 (ethElrond.stateHolding 1 (some (batchWithNonces 4 [9]))) =
      .ret (some (.wrapf ethElrond.ErrBatchNotFound
          ", requested nonce: %d, fetched nonce: %d, num deposits: %d" [.num 5, .num 6, .num 1]))
        ⟨ethElrond.executorHolding 1 (some (batchWithNonces 4 [9])),
          [.ethereum (.GetBatch 5)]⟩) ∧
    (ethElrond.GetAndStoreBatchFromEthereum
        (Collaborators.around ElrondClient.quiet
          { EthereumClient.quiet with GetBatch := fun _ _ => (some (batchWithNonces 5 []), none) })
        5 (ethElrond.stateHolding 1 (some (batchWithNonces 4 [9]))) =
      .ret (some (.wrapf ethElrond.ErrBatchNotFound
          ", requested nonce: %d, fetched nonce: %d, num deposits: %d" [.num 5, .num 5, .num 0]))
        ⟨ethElrond.executorHolding 1 (some (batchWithNonces 4 [9])),
          [.ethereum (.GetBatch 5)]⟩) ∧
    (ethElrond.GetAndStoreBatchFromEthereum
        (Collaborators.around ElrondClient.quiet
          { EthereumClient.quiet with GetBatch := fun _ _ => (some (batchWithNonces 5 [1]), none) })
        5 (ethElrond.stateHolding 1 (some (batchWithNonces 4 [9]))) =
      .ret none ⟨ethElrond.executorHolding 1 (some (batchWithNonces 5 [1])),
          [.ethereum (.GetBatch 5)]⟩) ∧
    ((ethElrond.GetAndStoreBatchFromEthereum
        (Collaborators.around ElrondClient.quiet
          { EthereumClient.quiet with GetBatch := fun _ _ => (some (batchWithNonces 6 [1]), none) })
        5 (ethElrond.stateHolding 1 (some (batchWithNonces 4 [9])))).state.executor =
      ethElrond.executorHolding 1 (some (batchWithNonces 4 [9]))) :=
  ⟨by decide, by decide, by decide,
    (C4_get_and_store_batch_from_ethereum
      (Collaborators.around ElrondClient.quiet
        { EthereumClient.quiet with GetBatch := fun _ _ => (some (batchWithNonces 6 [1]), none) })
      5 (ethElrond.stateHolding 1 (some (batchWithNonces 4 [9])))).2.2.2.1 (by decide)⟩

/-! ## Operations that need the stored batch -/

/-- C5: with no stored batch, each of the twelve operations that use the stored batch and
return an error returns `ErrNilBatch` (with the zero value of its other result) from a state
that is the state before it: no call on a chain client or on any other collaborator, and the
action id, the message hash and the retry counters as they were. -/
theorem C5_nil_batch_guards (c : Collaborators) (s : ethElrond.State)
    (hnil : s.executor.batch = none) :
    ethElrond.VerifyLastDepositNonceExecutedOnEthereumBatch c s =
      .ret (some ethElrond.ErrNilBatch) s ∧
    ethElrond.GetAndStoreActionIDForProposeTransferOnElrond c s =
      .ret (ethElrond.InvalidActionID, some ethElrond.ErrNilBatch) s ∧
    ethElrond.GetAndStoreActionIDForProposeSetStatusFromElrond c s =
      .ret (ethElrond.InvalidActionID, some ethElrond.ErrNilBatch) s ∧
    ethElrond.WasTransferProposedOnElrond c s = .ret (false, some ethElrond.ErrNilBatch) s ∧
    ethElrond.ProposeTransferOnElrond c s = .ret (some ethElrond.ErrNilBatch) s ∧
    ethElrond.WasSetStatusProposedOnElrond c s = .ret (false, some ethElrond.ErrNilBatch) s ∧
    ethElrond.ProposeSetStatusOnElrond c s = .ret (some ethElrond.ErrNilBatch) s ∧
    ethElrond.GetBatchStatusesFromEthereum c s = .ret (none, some ethElrond.ErrNilBatch) s ∧
    ethElrond.PerformActionOnElrond c s = .ret (some ethElrond.ErrNilBatch) s ∧
    ethElrond.WasTransferPerformedOnEthereum c s = .ret (false, some ethElrond.ErrNilBatch) s ∧
    ethElrond.SignTransferOnEthereum c s = .ret (some ethElrond.ErrNilBatch) s ∧
    ethElrond.PerformTransferOnEthereum c s = .ret (some ethElrond.ErrNilBatch) s := by
  refine ⟨?_, ?_, ?_, ?_, ?_, ?_, ?_, ?_, ?_, ?_, ?_, ?_⟩
  · simp [ethElrond.VerifyLastDepositNonceExecutedOnEthereumBatch, hnil]
  · simp [ethElrond.GetAndStoreActionIDForProposeTransferOnElrond, hnil]
  · simp [ethElrond.GetAndStoreActionIDForProposeSetStatusFromElrond, hnil]
  · simp [ethElrond.WasTransferProposedOnElrond, hnil]
  · simp [ethElrond.ProposeTransferOnElrond, hnil]
  · simp [ethElrond.WasSetStatusProposedOnElrond, hnil]
  · simp [ethElrond.ProposeSetStatusOnElrond, hnil]
  · simp [ethElrond.GetBatchStatusesFromEthereum, hnil]
  · simp [ethElrond.PerformActionOnElrond, hnil]
  · simp [ethElrond.WasTransferPerformedOnEthereum, hnil]
  · simp [ethElrond.SignTransferOnEthereum, hnil]
  · simp [ethElrond.PerformTransferOnEthereum, hnil]

/-- C5, witness: an executor without a batch, after two earlier calls. -/
theorem C5_nil_batch_guards_witness :
    ethElrond.VerifyLastDepositNonceExecutedOnEthereumBatch
        (Collaborators.around ElrondClient.quiet EthereumClient.quiet)
        ⟨ethElrond.executorHolding 3 none, [.elrond .GetPending, .myTurnAsLeader]⟩ =
      .ret (some ethElrond.ErrNilBatch)
        ⟨ethElrond.executorHolding 3 none, [.elrond .GetPending, .myTurnAsLeader]⟩ ∧
    ethElrond.PerformTransferOnEthereum
        (Collaborators.around ElrondClient.quiet EthereumClient.quiet)
        ⟨ethElrond.executorHolding 3 none, [.elrond .GetPending, .myTurnAsLeader]⟩ =
      .ret (some ethElrond.ErrNilBatch)
        ⟨ethElrond.executorHolding 3 none, [.elrond .GetPending, .myTurnAsLeader]⟩ :=
  have h := C5_nil_batch_guards (Collaborators.around ElrondClient.quiet EthereumClient.quiet)
    ⟨ethElrond.executorHolding 3 none, [.elrond .GetPending, .myTurnAsLeader]⟩ rfl
  ⟨h.1, h.2.2.2.2.2.2.2.2.2.2.2⟩

/-! ## Action id -/

/-- C6: with a stored batch `b`, for both operations and both executors: when the Elrond
client answers the action id `a` without error the operation returns `a`, stores it, and the
`GetStoredActionID` that follows returns `a`; when the client answers with an error `e` the
operation returns `InvalidActionID` with `e` and `GetStoredActionID` returns what it returned
before the call.  In both cases the one call on the client is the only effect besides. -/
theorem C6_get_and_store_action_id (c : Collaborators) (c2 : v2.Collaborators)
    (s : ethElrond.State) (s2 : v2.State) (b : TransferBatch)
    (hb : s.executor.batch = some b) (hb2 : s2.executor.batch = some b) :
    (∀ a : Nat, c.elrondClient.GetActionIDForProposeTransfer s.history b = (a, none) →
      ethElrond.GetAndStoreActionIDForProposeTransferOnElrond c s =
          .ret (a, none) ⟨{ s.executor with actionID := a },
            s.history ++ [.elrond (.GetActionIDForProposeTransfer b)]⟩ ∧
        ethElrond.GetStoredActionID ⟨{ s.executor with actionID := a },
            s.history ++ [.elrond (.GetActionIDForProposeTransfer b)]⟩ =
          .ret a ⟨{ s.executor with actionID := a },
            s.history ++ [.elrond (.GetActionIDForProposeTransfer b)]⟩) ∧
    (∀ (a : Nat) (e : Error), c.elrondClient.GetActionIDForProposeTransfer s.history b = (a, some e) →
      ethElrond.GetAndStoreActionIDForProposeTransferOnElrond c s =
          .ret (ethElrond.InvalidActionID, some e)
            ⟨s.executor, s.history ++ [.elrond (.GetActionIDForProposeTransfer b)]⟩ ∧
        (ethElrond.GetStoredActionID
            ⟨s.executor, s.history ++ [.elrond (.GetActionIDForProposeTransfer b)]⟩).value? =
          (ethElrond.GetStoredActionID s).value?) ∧
    (∀ a : Nat, c.elrondClient.GetActionIDForSetStatusOnPendingTransfer s.history b = (a, none) →
      ethElrond.GetAndStoreActionIDForProposeSetStatusFromElrond c s =
          .ret (a, none) ⟨{ s.executor with actionID := a },
            s.history ++ [.elrond (.GetActionIDForSetStatusOnPendingTransfer b)]⟩ ∧
        ethElrond.GetStoredActionID ⟨{ s.executor with actionID := a },
            s.history ++ [.elrond (.GetActionIDForSetStatusOnPendingTransfer b)]⟩ =
          .ret a ⟨{ s.executor with actionID := a },
            s.history ++ [.elrond (.GetActionIDForSetStatusOnPendingTransfer b)]⟩) ∧
    (∀ (a : Nat) (e : Error), c.elrondClient.GetActionIDForSetStatusOnPendingTransfer s.history b = (a, some e) →
      ethElrond.GetAndStoreActionIDForProposeSetStatusFromElrond c s =
          .ret (ethElrond.InvalidActionID, some e)
            ⟨s.executor, s.history ++ [.elrond (.GetActionIDForSetStatusOnPendingTransfer b)]⟩ ∧
        (ethElrond.GetStoredActionID
            ⟨s.executor, s.history ++ [.elrond (.GetActionIDForSetStatusOnPendingTransfer b)]⟩).value? =
          (ethElrond.GetStoredActionID s).value?) ∧
    (∀ a : Nat, c2.elrondClient.GetActionIDForProposeTransfer s2.history b = (a, none) →
      v2.GetAndStoreActionIDForProposeTransferOnElrond c2 s2 =
          .ret (a, none) ⟨{ s2.executor with actionID := a },
            s2.history ++ [.elrond (.GetActionIDForProposeTransfer b)]⟩ ∧
        v2.GetStoredActionID ⟨{ s2.executor with actionID := a },
            s2.history ++ [.elrond (.GetActionIDForProposeTransfer b)]⟩ =
          .ret a ⟨{ s2.executor with actionID := a },
            s2.history ++ [.elrond (.GetActionIDForProposeTransfer b)]⟩) ∧
    (∀ (a : Nat) (e : Error), c2.elrondClient.GetActionIDForProposeTransfer s2.history b = (a, some e) →
      v2.GetAndStoreActionIDForProposeTransferOnElrond c2 s2 =
          .ret (v2.InvalidActionID, some e)
            ⟨s2.executor, s2.history ++ [.elrond (.GetActionIDForProposeTransfer b)]⟩ ∧
        (v2.GetStoredActionID
            ⟨s2.executor, s2.history ++ [.elrond (.GetActionIDForProposeTransfer b)]⟩).value? =
          (v2.GetStoredActionID s2).value?) ∧
    (∀ a : Nat, c2.elrondClient.GetActionIDForSetStatusOnPendingTransfer s2.history b = (a, none) →
      v2.GetAndStoreActionIDForProposeSetStatusFromElrond c2 s2 =
          .ret (a, none) ⟨{ s2.executor with actionID := a },
            s2.history ++ [.elrond (.GetActionIDForSetStatusOnPendingTransfer b)]⟩ ∧
        v2.GetStoredActionID ⟨{ s2.executor with actionID := a },
            s2.history ++ [.elrond (.GetActionIDForSetStatusOnPendingTransfer b)]⟩ =
          .ret a ⟨{ s2.executor with actionID := a },
            s2.history ++ [.elrond (.GetActionIDForSetStatusOnPendingTransfer b)]⟩) ∧
    (∀ (a : Nat) (e : Error), c2.elrondClient.GetActionIDForSetStatusOnPendingTransfer s2.history b = (a, some e) →
      v2.GetAndStoreActionIDForProposeSetStatusFromElrond c2 s2 =
          .ret (v2.InvalidActionID, some e)
            ⟨s2.executor, s2.history ++ [.elrond (.GetActionIDForSetStatusOnPendingTransfer b)]⟩ ∧
        (v2.GetStoredActionID
            ⟨s2.executor, s2.history ++ [.elrond (.GetActionIDForSetStatusOnPendingTransfer b)]⟩).value? =
          (v2.GetStoredActionID s2).value?) := by
  refine ⟨?_, ?_, ?_, ?_, ?_, ?_, ?_, ?_⟩
  · intro a h
    simp [ethElrond.GetAndStoreActionIDForProposeTransferOnElrond, ethElrond.GetStoredActionID, hb, h]
  · intro a e h
    simp [ethElrond.GetAndStoreActionIDForProposeTransferOnElrond, ethElrond.GetStoredActionID, hb, h, Res.value?]
  · intro a h
    simp [ethElrond.GetAndStoreActionIDForProposeSetStatusFromElrond, ethElrond.GetStoredActionID, hb, h]
  · intro a e h
    simp [ethElrond.GetAndStoreActionIDForProposeSetStatusFromElrond, ethElrond.GetStoredActionID, hb, h, Res.value?]
  · intro a h
    simp [v2.GetAndStoreActionIDForProposeTransferOnElrond, v2.GetStoredActionID, hb2, h]
  · intro a e h
    simp [v2.GetAndStoreActionIDForProposeTransferOnElrond, v2.GetStoredActionID, hb2, h, Res.value?]
  · intro a h
    simp [v2.GetAndStoreActionIDForProposeSetStatusFromElrond, v2.GetStoredActionID, hb2, h]
  · intro a e h
    simp [v2.GetAndStoreActionIDForProposeSetStatusFromElrond, v2.GetStoredActionID, hb2, h, Res.value?]

/-- C6, witness: both executors hold batch 3 and the action id 5; the client knows the action
id of the transfer (7) and fails on the one of the set-status. -/
theorem C6_get_and_store_action_id_witness :
    (ethElrond.GetAndStoreActionIDForProposeTransferOnElrond
        (Collaborators.around ElrondClient.knowsTransferOnly EthereumClient.quiet)
        ⟨{ ethElrond.executorHolding 1 (some (batchWithNonces 3 [1])) with actionID := 5 }, []⟩ =
      .ret (7, none)
        ⟨{ ethElrond.executorHolding 1 (some (batchWithNonces 3 [1])) with actionID := 7 },
          [.elrond (.GetActionIDForProposeTransfer (batchWithNonces 3 [1]))]⟩ ∧
      ethElrond.GetStoredActionID
        ⟨{ ethElrond.executorHolding 1 (some (batchWithNonces 3 [1])) with actionID := 7 },
          [.elrond (.GetActionIDForProposeTransfer (batchWithNonces 3 [1]))]⟩ =
      .ret 7
        ⟨{ ethElrond.executorHolding 1 (some (batchWithNonces 3 [1])) with actionID := 7 },
          [.elrond (.GetActionIDForProposeTransfer (batchWithNonces 3 [1]))]⟩) ∧
    (ethElrond.GetAndStoreActionIDForProposeSetStatusFromElrond
        (Collaborators.around ElrondClient.knowsTransferOnly EthereumClient.quiet)
        ⟨{ ethElrond.executorHolding 1 (some (batchWithNonces 3 [1])) with actionID := 5 }, []⟩ =
      .ret (0, some (.external 1))
        ⟨{ ethElrond.executorHolding 1 (some (batchWithNonces 3 [1])) with actionID := 5 },
          [.elrond (.GetActionIDForSetStatusOnPendingTransfer (batchWithNonces 3 [1]))]⟩ ∧
      (ethElrond.GetStoredActionID
        ⟨{ ethElrond.executorHolding 1 (some (batchWithNonces 3 [1])) with actionID := 5 },
          [.elrond (.GetActionIDForSetStatusOnPendingTransfer (batchWithNonces 3 [1]))]⟩).value? =
      some 5) ∧
    (v2.GetAndStoreActionIDForProposeTransferOnElrond
        (v2.Collaborators.around ElrondClient.knowsTransferOnly EthereumClient.quiet)
        ⟨{ v2.executorHolding (some (batchWithNonces 3 [1])) with actionID := 5 }, []⟩ =
      .ret (7, none)
        ⟨{ v2.executorHolding (some (batchWithNonces 3 [1])) with actionID := 7 },
          [.elrond (.GetActionIDForProposeTransfer (batchWithNonces 3 [1]))]⟩ ∧
      v2.GetStoredActionID
        ⟨{ v2.executorHolding (some (batchWithNonces 3 [1])) with actionID := 7 },
          [.elrond (.GetActionIDForProposeTransfer (batchWithNonces 3 [1]))]⟩ =
      .ret 7
        ⟨{ v2.executorHolding (some (batchWithNonces 3 [1])) with actionID := 7 },
          [.elrond (.GetActionIDForProposeTransfer (batchWithNonces 3 [1]))]⟩) ∧
    (v2.GetAndStoreActionIDForProposeSetStatusFromElrond
        (v2.Collaborators.around ElrondClient.knowsTransferOnly EthereumClient.quiet)
        ⟨{ v2.executorHolding (some (batchWithNonces 3 [1])) with actionID := 5 }, []⟩ =
      .ret (0, some (.external 1))
        ⟨{ v2.executorHolding (some (batchWithNonces 3 [1])) with actionID := 5 },
          [.elrond (.GetActionIDForSetStatusOnPendingTransfer (batchWithNonces 3 [1]))]⟩ ∧
      (v2.GetStoredActionID
        ⟨{ v2.executorHolding (some (batchWithNonces 3 [1])) with actionID := 5 },
          [.elrond (.GetActionIDForSetStatusOnPendingTransfer (batchWithNonces 3 [1]))]⟩).value? =
      some 5) :=
  have h := C6_get_and_store_action_id
    (Collaborators.around ElrondClient.knowsTransferOnly EthereumClient.quiet)
    (v2.Collaborators.around ElrondClient.knowsTransferOnly EthereumClient.quiet)
    ⟨{ ethElrond.executorHolding 1 (some (batchWithNonces 3 [1])) with actionID := 5 }, []⟩
    ⟨{ v2.executorHolding (some (batchWithNonces 3 [1])) with actionID := 5 }, []⟩
    (batchWithNonces 3 [1]) rfl rfl
  ⟨h.1 7 rfl, h.2.2.2.1 9 (.external 1) rfl, h.2.2.2.2.1 7 rfl,
    h.2.2.2.2.2.2.2 9 (.external 1) rfl⟩

/-! ## Steps -/

@[simp] theorem Prog.observe_apply {σ α : Type} (p : Prog σ α) (record : α → Observed)
    (s : σ × List Observed) :
    p.observe record s = match p s.1 with
      | .ret a s' => .ret a (s', s.2 ++ [record a])
      | .crash s' => .crash (s', s.2) := rfl

/-- A run of `getPendingStep.Execute` on the observed executor is a run on the executor
itself, and if one of the calls noted returned an error the step returned the initial step. -/
theorem elrondToEth.getPendingStep_observed {σ : Type} (bridge : elrondToEth.Executor σ)
    (batchToString : TransferBatch → String) (s : σ) (id : StepIdentifier) (s' : σ)
    (log : List Observed)
    (hrun : elrondToEth.getPendingStep.Execute bridge.observed batchToString (s, []) =
      .ret id (s', log)) :
    elrondToEth.getPendingStep.Execute bridge batchToString s = .ret id s' ∧
    ((∃ o ∈ log, o.failed = true) → id = StepIdentifier.GettingPendingBatchFromElrond) := by
  simp only [elrondToEth.getPendingStep.Execute, elrondToEth.Executor.observed,
    Prog.bind_apply, Prog.observe_apply, Prog.pure_apply] at hrun ⊢
  rcases h1 : bridge.ResetRetriesCountOnEthereum s with ⟨u1, s1⟩ | s1 <;>
    simp [h1] at hrun
  rcases h2 : bridge.ResetRetriesCountOnElrond s1 with ⟨u2, s2⟩ | s2 <;>
    simp [h2] at hrun
  rcases h3 : bridge.GetBatchFromElrond s2 with ⟨⟨ob, oe⟩, s3⟩ | s3 <;>
    simp [h3] at hrun
  cases oe with
  | some e =>
    rcases h4 : bridge.PrintInfo .LogDebug "error fetching Elrond batch"
        [.str "error", .err (some e)] s3 with ⟨u4, s4⟩ | s4 <;>
      simp [h4, elrondToEth.getPendingStep.Identifier] at hrun
    obtain ⟨rfl, rfl, rfl⟩ := hrun
    simp [h1, h2, h3, h4, elrondToEth.getPendingStep.Identifier]
  | none =>
    cases ob with
    | none =>
      rcases h4 : bridge.PrintInfo .LogDebug "no new batch found on Elrond" [] s3
        with ⟨u4, s4⟩ | s4 <;>
        simp [h4, elrondToEth.getPendingStep.Identifier] at hrun
      obtain ⟨rfl, rfl, rfl⟩ := hrun
      simp [h1, h2, h3, h4, elrondToEth.getPendingStep.Identifier]
    | some b =>
      simp at hrun
      rcases h4 : bridge.StoreBatchFromElrond (some b) s3 with ⟨se, s4⟩ | s4 <;>
        simp [h4] at hrun
      cases se with
      | some e =>
        rcases h5 : bridge.PrintInfo .LogError "error storing Elrond batch"
            [.str "error", .err (some e)] s4 with ⟨u5, s5⟩ | s5 <;>
          simp [h5, elrondToEth.getPendingStep.Identifier] at hrun
        obtain ⟨rfl, rfl, rfl⟩ := hrun
        simp [h1, h2, h3, h4, h5, elrondToEth.getPendingStep.Identifier]
      | none =>
        simp at hrun
        rcases h5 : bridge.PrintInfo .LogInfo
            ("fetched new batch from Elrond " ++ batchToString b) [] s4 with ⟨u5, s5⟩ | s5 <;>
          simp [h5] at hrun
        rcases h6 : bridge.WasTransferPerformedOnEthereum s5 with ⟨⟨wp, we⟩, s6⟩ | s6 <;>
          simp [h6] at hrun
        cases we with
        | some e =>
          rcases h7 : bridge.PrintInfo .LogError
              "error determining if transfer was performed or not"
              [.str "error", .err (some e)] s6 with ⟨u7, s7⟩ | s7 <;>
            simp [h7, elrondToEth.getPendingStep.Identifier] at hrun
          obtain ⟨rfl, rfl, rfl⟩ := hrun
          simp [h1, h2, h3, h4, h5, h6, h7, elrondToEth.getPendingStep.Identifier]
        | none =>
          cases wp with
          | true =>
            simp at hrun
            rcases h7 : bridge.PrintInfo .LogInfo "transfer performed" [] s6
              with ⟨u7, s7⟩ | s7 <;>
              simp [h7] at hrun
            obtain ⟨rfl, rfl, rfl⟩ := hrun
            simp [h1, h2, h3, h4, h5, h6, h7]
          | false =>
            simp at hrun
            obtain ⟨rfl, rfl, rfl⟩ := hrun
            simp [h1, h2, h3, h4, h5, h6]

/-- A run of `waitForQuorumOnTransferStep.Execute` on the observed executor is a run on the
executor itself, and if one of the calls noted returned an error the step returned the
initial step. -/
theorem elrondToEth.waitForQuorumOnTransferStep_observed {σ : Type}
    (bridge : elrondToEth.Executor σ) (s : σ) (id : StepIdentifier) (s' : σ)
    (log : List Observed)
    (hrun : elrondToEth.waitForQuorumOnTransferStep.Execute bridge.observed (s, []) =
      .ret id (s', log)) :
    elrondToEth.waitForQuorumOnTransferStep.Execute bridge s = .ret id s' ∧
    ((∃ o ∈ log, o.failed = true) → id = StepIdentifier.GettingPendingBatchFromElrond) := by
  simp only [elrondToEth.waitForQuorumOnTransferStep.Execute, elrondToEth.Executor.observed,
    Prog.bind_apply, Prog.observe_apply, Prog.pure_apply] at hrun ⊢
  rcases h1 : bridge.ProcessMaxQuorumRetriesOnEthereum s with ⟨mx, s1⟩ | s1 <;>
    simp [h1] at hrun
  cases mx with
  | true =>
    simp at hrun
    rcases h2 : bridge.PrintInfo .LogDebug "max number of retries reached, resetting counter"
        [] s1 with ⟨u2, s2⟩ | s2 <;>
      simp [h2] at hrun
    obtain ⟨rfl, rfl, rfl⟩ := hrun
    simp [h1, h2]
  | false =>
    simp at hrun
    rcases h2 : bridge.ProcessQuorumReachedOnEthereum s1 with ⟨⟨q, qe⟩, s2⟩ | s2 <;>
      simp [h2] at hrun
    cases qe with
    | some e =>
      rcases h3 : bridge.PrintInfo .LogError "error while checking the quorum on Ethereum"
          [.str "error", .err (some e)] s2 with ⟨u3, s3⟩ | s3 <;>
        simp [h3] at hrun
      obtain ⟨rfl, rfl, rfl⟩ := hrun
      simp [h1, h2, h3]
    | none =>
      simp at hrun
      rcases h3 : bridge.PrintInfo .LogDebug "quorum reached check"
          [.str "is reached", .bool q] s2 with ⟨u3, s3⟩ | s3 <;>
        simp [h3] at hrun
      cases q with
      | true =>
        simp at hrun
        obtain ⟨rfl, rfl, rfl⟩ := hrun
        simp [h1, h2, h3]
      | false =>
        simp at hrun
        obtain ⟨rfl, rfl, rfl⟩ := hrun
        simp [h1, h2, h3]

theorem Prog.observe_returns {σ α : Type} (p : Prog σ α) (record : α → Observed)
    (h : p.Returns) : (p.observe record).Returns := by
  intro s
  obtain ⟨a, s', hp⟩ := h s.1
  exact ⟨a, (s', s.2 ++ [record a]), by simp [hp]⟩

theorem elrondToEth.Executor.observed_returns {σ : Type} (bridge : elrondToEth.Executor σ)
    (h : bridge.Returns) : bridge.observed.Returns := by
  obtain ⟨hP, hR1, hR2, hG, hS, hW, hM, hQ⟩ := h
  exact ⟨fun l m a => Prog.observe_returns _ _ (hP l m a), Prog.observe_returns _ _ hR1,
    Prog.observe_returns _ _ hR2, Prog.observe_returns _ _ hG,
    fun b => Prog.observe_returns _ _ (hS b), Prog.observe_returns _ _ hW,
    Prog.observe_returns _ _ hM, Prog.observe_returns _ _ hQ⟩

/-- On an executor whose methods all return, `getPendingStep.Execute` returns. -/
theorem elrondToEth.getPendingStep_returns {σ : Type} (bridge : elrondToEth.Executor σ)
    (batchToString : TransferBatch → String) (h : bridge.Returns) (s : σ) :
    ∃ id s', elrondToEth.getPendingStep.Execute bridge batchToString s = .ret id s' := by
  obtain ⟨hP, hR1, hR2, hG, hS, hW, -, -⟩ := h
  obtain ⟨u1, s1, h1⟩ := hR1 s
  obtain ⟨u2, s2, h2⟩ := hR2 s1
  obtain ⟨⟨ob, oe⟩, s3, h3⟩ := hG s2
  simp only [elrondToEth.getPendingStep.Execute, Prog.bind_apply, Prog.pure_apply, h1, h2, h3]
  cases oe with
  | some e =>
    obtain ⟨u4, s4, h4⟩ := hP .LogDebug "error fetching Elrond batch"
      [.str "error", .err (some e)] s3
    simp [h4]
  | none =>
    cases ob with
    | none =>
      obtain ⟨u4, s4, h4⟩ := hP .LogDebug "no new batch found on Elrond" [] s3
      simp [h4]
    | some b =>
      obtain ⟨se, s4, h4⟩ := hS (some b) s3
      cases se with
      | some e =>
        obtain ⟨u5, s5, h5⟩ := hP .LogError "error storing Elrond batch"
          [.str "error", .err (some e)] s4
        simp [h4, h5]
      | none =>
        obtain ⟨u5, s5, h5⟩ := hP .LogInfo
          ("fetched new batch from Elrond " ++ batchToString b) [] s4
        obtain ⟨⟨wp, we⟩, s6, h6⟩ := hW s5
        cases we with
        | some e =>
          obtain ⟨u7, s7, h7⟩ := hP .LogError
            "error determining if transfer was performed or not"
            [.str "error", .err (some e)] s6
          simp [h4, h5, h6, h7]
        | none =>
          cases wp with
          | true =>
            obtain ⟨u7, s7, h7⟩ := hP .LogInfo "transfer performed" [] s6
            simp [h4, h5, h6, h7]
          | false => simp [h4, h5, h6]

/-- On an executor whose methods all return, `waitForQuorumOnTransferStep.Execute`
returns. -/
theorem elrondToEth.waitForQuorumOnTransferStep_returns {σ : Type}
    (bridge : elrondToEth.Executor σ) (h : bridge.Returns) (s : σ) :
    ∃ id s', elrondToEth.waitForQuorumOnTransferStep.Execute bridge s = .ret id s' := by
  obtain ⟨hP, -, -, -, -, -, hM, hQ⟩ := h
  obtain ⟨mx, s1, h1⟩ := hM s
  simp only [elrondToEth.waitForQuorumOnTransferStep.Execute, Prog.bind_apply,
    Prog.pure_apply, h1]
  cases mx with
  | true =>
    obtain ⟨u2, s2, h2⟩ := hP .LogDebug "max number of retries reached, resetting counter"
      [] s1
    simp [h2]
  | false =>
    obtain ⟨⟨q, qe⟩, s2, h2⟩ := hQ s1
    cases qe with
    | some e =>
      obtain ⟨u3, s3, h3⟩ := hP .LogError "error while checking the quorum on Ethereum"
        [.str "error", .err (some e)] s2
      simp [h2, h3]
    | none =>
      obtain ⟨u3, s3, h3⟩ := hP .LogDebug "quorum reached check"
        [.str "is reached", .bool q] s2
      cases q <;> simp [h2, h3]

/-- C7: for every executor, with the calls it answers noted in order: whenever a run of
`getPendingStep.Execute` or of `waitForQuorumOnTransferStep.Execute` returns and one of the
calls it made returned an error, the step returned `GettingPendingBatchFromElrond`; the run on
the observed executor is a run on the executor itself; and the steps do return when the
methods of the executor return. -/
theorem C7_failed_call_returns_to_initial {σ : Type} (bridge : elrondToEth.Executor σ)
    (batchToString : TransferBatch → String) (s : σ) :
    (∀ (id : StepIdentifier) (s' : σ) (log : List Observed),
      elrondToEth.getPendingStep.Execute bridge.observed batchToString (s, []) =
          .ret id (s', log) →
        elrondToEth.getPendingStep.Execute bridge batchToString s = .ret id s' ∧
        ((∃ o ∈ log, o.failed = true) → id = StepIdentifier.GettingPendingBatchFromElrond)) ∧
    (∀ (id : StepIdentifier) (s' : σ) (log : List Observed),
      elrondToEth.waitForQuorumOnTransferStep.Execute bridge.observed (s, []) =
          .ret id (s', log) →
        elrondToEth.waitForQuorumOnTransferStep.Execute bridge s = .ret id s' ∧
        ((∃ o ∈ log, o.failed = true) → id = StepIdentifier.GettingPendingBatchFromElrond)) ∧
    (bridge.Returns →
      (∃ id t, elrondToEth.getPendingStep.Execute bridge.observed batchToString (s, []) =
        .ret id t) ∧
      (∃ id t, elrondToEth.waitForQuorumOnTransferStep.Execute bridge.observed (s, []) =
        .ret id t)) :=
  ⟨fun id s' log h => elrondToEth.getPendingStep_observed bridge batchToString s id s' log h,
    fun id s' log h => elrondToEth.waitForQuorumOnTransferStep_observed bridge s id s' log h,
    fun h => ⟨elrondToEth.getPendingStep_returns bridge.observed batchToString
        (elrondToEth.Executor.observed_returns bridge h) (s, []),
      elrondToEth.waitForQuorumOnTransferStep_returns bridge.observed
        (elrondToEth.Executor.observed_returns bridge h) (s, [])⟩⟩

/-- C7, witness: stub executors on which `WasTransferPerformedOnEthereum`, respectively
`ProcessQuorumReachedOnEthereum`, returns an error. -/
theorem C7_failed_call_returns_to_initial_witness :
    elrondToEth.getPendingStep.Execute
        (elrondToEth.Executor.scripted
          { elrondToEth.Script.happy with
            WasTransferPerformedOnEthereum := (false, some (.external 1)) })
        (fun _ => "") [] =
      .ret StepIdentifier.GettingPendingBatchFromElrond
        ["ResetRetriesCountOnEthereum", "ResetRetriesCountOnElrond", "GetBatchFromElrond",
          "StoreBatchFromElrond", "PrintInfo", "WasTransferPerformedOnEthereum", "PrintInfo"] ∧
    elrondToEth.waitForQuorumOnTransferStep.Execute
        (elrondToEth.Executor.scripted
          { elrondToEth.Script.happy with
            ProcessQuorumReachedOnEthereum := (true, some (.external 1)) }) [] =
      .ret StepIdentifier.GettingPendingBatchFromElrond
        ["ProcessMaxQuorumRetriesOnEthereum", "ProcessQuorumReachedOnEthereum", "PrintInfo"] :=
  ⟨((C7_failed_call_returns_to_initial
      (elrondToEth.Executor.scripted
        { elrondToEth.Script.happy with
          WasTransferPerformedOnEthereum := (false, some (.external 1)) })
      (fun _ => "") []).1
      StepIdentifier.GettingPendingBatchFromElrond
      ["ResetRetriesCountOnEthereum", "ResetRetriesCountOnElrond", "GetBatchFromElrond",
        "StoreBatchFromElrond", "PrintInfo", "WasTransferPerformedOnEthereum", "PrintInfo"]
      [⟨"ResetRetriesCountOnEthereum", false⟩, ⟨"ResetRetriesCountOnElrond", false⟩,
        ⟨"GetBatchFromElrond", false⟩, ⟨"StoreBatchFromElrond", false⟩, ⟨"PrintInfo", false⟩,
        ⟨"WasTransferPerformedOnEthereum", true⟩, ⟨"PrintInfo", false⟩]
      (by decide)).1,
    ((C7_failed_call_returns_to_initial
      (elrondToEth.Executor.scripted
        { elrondToEth.Script.happy with
          ProcessQuorumReachedOnEthereum := (true, some (.external 1)) })
      (fun _ => "") []).2.1
      StepIdentifier.GettingPendingBatchFromElrond
      ["ProcessMaxQuorumRetriesOnEthereum", "ProcessQuorumReachedOnEthereum", "PrintInfo"]
      [⟨"ProcessMaxQuorumRetriesOnEthereum", false⟩, ⟨"ProcessQuorumReachedOnEthereum", true⟩,
        ⟨"PrintInfo", false⟩]
      (by decide)).1⟩

/-- The v2 `performTransferStep.Execute`, transfer not yet performed: when `MyTurnAsLeader`
answers false the step calls `PerformTransferOnEthereum`; when it answers true the step only
logs and moves on. -/
theorem v2.elrondToEth.steps.performTransferStep_leader_check {σ : Type}
    (bridge : v2.elrondToEth.steps.ElrondToEthBridge σ) (s s1 s2 s3 : σ)
    (h1 : bridge.WasTransferPerformedOnEthereum s = .ret (false, none) s1) :
    (bridge.MyTurnAsLeader s1 = .ret false s2 →
      bridge.PerformTransferOnEthereum s2 = .ret none s3 →
      v2.elrondToEth.steps.performTransferStep.Execute bridge s =
        .ret (StepIdentifier.WaitingTransferConfirmation, none) s3) ∧
    (bridge.MyTurnAsLeader s1 = .ret true s2 →
      bridge.Log .LogDebug "not my turn as leader in this round" [] s2 = .ret () s3 →
      v2.elrondToEth.steps.performTransferStep.Execute bridge s =
        .ret (StepIdentifier.WaitingTransferConfirmation, none) s3) := by
  constructor
  · intro h2 h3
    simp [v2.elrondToEth.steps.performTransferStep.Execute, h1, h2, h3]
  · intro h2 h3
    simp [v2.elrondToEth.steps.performTransferStep.Execute, h1, h2, h3]

/-- C8: the v2 `performTransferStep.Execute` on a stub bridge, transfer not yet performed.
The relayer that is not the leader calls `PerformTransferOnEthereum`; the relayer that is the
leader does not, and logs that it is not its turn. -/
theorem C8_non_leader_performs_transfer :
    v2.elrondToEth.steps.performTransferStep.Execute
        (v2.elrondToEth.steps.ElrondToEthBridge.scripted (false, none) false none) [] =
      .ret (StepIdentifier.WaitingTransferConfirmation, none)
        ["WasTransferPerformedOnEthereum", "MyTurnAsLeader", "PerformTransferOnEthereum"] ∧
    v2.elrondToEth.steps.performTransferStep.Execute
        (v2.elrondToEth.steps.ElrondToEthBridge.scripted (false, none) true none) [] =
      .ret (StepIdentifier.WaitingTransferConfirmation, none)
        ["WasTransferPerformedOnEthereum", "MyTurnAsLeader", "GetLogger"] := by
  decide

/-- C9: the four outcomes of `waitForQuorumOnTransferStep.Execute` on any executor.  When
`ProcessMaxQuorumRetriesOnEthereum` returns true the step logs and returns the initial step,
the state being the one after these two calls (the quorum is not asked); otherwise, when
`ProcessQuorumReachedOnEthereum` returns an error, the initial step; otherwise its own
identifier when the quorum is not reached and `PerformingTransfer` when it is.  Whenever
the step returns, it returns one of these three identifiers. -/
theorem C9_wait_for_quorum_outcomes {σ : Type} (bridge : elrondToEth.Executor σ) (s : σ) :
    (∀ s1 s2 : σ, bridge.ProcessMaxQuorumRetriesOnEthereum s = .ret true s1 →
      bridge.PrintInfo .LogDebug "max number of retries reached, resetting counter" [] s1 =
        .ret () s2 →
      elrondToEth.waitForQuorumOnTransferStep.Execute bridge s =
        .ret StepIdentifier.GettingPendingBatchFromElrond s2) ∧
    (∀ (s1 s2 s3 : σ) (q : Bool) (e : Error),
      bridge.ProcessMaxQuorumRetriesOnEthereum s = .ret false s1 →
      bridge.ProcessQuorumReachedOnEthereum s1 = .ret (q, some e) s2 →
      bridge.PrintInfo .LogError "error while checking the quorum on Ethereum"
        [.str "error", .err (some e)] s2 = .ret () s3 →
      elrondToEth.waitForQuorumOnTransferStep.Execute bridge s =
        .ret StepIdentifier.GettingPendingBatchFromElrond s3) ∧
    (∀ s1 s2 s3 : σ, bridge.ProcessMaxQuorumRetriesOnEthereum s = .ret false s1 →
      bridge.ProcessQuorumReachedOnEthereum s1 = .ret (false, none) s2 →
      bridge.PrintInfo .LogDebug "quorum reached check" [.str "is reached", .bool false] s2 =
        .ret () s3 →
      elrondToEth.waitForQuorumOnTransferStep.Execute bridge s =
        .ret StepIdentifier.WaitingForQuorumOnTransfer s3) ∧
    (∀ s1 s2 s3 : σ, bridge.ProcessMaxQuorumRetriesOnEthereum s = .ret false s1 →
      bridge.ProcessQuorumReachedOnEthereum s1 = .ret (true, none) s2 →
      bridge.PrintInfo .LogDebug "quorum reached check" [.str "is reached", .bool true] s2 =
        .ret () s3 →
      elrondToEth.waitForQuorumOnTransferStep.Execute bridge s =
        .ret StepIdentifier.PerformingTransfer s3) ∧
    (∀ (id : StepIdentifier) (s' : σ),
      elrondToEth.waitForQuorumOnTransferStep.Execute bridge s = .ret id s' →
      id = StepIdentifier.GettingPendingBatchFromElrond ∨
      id = StepIdentifier.WaitingForQuorumOnTransfer ∨
      id = StepIdentifier.PerformingTransfer) := by
  refine ⟨?_, ?_, ?_, ?_, ?_⟩
  · intro s1 s2 h1 h2
    simp [elrondToEth.waitForQuorumOnTransferStep.Execute, h1, h2]
  · intro s1 s2 s3 q e h1 h2 h3
    simp [elrondToEth.waitForQuorumOnTransferStep.Execute, h1, h2, h3]
  · intro s1 s2 s3 h1 h2 h3
    simp [elrondToEth.waitForQuorumOnTransferStep.Execute, h1, h2, h3,
      elrondToEth.waitForQuorumOnTransferStep.Identifier]
  · intro s1 s2 s3 h1 h2 h3
    simp [elrondToEth.waitForQuorumOnTransferStep.Execute, h1, h2, h3]
  · intro id s' hrun
    simp only [elrondToEth.waitForQuorumOnTransferStep.Execute, Prog.bind_apply,
      Prog.pure_apply] at hrun
    rcases h1 : bridge.ProcessMaxQuorumRetriesOnEthereum s with ⟨mx, s1⟩ | s1 <;>
      simp [h1] at hrun
    cases mx with
    | true =>
      simp at hrun
      rcases h2 : bridge.PrintInfo .LogDebug
          "max number of retries reached, resetting counter" [] s1 with ⟨u2, s2⟩ | s2 <;>
        simp [h2] at hrun
      exact Or.inl hrun.1.symm
    | false =>
      simp at hrun
      rcases h2 : bridge.ProcessQuorumReachedOnEthereum s1 with ⟨⟨q, qe⟩, s2⟩ | s2 <;>
        simp [h2] at hrun
      cases qe with
      | some e =>
        rcases h3 : bridge.PrintInfo .LogError "error while checking the quorum on Ethereum"
            [.str "error", .err (some e)] s2 with ⟨u3, s3⟩ | s3 <;>
          simp [h3] at hrun
        exact Or.inl hrun.1.symm
      | none =>
        simp at hrun
        rcases h3 : bridge.PrintInfo .LogDebug "quorum reached check"
            [.str "is reached", .bool q] s2 with ⟨u3, s3⟩ | s3 <;>
          simp [h3] at hrun
        cases q with
        | true =>
          simp at hrun
          exact Or.inr (Or.inr hrun.1.symm)
        | false =>
          simp [elrondToEth.waitForQuorumOnTransferStep.Identifier] at hrun
          exact Or.inr (Or.inl hrun.1.symm)

/-- C9, witness: on the stub whose retries are exhausted the step returns the initial step
after `ProcessMaxQuorumRetriesOnEthereum` and `PrintInfo` alone; on the stubs whose quorum is
not reached, respectively reached, it stays, respectively advances. -/
theorem C9_wait_for_quorum_outcomes_witness :
    elrondToEth.waitForQuorumOnTransferStep.Execute
        (elrondToEth.Executor.scripted
          { elrondToEth.Script.happy with ProcessMaxQuorumRetriesOnEthereum := true }) [] =
      .ret StepIdentifier.GettingPendingBatchFromElrond
        ["ProcessMaxQuorumRetriesOnEthereum", "PrintInfo"] ∧
    elrondToEth.waitForQuorumOnTransferStep.Execute
        (elrondToEth.Executor.scripted
          { elrondToEth.Script.happy with ProcessQuorumReachedOnEthereum := (false, none) }) [] =
      .ret StepIdentifier.WaitingForQuorumOnTransfer
        ["ProcessMaxQuorumRetriesOnEthereum", "ProcessQuorumReachedOnEthereum", "PrintInfo"] ∧
    elrondToEth.waitForQuorumOnTransferStep.Execute
        (elrondToEth.Executor.scripted elrondToEth.Script.happy) [] =
      .ret StepIdentifier.PerformingTransfer
        ["ProcessMaxQuorumRetriesOnEthereum", "ProcessQuorumReachedOnEthereum", "PrintInfo"] :=
  ⟨(C9_wait_for_quorum_outcomes
      (elrondToEth.Executor.scripted
        { elrondToEth.Script.happy with ProcessMaxQuorumRetriesOnEthereum := true }) []).1
      _ _ rfl rfl,
    (C9_wait_for_quorum_outcomes
      (elrondToEth.Executor.scripted
        { elrondToEth.Script.happy with ProcessQuorumReachedOnEthereum := (false, none) })
      []).2.2.1 _ _ _ rfl rfl rfl,
    (C9_wait_for_quorum_outcomes
      (elrondToEth.Executor.scripted elrondToEth.Script.happy) []).2.2.2.1 _ _ _ rfl rfl rfl⟩

/-- C10: the outcomes of `getPendingStep.Execute` on any executor, once the two resets and
`GetBatchFromElrond` have returned.  The step returns its own identifier when the fetch
returned an error, when the batch fetched is nil, when storing returned an error and when
`WasTransferPerformedOnEthereum` returned an error; otherwise `ResolvingSetStatusOnElrond`
when the transfer was performed and `SigningProposedTransferOnEthereum` when it was not. -/
theorem C10_get_pending_outcomes {σ : Type} (bridge : elrondToEth.Executor σ)
    (batchToString : TransferBatch → String) (s s1 s2 s3 : σ)
    (batch : Option TransferBatch) (err : Option Error)
    (h1 : bridge.ResetRetriesCountOnEthereum s = .ret () s1)
    (h2 : bridge.ResetRetriesCountOnElrond s1 = .ret () s2)
    (h3 : bridge.GetBatchFromElrond s2 = .ret (batch, err) s3) :
    (∀ (e : Error) (s4 : σ), err = some e →
      bridge.PrintInfo .LogDebug "error fetching Elrond batch" [.str "error", .err (some e)] s3 =
        .ret () s4 →
      elrondToEth.getPendingStep.Execute bridge batchToString s =
        .ret elrondToEth.getPendingStep.Identifier s4) ∧
    (∀ s4 : σ, err = none → batch = none →
      bridge.PrintInfo .LogDebug "no new batch found on Elrond" [] s3 = .ret () s4 →
      elrondToEth.getPendingStep.Execute bridge batchToString s =
        .ret elrondToEth.getPendingStep.Identifier s4) ∧
    (∀ (b : TransferBatch) (e : Error) (s4 s5 : σ), err = none → batch = some b →
      bridge.StoreBatchFromElrond (some b) s3 = .ret (some e) s4 →
      bridge.PrintInfo .LogError "error storing Elrond batch" [.str "error", .err (some e)] s4 =
        .ret () s5 →
      elrondToEth.getPendingStep.Execute bridge batchToString s =
        .ret elrondToEth.getPendingStep.Identifier s5) ∧
    (∀ (b : TransferBatch) (wasPerformed : Bool) (e : Error) (s4 s5 s6 s7 : σ),
      err = none → batch = some b →
      bridge.StoreBatchFromElrond (some b) s3 = .ret none s4 →
      bridge.PrintInfo .LogInfo ("fetched new batch from Elrond " ++ batchToString b) [] s4 =
        .ret () s5 →
      bridge.WasTransferPerformedOnEthereum s5 = .ret (wasPerformed, some e) s6 →
      bridge.PrintInfo .LogError "error determining if transfer was performed or not"
        [.str "error", .err (some e)] s6 = .ret () s7 →
      elrondToEth.getPendingStep.Execute bridge batchToString s =
        .ret elrondToEth.getPendingStep.Identifier s7) ∧
    (∀ (b : TransferBatch) (s4 s5 s6 s7 : σ), err = none → batch = some b →
      bridge.StoreBatchFromElrond (some b) s3 = .ret none s4 →
      bridge.PrintInfo .LogInfo ("fetched new batch from Elrond " ++ batchToString b) [] s4 =
        .ret () s5 →
      bridge.WasTransferPerformedOnEthereum s5 = .ret (true, none) s6 →
      bridge.PrintInfo .LogInfo "transfer performed" [] s6 = .ret () s7 →
      elrondToEth.getPendingStep.Execute bridge batchToString s =
        .ret StepIdentifier.ResolvingSetStatusOnElrond s7) ∧
    (∀ (b : TransferBatch) (s4 s5 s6 : σ), err = none → batch = some b →
      bridge.StoreBatchFromElrond (some b) s3 = .ret none s4 →
      bridge.PrintInfo .LogInfo ("fetched new batch from Elrond " ++ batchToString b) [] s4 =
        .ret () s5 →
      bridge.WasTransferPerformedOnEthereum s5 = .ret (false, none) s6 →
      elrondToEth.getPendingStep.Execute bridge batchToString s =
        .ret StepIdentifier.SigningProposedTransferOnEthereum s6) ∧
    elrondToEth.getPendingStep.Identifier = StepIdentifier.GettingPendingBatchFromElrond := by
  refine ⟨?_, ?_, ?_, ?_, ?_, ?_, rfl⟩
  · intro e s4 he h4
    subst he
    simp [elrondToEth.getPendingStep.Execute, h1, h2, h3, h4]
  · intro s4 he hb h4
    subst he hb
    simp [elrondToEth.getPendingStep.Execute, h1, h2, h3, h4]
  · intro b e s4 s5 he hb h4 h5
    subst he hb
    simp [elrondToEth.getPendingStep.Execute, h1, h2, h3, h4, h5]
  · intro b wp e s4 s5 s6 s7 he hb h4 h5 h6 h7
    subst he hb
    simp [elrondToEth.getPendingStep.Execute, h1, h2, h3, h4, h5, h6, h7]
  · intro b s4 s5 s6 s7 he hb h4 h5 h6 h7
    subst he hb
    simp [elrondToEth.getPendingStep.Execute, h1, h2, h3, h4, h5, h6, h7]
  · intro b s4 s5 s6 he hb h4 h5 h6
    subst he hb
    simp [elrondToEth.getPendingStep.Execute, h1, h2, h3, h4, h5, h6]

/-- C10, witness: stub executors on which the transfer was performed, was not performed, and
on which no batch is pending. -/
theorem C10_get_pending_outcomes_witness :
    elrondToEth.getPendingStep.Execute
        (elrondToEth.Executor.scripted
          { elrondToEth.Script.happy with WasTransferPerformedOnEthereum := (true, none) })
        (fun _ => "") [] =
      .ret StepIdentifier.ResolvingSetStatusOnElrond
        ["ResetRetriesCountOnEthereum", "ResetRetriesCountOnElrond", "GetBatchFromElrond",
          "StoreBatchFromElrond", "PrintInfo", "WasTransferPerformedOnEthereum", "PrintInfo"] ∧
    elrondToEth.getPendingStep.Execute
        (elrondToEth.Executor.scripted elrondToEth.Script.happy) (fun _ => "") [] =
      .ret StepIdentifier.SigningProposedTransferOnEthereum
        ["ResetRetriesCountOnEthereum", "ResetRetriesCountOnElrond", "GetBatchFromElrond",
          "StoreBatchFromElrond", "PrintInfo", "WasTransferPerformedOnEthereum"] ∧
    elrondToEth.getPendingStep.Execute
        (elrondToEth.Executor.scripted
          { elrondToEth.Script.happy with GetBatchFromElrond := (none, none) })
        (fun _ => "") [] =
      .ret StepIdentifier.GettingPendingBatchFromElrond
        ["ResetRetriesCountOnEthereum", "ResetRetriesCountOnElrond", "GetBatchFromElrond",
          "PrintInfo"] :=
  ⟨(C10_get_pending_outcomes
      (elrondToEth.Executor.scripted
        { elrondToEth.Script.happy with WasTransferPerformedOnEthereum := (true, none) })
      (fun _ => "") [] _ _ _ _ _ rfl rfl rfl).2.2.2.2.1
      (batchWithNonces 1 [1]) _ _ _ _ rfl rfl rfl rfl rfl rfl,
    (C10_get_pending_outcomes
      (elrondToEth.Executor.scripted elrondToEth.Script.happy)
      (fun _ => "") [] _ _ _ _ _ rfl rfl rfl).2.2.2.2.2.1
      (batchWithNonces 1 [1]) _ _ _ rfl rfl rfl rfl rfl,
    (C10_get_pending_outcomes
      (elrondToEth.Executor.scripted
        { elrondToEth.Script.happy with GetBatchFromElrond := (none, none) })
      (fun _ => "") [] _ _ _ _ _ rfl rfl rfl).2.1 _ rfl rfl rfl⟩

/-! ## Was the action signed -/

/-- The `bridges/ethElrond` executor asks the Elrond client `WasSigned` for the stored action
id and returns its answer. -/
theorem ethElrond.WasActionSignedOnElrond_apply (c : Collaborators) (s : ethElrond.State) :
    ethElrond.WasActionSignedOnElrond c s =
      .ret (c.elrondClient.WasSigned s.history s.executor.actionID)
        { s with history := s.history ++ [.elrond (.WasSigned s.executor.actionID)] } := by
  simp [ethElrond.WasActionSignedOnElrond]

/-- The v2 executor asks the Elrond client `WasExecuted`, not `WasSigned`, for the stored
action id and returns its answer. -/
theorem v2.WasActionSignedOnElrond_apply_v2 (c : v2.Collaborators) (s : v2.State) :
    v2.WasActionSignedOnElrond c s =
      .ret (c.elrondClient.WasExecuted s.history s.executor.actionID)
        { s with history := s.history ++ [.elrond (.WasExecuted s.executor.actionID)] } := by
  simp [v2.WasActionSignedOnElrond]

/-- C11: on an Elrond client where this relayer signed action 5 and the action was not yet
executed, the `bridges/ethElrond` executor asks `WasSigned` and answers true, while the v2
executor asks `WasExecuted` and answers false. -/
theorem C11_v2_was_action_signed_asks_was_executed :
    ethElrond.WasActionSignedOnElrond
        (Collaborators.around ElrondClient.signedNotExecuted EthereumClient.quiet)
        ⟨{ ethElrond.executorHolding 1 none with actionID := 5 }, []⟩ =
      .ret (true, none)
        ⟨{ ethElrond.executorHolding 1 none with actionID := 5 }, [.elrond (.WasSigned 5)]⟩ ∧
    v2.WasActionSignedOnElrond
        (v2.Collaborators.around ElrondClient.signedNotExecuted EthereumClient.quiet)
        ⟨{ v2.executorHolding none with actionID := 5 }, []⟩ =
      .ret (false, none)
        ⟨{ v2.executorHolding none with actionID := 5 }, [.elrond (.WasExecuted 5)]⟩ := by
  decide

/-! ## Timed waits -/

theorem Prog.stateAfter_succ_left {σ α : Type} (p : Prog σ α) (n : Nat) (s : σ) :
    Prog.stateAfter p (n + 1) s = Prog.stateAfter p n (p s).state := by
  induction n with
  | zero => rfl
  | succ n ih =>
    show (p (Prog.stateAfter p (n + 1) s)).state = (p (Prog.stateAfter p n (p s).state)).state
    rw [ih]

theorem Prog.nthRun_succ_left {σ α : Type} (p : Prog σ α) (k : Nat) (hk : 1 ≤ k) (s : σ) :
    Prog.nthRun p (k + 1) s = Prog.nthRun p k (p s).state := by
  obtain ⟨n, rfl⟩ : ∃ n, k = n + 1 := ⟨k - 1, by omega⟩
  simp only [Prog.nthRun, Nat.add_sub_cancel]
  rw [Prog.stateAfter_succ_left]

theorem Prog.nthRun_one {σ α : Type} (p : Prog σ α) (s : σ) : Prog.nthRun p 1 s = p s := rfl

theorem ethElrond.waitWithContextSucceeded_apply (c : Collaborators) (s : ethElrond.State) :
    ethElrond.waitWithContextSucceeded c s =
      if c.timerFiresBeforeContextDone s.history then
        .ret true ⟨s.executor, s.history ++
          [.wait (s.executor.timeForWaitOnEthereum.tdiv ethElrond.splits)]⟩
      else
        .ret false ⟨s.executor, s.history ++
          [.wait (s.executor.timeForWaitOnEthereum.tdiv ethElrond.splits),
            .log .LogDebug "closing due to context expiration" []]⟩ := by
  simp only [ethElrond.waitWithContextSucceeded, Prog.bind_apply, getExecutor_apply, call_apply]
  split <;> simp

theorem ethElrond.GetBatchStatusesFromEthereum_returns (c : Collaborators)
    (s : ethElrond.State) :
    ∃ r s', ethElrond.GetBatchStatusesFromEthereum c s = .ret r s' := by
  simp only [ethElrond.GetBatchStatusesFromEthereum, Prog.bind_apply, getExecutor_apply]
  cases s.executor.batch with
  | none => exact ⟨_, _, rfl⟩
  | some b =>
    simp only [Prog.bind_apply, call_apply]
    split <;> exact ⟨_, _, rfl⟩

/-- An iteration of the loop of `WaitAndReturnFinalBatchStatuses` whose wait is ended by the
cancellation of the context returns nil from the method, without a poll. -/
theorem ethElrond.iteration_cancelled (c : Collaborators) (t : ethElrond.State)
    (hwait : c.timerFiresBeforeContextDone t.history = false) :
    ethElrond.WaitAndReturnFinalBatchStatuses.iteration c t =
      .ret (some none) ⟨t.executor, t.history ++
        [.wait (t.executor.timeForWaitOnEthereum.tdiv ethElrond.splits),
          .log .LogDebug "closing due to context expiration" []]⟩ := by
  simp [ethElrond.WaitAndReturnFinalBatchStatuses.iteration,
    ethElrond.waitWithContextSucceeded_apply, hwait]

/-- An iteration whose wait succeeds polls the statuses; on an error of the poll it logs and
goes on. -/
theorem ethElrond.iteration_poll_error (c : Collaborators) (t t2 : ethElrond.State)
    (statuses : Option (List Nat)) (e : Error)
    (hwait : c.timerFiresBeforeContextDone t.history = true)
    (hpoll : ethElrond.GetBatchStatusesFromEthereum c ⟨t.executor, t.history ++
        [.wait (t.executor.timeForWaitOnEthereum.tdiv ethElrond.splits)]⟩ =
      .ret (statuses, some e) t2) :
    ethElrond.WaitAndReturnFinalBatchStatuses.iteration c t =
      .ret none ⟨t2.executor, t2.history ++
        [.log .LogDebug "got message while fetching batch statuses"
          [.str "message", .err (some e)]]⟩ := by
  simp [ethElrond.WaitAndReturnFinalBatchStatuses.iteration,
    ethElrond.waitWithContextSucceeded_apply, hwait, hpoll]

/-- An iteration whose wait succeeds and whose poll gives no status logs and goes on. -/
theorem ethElrond.iteration_poll_empty (c : Collaborators) (t t2 : ethElrond.State)
    (statuses : Option (List Nat))
    (hwait : c.timerFiresBeforeContextDone t.history = true)
    (hpoll : ethElrond.GetBatchStatusesFromEthereum c ⟨t.executor, t.history ++
        [.wait (t.executor.timeForWaitOnEthereum.tdiv ethElrond.splits)]⟩ =
      .ret (statuses, none) t2)
    (hempty : statuses = none ∨ statuses = some []) :
    ethElrond.WaitAndReturnFinalBatchStatuses.iteration c t =
      .ret none ⟨t2.executor, t2.history ++ [.log .LogDebug "no status available" []]⟩ := by
  rcases hempty with rfl | rfl <;>
    simp [ethElrond.WaitAndReturnFinalBatchStatuses.iteration,
      ethElrond.waitWithContextSucceeded_apply, hwait, hpoll]

/-- An iteration whose wait succeeds and whose poll gives statuses returns them from the
method. -/
theorem ethElrond.iteration_poll_statuses (c : Collaborators) (t t2 : ethElrond.State)
    (st : List Nat)
    (hwait : c.timerFiresBeforeContextDone t.history = true)
    (hpoll : ethElrond.GetBatchStatusesFromEthereum c ⟨t.executor, t.history ++
        [.wait (t.executor.timeForWaitOnEthereum.tdiv ethElrond.splits)]⟩ =
      .ret (some st, none) t2)
    (hst : st ≠ []) :
    ethElrond.WaitAndReturnFinalBatchStatuses.iteration c t =
      .ret (some (some st)) ⟨t2.executor, t2.history ++
        [.log .LogDebug "bridgeExecutor.WaitAndReturnFinalBatchStatuses"
          [.str "statuses", .bytes (some st)]]⟩ := by
  simp [ethElrond.WaitAndReturnFinalBatchStatuses.iteration,
    ethElrond.waitWithContextSucceeded_apply, hwait, hpoll, hst]

/-- An iteration always returns, and what it returns from the method is nil or a non-empty
sequence of statuses. -/
theorem ethElrond.iteration_returns (c : Collaborators) (t : ethElrond.State) :
    ∃ x t', ethElrond.WaitAndReturnFinalBatchStatuses.iteration c t = .ret x t' ∧
      ∀ st, x = some (some st) → st ≠ [] := by
  cases hwait : c.timerFiresBeforeContextDone t.history with
  | false =>
    exact ⟨_, _, ethElrond.iteration_cancelled c t hwait, by simp⟩
  | true =>
    obtain ⟨⟨statuses, err⟩, t2, hpoll⟩ := ethElrond.GetBatchStatusesFromEthereum_returns c
      ⟨t.executor, t.history ++
        [.wait (t.executor.timeForWaitOnEthereum.tdiv ethElrond.splits)]⟩
    cases err with
    | some e => exact ⟨_, _, ethElrond.iteration_poll_error c t t2 statuses e hwait hpoll, by simp⟩
    | none =>
      cases statuses with
      | none =>
        exact ⟨_, _, ethElrond.iteration_poll_empty c t t2 none hwait hpoll (Or.inl rfl),
          by simp⟩
      | some st =>
        by_cases hst : st = []
        · subst hst
          exact ⟨_, _, ethElrond.iteration_poll_empty c t t2 (some []) hwait hpoll
            (Or.inr rfl), by simp⟩
        · exact ⟨_, _, ethElrond.iteration_poll_statuses c t t2 st hwait hpoll hst,
            by intro st' h; cases h; exact hst⟩

theorem ethElrond.WaitAndReturnFinalBatchStatuses_loop_cases (c : Collaborators) :
    ∀ (n : Nat) (s : ethElrond.State),
      (∃ j r, 1 ≤ j ∧ j ≤ n ∧
        (∀ i, 1 ≤ i → i < j →
          (Prog.nthRun (ethElrond.WaitAndReturnFinalBatchStatuses.iteration c) i s).value? =
            some none) ∧
        (Prog.nthRun (ethElrond.WaitAndReturnFinalBatchStatuses.iteration c) j s).value? =
          some (some r) ∧
        ethElrond.WaitAndReturnFinalBatchStatuses.loop c n s =
          .ret r (Prog.nthRun (ethElrond.WaitAndReturnFinalBatchStatuses.iteration c) j s).state) ∨
      ((∀ i, 1 ≤ i → i ≤ n →
          (Prog.nthRun (ethElrond.WaitAndReturnFinalBatchStatuses.iteration c) i s).value? =
            some none) ∧
        ethElrond.WaitAndReturnFinalBatchStatuses.loop c n s =
          .ret none
            (Prog.stateAfter (ethElrond.WaitAndReturnFinalBatchStatuses.iteration c) n s)) := by
  intro n
  induction n with
  | zero =>
    intro s
    exact Or.inr ⟨fun i h1 h2 => by omega, rfl⟩
  | succ n ih =>
    intro s
    obtain ⟨x, s1, hx, -⟩ := ethElrond.iteration_returns c s
    have hs1 : (ethElrond.WaitAndReturnFinalBatchStatuses.iteration c s).state = s1 := by
      rw [hx]; rfl
    cases x with
    | some r =>
      have hloop : ethElrond.WaitAndReturnFinalBatchStatuses.loop c (n + 1) s = .ret r s1 := by
        simp [ethElrond.WaitAndReturnFinalBatchStatuses.loop, hx]
      refine Or.inl ⟨1, r, le_refl 1, by omega, fun i h1 h2 => by omega, ?_, ?_⟩
      · rw [Prog.nthRun_one, hx]; rfl
      · rw [hloop, Prog.nthRun_one, hx]; rfl
    | none =>
      have hloop : ethElrond.WaitAndReturnFinalBatchStatuses.loop c (n + 1) s =
          ethElrond.WaitAndReturnFinalBatchStatuses.loop c n s1 := by
        simp [ethElrond.WaitAndReturnFinalBatchStatuses.loop, hx]
      have hfirst : (Prog.nthRun (ethElrond.WaitAndReturnFinalBatchStatuses.iteration c) 1
          s).value? = some none := by
        rw [Prog.nthRun_one, hx]; rfl
      have hshift : ∀ i, 1 ≤ i →
          Prog.nthRun (ethElrond.WaitAndReturnFinalBatchStatuses.iteration c) (i + 1) s =
            Prog.nthRun (ethElrond.WaitAndReturnFinalBatchStatuses.iteration c) i s1 := by
        intro i hi
        rw [Prog.nthRun_succ_left _ i hi, hs1]
      rcases ih s1 with ⟨j, r, hj1, hjn, hbefore, hat, hrun⟩ | ⟨hall, hrun⟩
      · refine Or.inl ⟨j + 1, r, by omega, by omega, ?_, ?_, ?_⟩
        · intro i h1 h2
          rcases Nat.eq_or_lt_of_le h1 with h | h
          · rw [← h]; exact hfirst
          · obtain ⟨i', rfl⟩ : ∃ i', i = i' + 1 := ⟨i - 1, by omega⟩
            rw [hshift i' (by omega)]
            exact hbefore i' (by omega) (by omega)
        · rw [hshift j hj1]; exact hat
        · rw [hloop, hshift j hj1]; exact hrun
      · refine Or.inr ⟨?_, ?_⟩
        · intro i h1 h2
          rcases Nat.eq_or_lt_of_le h1 with h | h
          · rw [← h]; exact hfirst
          · obtain ⟨i', rfl⟩ : ∃ i', i = i' + 1 := ⟨i - 1, by omega⟩
            rw [hshift i' (by omega)]
            exact hall i' (by omega) (by omega)
        · rw [hloop, Prog.stateAfter_succ_left, hs1]; exact hrun

/-- C12: `WaitAndReturnFinalBatchStatuses` runs at most `splits = 10` iterations.  Either some
iteration `j ≤ 10` is the first that does not go on, and the method returns what it returns,
in the state it reaches, nothing being run after it; or all ten iterations go on and the
method returns nil.  An iteration waits first; when the wait is ended by the cancellation of
the context it returns nil without a poll; otherwise it polls once, goes on when the poll
gives an error or no status, and returns the statuses when there are some.  The method never
returns an empty sequence that is not nil. -/
theorem C12_wait_and_return_final_batch_statuses (c : Collaborators) (s : ethElrond.State) :
    ((∃ j r, 1 ≤ j ∧ j ≤ 10 ∧
        (∀ i, 1 ≤ i → i < j →
          (Prog.nthRun (ethElrond.WaitAndReturnFinalBatchStatuses.iteration c) i s).value? =
            some none) ∧
        (Prog.nthRun (ethElrond.WaitAndReturnFinalBatchStatuses.iteration c) j s).value? =
          some (some r) ∧
        ethElrond.WaitAndReturnFinalBatchStatuses c s =
          .ret r (Prog.nthRun (ethElrond.WaitAndReturnFinalBatchStatuses.iteration c) j s).state) ∨
      ((∀ i, 1 ≤ i → i ≤ 10 →
          (Prog.nthRun (ethElrond.WaitAndReturnFinalBatchStatuses.iteration c) i s).value? =
            some none) ∧
        ethElrond.WaitAndReturnFinalBatchStatuses c s =
          .ret none
            (Prog.stateAfter (ethElrond.WaitAndReturnFinalBatchStatuses.iteration c) 10 s))) ∧
    (∀ (st : List Nat) (s' : ethElrond.State),
      ethElrond.WaitAndReturnFinalBatchStatuses c s = .ret (some st) s' → st ≠ []) ∧
    (∀ t : ethElrond.State, c.timerFiresBeforeContextDone t.history = false →
      ethElrond.WaitAndReturnFinalBatchStatuses.iteration c t =
        .ret (some none) ⟨t.executor, t.history ++
          [.wait (t.executor.timeForWaitOnEthereum.tdiv ethElrond.splits),
            .log .LogDebug "closing due to context expiration" []]⟩) ∧
    (∀ (t t2 : ethElrond.State) (statuses : Option (List Nat)) (e : Error),
      c.timerFiresBeforeContextDone t.history = true →
      ethElrond.GetBatchStatusesFromEthereum c ⟨t.executor, t.history ++
          [.wait (t.executor.timeForWaitOnEthereum.tdiv ethElrond.splits)]⟩ =
        .ret (statuses, some e) t2 →
      ethElrond.WaitAndReturnFinalBatchStatuses.iteration c t =
        .ret none ⟨t2.executor, t2.history ++
          [.log .LogDebug "got message while fetching batch statuses"
            [.str "message", .err (some e)]]⟩) ∧
    (∀ (t t2 : ethElrond.State) (statuses : Option (List Nat)),
      c.timerFiresBeforeContextDone t.history = true →
      ethElrond.GetBatchStatusesFromEthereum c ⟨t.executor, t.history ++
          [.wait (t.executor.timeForWaitOnEthereum.tdiv ethElrond.splits)]⟩ =
        .ret (statuses, none) t2 →
      statuses = none ∨ statuses = some [] →
      ethElrond.WaitAndReturnFinalBatchStatuses.iteration c t =
        .ret none ⟨t2.executor, t2.history ++ [.log .LogDebug "no status available" []]⟩) ∧
    (∀ (t t2 : ethElrond.State) (st : List Nat),
      c.timerFiresBeforeContextDone t.history = true →
      ethElrond.GetBatchStatusesFromEthereum c ⟨t.executor, t.history ++
          [.wait (t.executor.timeForWaitOnEthereum.tdiv ethElrond.splits)]⟩ =
        .ret (some st, none) t2 →
      st ≠ [] →
      ethElrond.WaitAndReturnFinalBatchStatuses.iteration c t =
        .ret (some (some st)) ⟨t2.executor, t2.history ++
          [.log .LogDebug "bridgeExecutor.WaitAndReturnFinalBatchStatuses"
            [.str "statuses", .bytes (some st)]]⟩) := by
  have hcases := ethElrond.WaitAndReturnFinalBatchStatuses_loop_cases c 10 s
  refine ⟨hcases, ?_, ethElrond.iteration_cancelled c,
    fun t t2 statuses e => ethElrond.iteration_poll_error c t t2 statuses e,
    fun t t2 statuses => ethElrond.iteration_poll_empty c t t2 statuses,
    fun t t2 st => ethElrond.iteration_poll_statuses c t t2 st⟩
  intro st s' hrun
  rcases hcases with ⟨j, r, hj1, -, -, hat, hloop⟩ | ⟨-, hloop⟩
  · have hr : r = some st := by
      have h := hloop.symm.trans hrun
      injection h
    subst hr
    obtain ⟨x, t', hx, hne⟩ := ethElrond.iteration_returns c
      (Prog.stateAfter (ethElrond.WaitAndReturnFinalBatchStatuses.iteration c) (j - 1) s)
    have hx' : (Prog.nthRun (ethElrond.WaitAndReturnFinalBatchStatuses.iteration c) j
        s).value? = some x := by
      show (ethElrond.WaitAndReturnFinalBatchStatuses.iteration c _).value? = some x
      rw [hx]; rfl
    rw [hat] at hx'
    injection hx' with hx'
    exact hne st hx'.symm
  · have h := hloop.symm.trans hrun
    injection h with h1 h2
    cases h1

/-- C12, witness: the statuses are empty at the first poll and executed, rejected at the
second, which the method returns after two waits and two polls; and with a context cancelled
after the first sub-interval and a client without statuses the method returns nil at the
second wait. -/
theorem C12_wait_and_return_final_batch_statuses_witness :
    (ethElrond.WaitAndReturnFinalBatchStatuses
        (Collaborators.around ElrondClient.quiet EthereumClient.statusesLate)
        (ethElrond.stateHolding 1 (some (batchWithNonces 7 [1, 2]))) =
      .ret (some [3, 4])
        ⟨ethElrond.executorHolding 1 (some (batchWithNonces 7 [1, 2])),
          [.wait 100000000, .ethereum (.GetTransactionsStatuses 7),
            .log .LogDebug "no status available" [],
            .wait 100000000, .ethereum (.GetTransactionsStatuses 7),
            .log .LogDebug "bridgeExecutor.WaitAndReturnFinalBatchStatuses"
              [.str "statuses", .bytes (some [3, 4])]]⟩ ∧
      [3, 4] ≠ ([] : List Nat)) ∧
    ethElrond.WaitAndReturnFinalBatchStatuses (Collaborators.cancelledAfter 1)
        (ethElrond.stateHolding 1 (some (batchWithNonces 7 [1, 2]))) =
      .ret none
        ⟨ethElrond.executorHolding 1 (some (batchWithNonces 7 [1, 2])),
          [.wait 100000000, .ethereum (.GetTransactionsStatuses 7),
            .log .LogDebug "no status available" [],
            .wait 100000000, .log .LogDebug "closing due to context expiration" []]⟩ :=
  ⟨⟨by decide,
    (C12_wait_and_return_final_batch_statuses
      (Collaborators.around ElrondClient.quiet EthereumClient.statusesLate)
      (ethElrond.stateHolding 1 (some (batchWithNonces 7 [1, 2])))).2.1 [3, 4]
      ⟨ethElrond.executorHolding 1 (some (batchWithNonces 7 [1, 2])),
        [.wait 100000000, .ethereum (.GetTransactionsStatuses 7),
          .log .LogDebug "no status available" [],
          .wait 100000000, .ethereum (.GetTransactionsStatuses 7),
          .log .LogDebug "bridgeExecutor.WaitAndReturnFinalBatchStatuses"
            [.str "statuses", .bytes (some [3, 4])]]⟩ (by decide)⟩,
    by decide⟩

theorem ethElrond.WasTransferPerformedOnEthereum_returns (c : Collaborators)
    (s : ethElrond.State) :
    ∃ r s', ethElrond.WasTransferPerformedOnEthereum c s = .ret r s' := by
  simp only [ethElrond.WasTransferPerformedOnEthereum, Prog.bind_apply, getExecutor_apply]
  cases s.executor.batch with
  | none => exact ⟨_, _, rfl⟩
  | some b => exact ⟨_, _, rfl⟩

theorem ethElrond.WaitForTransferConfirmation_loop_done (c : Collaborators) (n : Nat)
    (s : ethElrond.State) :
    ethElrond.WaitForTransferConfirmation.loop c n true s = .ret () s := by
  cases n <;> rfl

/-- As long as no wait is ended by the cancellation of the context,
`WaitForTransferConfirmation` runs as the loop of the specification. -/
theorem ethElrond.WaitForTransferConfirmation_eq_reference_of_no_cancel (c : Collaborators)
    (hwait : ∀ h, c.timerFiresBeforeContextDone h = true) (s : ethElrond.State) :
    ethElrond.WaitForTransferConfirmation c s =
      ethElrond.WaitForTransferConfirmation.reference c s := by
  have hloop : ∀ (n : Nat) (t : ethElrond.State),
      ethElrond.WaitForTransferConfirmation.loop c n false t =
        ethElrond.WaitForTransferConfirmation.referenceLoop c n t := by
    intro n
    induction n with
    | zero => intro t; rfl
    | succ n ih =>
      intro t
      obtain ⟨⟨wp, we⟩, t2, hpoll⟩ := ethElrond.WasTransferPerformedOnEthereum_returns c
        ⟨t.executor, t.history ++
          [.wait (t.executor.timeForWaitOnEthereum.tdiv ethElrond.splits)]⟩
      simp only [ethElrond.WaitForTransferConfirmation.loop,
        ethElrond.WaitForTransferConfirmation.referenceLoop,
        ethElrond.WaitForTransferConfirmation.iteration, Prog.bind_apply,
        ethElrond.waitWithContextSucceeded_apply, hwait, if_true, hpoll, Prog.pure_apply,
        Bool.false_eq_true, if_false, Bool.not_true]
      cases wp with
      | true => simp [ethElrond.WaitForTransferConfirmation_loop_done]
      | false => simpa using ih t2
  exact hloop ethElrond.splits s

/-- When every wait is ended by the cancellation of the context, the loop of
`WaitForTransferConfirmation` still goes through all its iterations: it waits, and logs the
expiry of the context, once per iteration left. -/
theorem ethElrond.WaitForTransferConfirmation_loop_all_cancelled (c : Collaborators)
    (hwait : ∀ h, c.timerFiresBeforeContextDone h = false) :
    ∀ (n : Nat) (s : ethElrond.State),
      ethElrond.WaitForTransferConfirmation.loop c n false s =
        .ret () ⟨s.executor, s.history ++
          (List.replicate n
            [Event.wait (s.executor.timeForWaitOnEthereum.tdiv ethElrond.splits),
              Event.log .LogDebug "closing due to context expiration" []]).flatten⟩ := by
  intro n
  induction n with
  | zero => intro s; simp [ethElrond.WaitForTransferConfirmation.loop]
  | succ n ih =>
    intro s
    simp only [ethElrond.WaitForTransferConfirmation.loop,
      ethElrond.WaitForTransferConfirmation.iteration, Prog.bind_apply,
      ethElrond.waitWithContextSucceeded_apply, hwait, Prog.pure_apply,
      Bool.false_eq_true, if_false]
    rw [ih]
    simp [List.replicate_succ]

/-- When the first wait is ended by the cancellation of the context, the loop of the
specification returns after that one wait. -/
theorem ethElrond.WaitForTransferConfirmation_referenceLoop_cancelled (c : Collaborators)
    (n : Nat) (s : ethElrond.State) (hwait : c.timerFiresBeforeContextDone s.history = false) :
    ethElrond.WaitForTransferConfirmation.referenceLoop c (n + 1) s =
      .ret () ⟨s.executor, s.history ++
        [.wait (s.executor.timeForWaitOnEthereum.tdiv ethElrond.splits),
          .log .LogDebug "closing due to context expiration" []]⟩ := by
  simp [ethElrond.WaitForTransferConfirmation.referenceLoop,
    ethElrond.waitWithContextSucceeded_apply, hwait]

/-- C13: with a context that is cancelled from the first wait on, the loop of the
specification waits once and returns, while `WaitForTransferConfirmation` goes through all
ten iterations, waiting (and logging the expiry of the context) ten times. -/
theorem C13_wait_for_transfer_confirmation_goes_on_after_cancel :
    ethElrond.WaitForTransferConfirmation.reference (Collaborators.cancelledAfter 0)
        (ethElrond.stateHolding 1 (some (batchWithNonces 7 [1]))) =
      .ret () ⟨ethElrond.executorHolding 1 (some (batchWithNonces 7 [1])),
        [.wait 100000000, .log .LogDebug "closing due to context expiration" []]⟩ ∧
    ethElrond.WaitForTransferConfirmation (Collaborators.cancelledAfter 0)
        (ethElrond.stateHolding 1 (some (batchWithNonces 7 [1]))) =
      .ret () ⟨ethElrond.executorHolding 1 (some (batchWithNonces 7 [1])),
        [.wait 100000000, .log .LogDebug "closing due to context expiration" [],
          .wait 100000000, .log .LogDebug "closing due to context expiration" [],
          .wait 100000000, .log .LogDebug "closing due to context expiration" [],
          .wait 100000000, .log .LogDebug "closing due to context expiration" [],
          .wait 100000000, .log .LogDebug "closing due to context expiration" [],
          .wait 100000000, .log .LogDebug "closing due to context expiration" [],
          .wait 100000000, .log .LogDebug "closing due to context expiration" [],
          .wait 100000000, .log .LogDebug "closing due to context expiration" [],
          .wait 100000000, .log .LogDebug "closing due to context expiration" [],
          .wait 100000000, .log .LogDebug "closing due to context expiration" []]⟩ := by
  have hwait : ∀ h, (Collaborators.cancelledAfter 0).timerFiresBeforeContextDone h = false := by
    intro h; simp [Collaborators.cancelledAfter]
  constructor
  · exact ethElrond.WaitForTransferConfirmation_referenceLoop_cancelled _ 9 _ (hwait _)
  · exact ethElrond.WaitForTransferConfirmation_loop_all_cancelled _ hwait 10 _

/-! ## Statuses of the new deposits -/

theorem TransferBatch.ResolveNewDeposits_statuses (tb : TransferBatch) (k n : Nat)
    (hd : tb.Deposits.length = k) (hs : tb.Statuses.length = k) :
    (tb.ResolveNewDeposits n).Statuses =
      tb.Statuses.take (min k n) ++ List.replicate (max k n - min k n) Rejected := by
  unfold TransferBatch.ResolveNewDeposits
  simp only [hd, hs]
  rcases Nat.lt_trichotomy n k with hlt | heq | hgt
  · have h1 : (n : Int) < (k : Int) := by exact_mod_cast hlt
    have h2 : ((k : Int) - (n : Int)).toNat = k - n := by omega
    have h3 : min (k - n) k = k - n := by omega
    have h4 : k - (k - n) = n := by omega
    have h5 : min k n = n := by omega
    have h6 : max k n = k := by omega
    simp only [h1, if_true, h2, h3, h4, h5, h6]
  · subst heq
    have h1 : ¬ ((n : Int) < (n : Int)) := by omega
    have h2 : ¬ ((n : Int) > (n : Int)) := by omega
    simp only [h1, h2, if_false, Nat.min_self, Nat.max_self, Nat.sub_self, List.replicate_zero,
      List.append_nil]
    rw [← hs, List.take_length]
  · have h1 : ¬ ((n : Int) < (k : Int)) := by omega
    have h2 : (n : Int) > (k : Int) := by exact_mod_cast hgt
    have h3 : ((n : Int) - (k : Int)).toNat = n - k := by omega
    have h5 : min k n = k := by omega
    have h6 : max k n = n := by omega
    simp only [h1, h2, if_false, if_true, h3, h5, h6]
    rw [← hs, List.take_length]

theorem TransferBatch.ResolveNewDeposits_getElem? (tb : TransferBatch) (k n : Nat)
    (hd : tb.Deposits.length = k) (hs : tb.Statuses.length = k) (i : Nat) :
    (i < min k n → (tb.ResolveNewDeposits n).Statuses[i]? = tb.Statuses[i]?) ∧
    (min k n ≤ i → i < max k n → (tb.ResolveNewDeposits n).Statuses[i]? = some Rejected) := by
  rw [TransferBatch.ResolveNewDeposits_statuses tb k n hd hs]
  have hlen : (tb.Statuses.take (min k n)).length = min k n := by
    rw [List.length_take, hs]; omega
  constructor
  · intro hi
    rw [List.getElem?_append_left (by rw [hlen]; exact hi), List.getElem?_take_of_lt hi]
  · intro h1 h2
    rw [List.getElem?_append_right (by rw [hlen]; exact h1), hlen]
    rw [List.getElem?_replicate]
    have : i - min k n < max k n - min k n := by omega
    simp [this]

/-- C14, as amended: for a batch with `k` deposits and `k` statuses and every `n`, after
`ResolveNewDeposits(n)` the statuses have length `max k n`; the statuses below `min k n` are
the ones before the call and every status from `min k n` on is `Rejected`, so that below the
new length `statuses[i] = Rejected` exactly when `i ≥ min k n` or the status at `i` was
`Rejected` before; the deposits and the id are untouched; and the executor's
`ResolveNewDepositsStatuses(n)`, for `n` below `2^63`, replaces the stored batch by that
one. -/
theorem C14_resolve_new_deposits (tb : TransferBatch) (k n : Nat)
    (hd : tb.Deposits.length = k) (hs : tb.Statuses.length = k) :
    (tb.ResolveNewDeposits n).Statuses.length = max k n ∧
    (tb.ResolveNewDeposits n).Deposits = tb.Deposits ∧
    (tb.ResolveNewDeposits n).ID = tb.ID ∧
    (∀ i, i < max k n →
      ((tb.ResolveNewDeposits n).Statuses[i]? = some Rejected ↔
        (min k n ≤ i ∨ tb.Statuses[i]? = some Rejected))) ∧
    (∀ i, i < min k n → (tb.ResolveNewDeposits n).Statuses[i]? = tb.Statuses[i]?) ∧
    (∀ (c : Collaborators) (s : ethElrond.State), s.executor.batch = some tb → n < 2 ^ 63 →
      ethElrond.ResolveNewDepositsStatuses c n s =
        .ret () ⟨{ s.executor with batch := some (tb.ResolveNewDeposits n) }, s.history⟩) := by
  refine ⟨?_, ?_, ?_, ?_, ?_, ?_⟩
  · rw [TransferBatch.ResolveNewDeposits_statuses tb k n hd hs, List.length_append,
      List.length_take, List.length_replicate, hs]
    omega
  · unfold TransferBatch.ResolveNewDeposits
    simp only []
    split
    · rfl
    · split <;> rfl
  · unfold TransferBatch.ResolveNewDeposits
    simp only []
    split
    · rfl
    · split <;> rfl
  · intro i hi
    have h := TransferBatch.ResolveNewDeposits_getElem? tb k n hd hs i
    by_cases hlt : i < min k n
    · rw [h.1 hlt]
      constructor
      · intro h'; exact Or.inr h'
      · rintro (h' | h')
        · omega
        · exact h'
    · rw [h.2 (by omega) hi]
      simp only [true_iff]
      exact Or.inl (by omega)
  · intro i hi
    exact (TransferBatch.ResolveNewDeposits_getElem? tb k n hd hs i).1 hi
  · intro c s hb hn
    have hconv : toInt64 (n : Int) = (n : Int) := by
      unfold toInt64
      omega
    simp [ethElrond.ResolveNewDepositsStatuses, hb, hconv]

/-- C14, the claim as stated fails: on two deposits with two pending statuses and `n = 3`
the statuses become pending, pending, rejected, so the status at index 2 is `Rejected` though
2 is below `n`; and on the statuses executed, rejected with `n = 2` nothing changes, so the
status at index 1 is `Rejected` though 1 is below `n`. -/
theorem C14_rejected_below_n :
    (batchWithNonces 1 [1, 2]).Deposits.length = 2 ∧
    (batchWithNonces 1 [1, 2]).Statuses = [0, 0] ∧
    ((batchWithNonces 1 [1, 2]).ResolveNewDeposits 3).Statuses = [0, 0, Rejected] ∧
    ¬ (∀ i, i < max 2 3 →
      (((batchWithNonces 1 [1, 2]).ResolveNewDeposits 3).Statuses[i]? = some Rejected ↔
        3 ≤ i)) ∧
    ({ batchWithNonces 1 [1, 2] with Statuses := [Executed, Rejected] }.ResolveNewDeposits
      2).Statuses = [Executed, Rejected] ∧
    ¬ (∀ i, i < max 2 2 →
      (({ batchWithNonces 1 [1, 2] with Statuses := [Executed, Rejected] }.ResolveNewDeposits
        2).Statuses[i]? = some Rejected ↔ 2 ≤ i)) := by
  refine ⟨by decide, by decide, by decide, ?_, by decide, ?_⟩
  · intro h
    have h2 := (h 2 (by decide)).1 (by decide)
    omega
  · intro h
    have h1 := (h 1 (by decide)).1 (by decide)
    omega

/-- C14, witness: two deposits with two pending statuses and `n = 0, 1, 2, 3`. -/
theorem C14_resolve_new_deposits_witness :
    ((batchWithNonces 1 [1, 2]).ResolveNewDeposits 0).Statuses = [4, 4] ∧
    ((batchWithNonces 1 [1, 2]).ResolveNewDeposits 1).Statuses = [0, 4] ∧
    ((batchWithNonces 1 [1, 2]).ResolveNewDeposits 2).Statuses = [0, 0] ∧
    ((batchWithNonces 1 [1, 2]).ResolveNewDeposits 3).Statuses = [0, 0, 4] ∧
    ((batchWithNonces 1 [1, 2]).ResolveNewDeposits (3 : Nat)).Statuses.length = max 2 3 ∧
    ethElrond.ResolveNewDepositsStatuses
        (Collaborators.around ElrondClient.quiet EthereumClient.quiet) 3
        (ethElrond.stateHolding 1 (some (batchWithNonces 1 [1, 2]))) =
      .ret () ⟨ethElrond.executorHolding 1
        (some { batchWithNonces 1 [1, 2] with Statuses := [0, 0, 4] }), []⟩ :=
  ⟨by decide, by decide, by decide, by decide,
    (C14_resolve_new_deposits (batchWithNonces 1 [1, 2]) 2 3 rfl rfl).1,
    (C14_resolve_new_deposits (batchWithNonces 1 [1, 2]) 2 3 rfl rfl).2.2.2.2.2
      (Collaborators.around ElrondClient.quiet EthereumClient.quiet)
      (ethElrond.stateHolding 1 (some (batchWithNonces 1 [1, 2]))) rfl (by decide)⟩

/-! ## Construction of the executor -/

theorem ite_some_eq_none_iff {c : Prop} [Decidable c] (e : Error) (rest : Option Error) :
    (if c then some e else rest) = none ↔ ¬ c ∧ rest = none := by
  by_cases h : c <;> simp [h]

theorem Option.not_isNone_iff_isSome {α : Type} (o : Option α) :
    ¬ o.isNone = true ↔ o.isSome = true := by
  cases o <;> simp

theorem ethElrond.checkArgs_eq_none_iff (durationLimit : Int)
    (args : ethElrond.ArgsBridgeExecutor) :
    ethElrond.checkArgs durationLimit args = none ↔
      args.Log.isSome ∧ args.ElrondClient.isSome ∧ args.EthereumClient.isSome ∧
      args.TopologyProvider.isSome ∧ args.StatusHandler.isSome ∧
      args.SignaturesHolder.isSome ∧ args.BatchValidator.isSome ∧
      durationLimit ≤ args.TimeForWaitOnEthereum ∧
      1 ≤ args.MaxQuorumRetriesOnEthereum ∧ 1 ≤ args.MaxQuorumRetriesOnElrond ∧
      1 ≤ args.MaxRestriesOnWasProposed := by
  unfold ethElrond.checkArgs ethElrond.minRetries
  simp only [ite_some_eq_none_iff, Option.not_isNone_iff_isSome]
  constructor
  · rintro ⟨a1, a2, a3, a4, a5, a6, a7, a8, a9, a10, a11, -⟩
    exact ⟨a1, a2, a3, a4, a5, a7, a8, by omega, by omega, by omega, by omega⟩
  · rintro ⟨a1, a2, a3, a4, a5, a7, a8, a6, a9, a10, a11⟩
    exact ⟨a1, a2, a3, a4, a5, by omega, a7, a8, by omega, by omega, by omega, trivial⟩

theorem Option.isNone_eq_false_of_isSome {α : Type} {o : Option α} (h : o.isSome = true) :
    o.isNone = false := by
  cases o <;> simp_all

theorem ethElrond.NewBridgeExecutor_snd (durationLimit : Int)
    (args : ethElrond.ArgsBridgeExecutor) :
    (ethElrond.NewBridgeExecutor durationLimit args).2 =
      ethElrond.checkArgs durationLimit args := by
  unfold ethElrond.NewBridgeExecutor
  cases ethElrond.checkArgs durationLimit args <;> rfl

theorem ethElrond.NewBridgeExecutor_fst (durationLimit : Int)
    (args : ethElrond.ArgsBridgeExecutor) :
    (ethElrond.NewBridgeExecutor durationLimit args).1 =
      if ethElrond.checkArgs durationLimit args = none then
        some (ethElrond.createBridgeExecutor args)
      else none := by
  unfold ethElrond.NewBridgeExecutor
  cases ethElrond.checkArgs durationLimit args <;> rfl

theorem ethElrond.checkArgs_duration (durationLimit : Int)
    (args : ethElrond.ArgsBridgeExecutor)
    (h1 : args.Log.isSome) (h2 : args.ElrondClient.isSome) (h3 : args.EthereumClient.isSome)
    (h4 : args.TopologyProvider.isSome) (h5 : args.StatusHandler.isSome)
    (hlt : args.TimeForWaitOnEthereum < durationLimit) :
    ethElrond.checkArgs durationLimit args = some ethElrond.ErrInvalidDuration := by
  unfold ethElrond.checkArgs
  simp only [Option.isNone_eq_false_of_isSome h1, Option.isNone_eq_false_of_isSome h2,
    Option.isNone_eq_false_of_isSome h3, Option.isNone_eq_false_of_isSome h4,
    Option.isNone_eq_false_of_isSome h5, Bool.false_eq_true, if_false, hlt, if_true]

theorem ethElrond.checkArgs_bound (durationLimit : Int)
    (args : ethElrond.ArgsBridgeExecutor)
    (h1 : args.Log.isSome) (h2 : args.ElrondClient.isSome) (h3 : args.EthereumClient.isSome)
    (h4 : args.TopologyProvider.isSome) (h5 : args.StatusHandler.isSome)
    (h6 : args.SignaturesHolder.isSome) (h7 : args.BatchValidator.isSome)
    (hd : durationLimit ≤ args.TimeForWaitOnEthereum)
    (hb : args.MaxQuorumRetriesOnEthereum = 0 ∨ args.MaxQuorumRetriesOnElrond = 0 ∨
      args.MaxRestriesOnWasProposed = 0) :
    ∃ e : Error, ethElrond.checkArgs durationLimit args = some e ∧
      e.Is clients.ErrInvalidValue = true := by
  have hd' : ¬ args.TimeForWaitOnEthereum < durationLimit := by omega
  unfold ethElrond.checkArgs ethElrond.minRetries
  simp only [Option.isNone_eq_false_of_isSome h1, Option.isNone_eq_false_of_isSome h2,
    Option.isNone_eq_false_of_isSome h3, Option.isNone_eq_false_of_isSome h4,
    Option.isNone_eq_false_of_isSome h5, Option.isNone_eq_false_of_isSome h6,
    Option.isNone_eq_false_of_isSome h7, Bool.false_eq_true, if_false, hd']
  by_cases hE : args.MaxQuorumRetriesOnEthereum < 1
  · rw [if_pos hE]
    exact ⟨_, rfl, by simp [Error.Is, clients.ErrInvalidValue]⟩
  · rw [if_neg hE]
    by_cases hD : args.MaxQuorumRetriesOnElrond < 1
    · rw [if_pos hD]
      exact ⟨_, rfl, by simp [Error.Is, clients.ErrInvalidValue]⟩
    · have hW : args.MaxRestriesOnWasProposed < 1 := by omega
      rw [if_neg hD, if_pos hW]
      exact ⟨_, rfl, by simp [Error.Is, clients.ErrInvalidValue]⟩

/-- C15: `NewBridgeExecutor` succeeds exactly when the seven dependencies are non-nil, the
wait on Ethereum is at least `durationLimit` and the three retry bounds are at least 1.  On
success the executor is the one of `createBridgeExecutor`: no stored batch, action id 0, the
three retry counters at 0.  On failure no executor is returned.  A wait below `durationLimit`
yields `ErrInvalidDuration` (the five dependencies checked before it being non-nil), and a
retry bound of 0 yields an error wrapping `ErrInvalidValue` (everything checked before the
bounds being in order). -/
theorem C15_new_bridge_executor (durationLimit : Int) (args : ethElrond.ArgsBridgeExecutor) :
    ((ethElrond.NewBridgeExecutor durationLimit args).2 = none ↔
      args.Log.isSome ∧ args.ElrondClient.isSome ∧ args.EthereumClient.isSome ∧
      args.TopologyProvider.isSome ∧ args.StatusHandler.isSome ∧
      args.SignaturesHolder.isSome ∧ args.BatchValidator.isSome ∧
      durationLimit ≤ args.TimeForWaitOnEthereum ∧
      1 ≤ args.MaxQuorumRetriesOnEthereum ∧ 1 ≤ args.MaxQuorumRetriesOnElrond ∧
      1 ≤ args.MaxRestriesOnWasProposed) ∧
    ((ethElrond.NewBridgeExecutor durationLimit args).2 = none →
      ∃ executor : ethElrond.bridgeExecutor,
        (ethElrond.NewBridgeExecutor durationLimit args).1 = some executor ∧
        executor = ethElrond.createBridgeExecutor args ∧
        executor.batch = none ∧ executor.actionID = 0 ∧
        executor.quorumRetriesOnEthereum = 0 ∧ executor.quorumRetriesOnElrond = 0 ∧
        executor.retriesOnWasProposed = 0 ∧
        executor.maxQuorumRetriesOnEthereum = args.MaxQuorumRetriesOnEthereum ∧
        executor.maxQuorumRetriesOnElrond = args.MaxQuorumRetriesOnElrond ∧
        executor.maxRetriesOnWasProposed = args.MaxRestriesOnWasProposed) ∧
    ((ethElrond.NewBridgeExecutor durationLimit args).2 ≠ none →
      (ethElrond.NewBridgeExecutor durationLimit args).1 = none) ∧
    (args.Log.isSome → args.ElrondClient.isSome → args.EthereumClient.isSome →
      args.TopologyProvider.isSome → args.StatusHandler.isSome →
      args.TimeForWaitOnEthereum < durationLimit →
      (ethElrond.NewBridgeExecutor durationLimit args).2 = some ethElrond.ErrInvalidDuration) ∧
    (args.Log.isSome → args.ElrondClient.isSome → args.EthereumClient.isSome →
      args.TopologyProvider.isSome → args.StatusHandler.isSome →
      args.SignaturesHolder.isSome → args.BatchValidator.isSome →
      durationLimit ≤ args.TimeForWaitOnEthereum →
      args.MaxQuorumRetriesOnEthereum = 0 ∨ args.MaxQuorumRetriesOnElrond = 0 ∨
        args.MaxRestriesOnWasProposed = 0 →
      ∃ e : Error, (ethElrond.NewBridgeExecutor durationLimit args).2 = some e ∧
        e.Is clients.ErrInvalidValue = true) := by
  rw [ethElrond.NewBridgeExecutor_snd, ethElrond.NewBridgeExecutor_fst]
  refine ⟨ethElrond.checkArgs_eq_none_iff durationLimit args, ?_, ?_,
    ethElrond.checkArgs_duration durationLimit args,
    ethElrond.checkArgs_bound durationLimit args⟩
  · intro h
    exact ⟨ethElrond.createBridgeExecutor args, by simp [h], rfl, rfl, rfl, rfl, rfl, rfl, rfl,
      rfl, rfl⟩
  · intro h
    simp [h]

/-- C15, witness: the arguments with bounds 2, 3, 1 and a wait of one second are accepted
with a limit of one second and refused with a limit of two; a bound of 0 is refused. -/
theorem C15_new_bridge_executor_witness :
    (ethElrond.NewBridgeExecutor 1000000000 (ethElrond.argsWithBounds 2 3 1)).2 = none ∧
    (ethElrond.NewBridgeExecutor 2000000000 (ethElrond.argsWithBounds 2 3 1)).2 =
      some ethElrond.ErrInvalidDuration ∧
    (∃ e : Error,
      (ethElrond.NewBridgeExecutor 1000000000 (ethElrond.argsWithBounds 2 0 1)).2 = some e ∧
      e.Is clients.ErrInvalidValue = true) :=
  ⟨(C15_new_bridge_executor 1000000000 (ethElrond.argsWithBounds 2 3 1)).1.2
      ⟨rfl, rfl, rfl, rfl, rfl, rfl, rfl, by decide, by decide, by decide, by decide⟩,
    (C15_new_bridge_executor 2000000000 (ethElrond.argsWithBounds 2 3 1)).2.2.2.1
      rfl rfl rfl rfl rfl (by decide),
    (C15_new_bridge_executor 1000000000 (ethElrond.argsWithBounds 2 0 1)).2.2.2.2
      rfl rfl rfl rfl rfl rfl rfl (by decide) (Or.inr (Or.inl rfl))⟩

/-! ## Construction of the gas station -/

theorem gasManagement.NewGasStation_snd (args : gasManagement.ArgsGasStation) :
    (gasManagement.NewGasStation args).2 = gasManagement.checkArgs args := by
  unfold gasManagement.NewGasStation
  cases gasManagement.checkArgs args <;> rfl

/-- C16: `checkArgs` of the gas station, whose error is the error of `NewGasStation`, accepts
the arguments exactly when the polling interval is at least one second, the request time at
least one millisecond and the selector one of the four constants.  A smaller interval yields
an error wrapping `ErrInvalidValue` whatever the rest; with the interval in order a smaller
request time yields an error wrapping `ErrInvalidValue`; with both in order any other
selector yields an error wrapping `ErrInvalidGasPriceSelector`.  An accepted station has
fetched no response yet. -/
theorem C16_gas_station_check_args (args : gasManagement.ArgsGasStation) :
    (gasManagement.NewGasStation args).2 = gasManagement.checkArgs args ∧
    (gasManagement.checkArgs args = none ↔
      1000000000 ≤ args.RequestPollingInterval ∧ 1000000 ≤ args.RequestTime ∧
      (args.GasPriceSelector = .EthFastGasPrice ∨ args.GasPriceSelector = .EthFastestGasPrice ∨
        args.GasPriceSelector = .EthSafeLowGasPrice ∨
        args.GasPriceSelector = .EthAverageGasPrice)) ∧
    (args.RequestPollingInterval < 1000000000 →
      gasManagement.checkArgs args =
        some (.wrapf gasManagement.ErrInvalidValue
          " in checkArgs for value RequestPollingInterval" []) ∧
      (Error.wrapf gasManagement.ErrInvalidValue
        " in checkArgs for value RequestPollingInterval" []).Is
          gasManagement.ErrInvalidValue = true) ∧
    (1000000000 ≤ args.RequestPollingInterval → args.RequestTime < 1000000 →
      gasManagement.checkArgs args =
        some (.wrapf gasManagement.ErrInvalidValue " in checkArgs for value RequestTime" []) ∧
      (Error.wrapf gasManagement.ErrInvalidValue " in checkArgs for value RequestTime" []).Is
        gasManagement.ErrInvalidValue = true) ∧
    (∀ name : String, 1000000000 ≤ args.RequestPollingInterval → 1000000 ≤ args.RequestTime →
      args.GasPriceSelector = .other name →
      ∃ e : Error, gasManagement.checkArgs args = some e ∧
        e.Is gasManagement.ErrInvalidGasPriceSelector = true) ∧
    (gasManagement.checkArgs args = none →
      ∃ gs : gasManagement.gasStation, (gasManagement.NewGasStation args).1 = some gs ∧
        gs.latestResponse = none ∧ gs.maximumGasPrice = args.MaximumGasPrice ∧
        gs.gasPriceSelector = args.GasPriceSelector) := by
  refine ⟨gasManagement.NewGasStation_snd args, ?_, ?_, ?_, ?_, ?_⟩
  · unfold gasManagement.checkArgs gasManagement.minPollingInterval
      gasManagement.minRequestTime
    by_cases h1 : args.RequestPollingInterval < 1000000000
    · simp only [h1, if_true]
      constructor
      · intro h; cases h
      · rintro ⟨h, -⟩; omega
    · by_cases h2 : args.RequestTime < 1000000
      · simp only [h1, h2, if_true, if_false]
        constructor
        · intro h; cases h
        · rintro ⟨-, h, -⟩; omega
      · simp only [h1, h2, if_false]
        cases hsel : args.GasPriceSelector <;> simp <;> omega
  · intro h1
    unfold gasManagement.checkArgs gasManagement.minPollingInterval
    rw [if_pos h1]
    exact ⟨rfl, by simp [Error.Is, gasManagement.ErrInvalidValue]⟩
  · intro h1 h2
    have h1' : ¬ args.RequestPollingInterval < 1000000000 := by omega
    unfold gasManagement.checkArgs gasManagement.minPollingInterval
      gasManagement.minRequestTime
    rw [if_neg h1', if_pos h2]
    exact ⟨rfl, by simp [Error.Is, gasManagement.ErrInvalidValue]⟩
  · intro name h1 h2 hsel
    have h1' : ¬ args.RequestPollingInterval < 1000000000 := by omega
    have h2' : ¬ args.RequestTime < 1000000 := by omega
    unfold gasManagement.checkArgs gasManagement.minPollingInterval
      gasManagement.minRequestTime
    rw [if_neg h1', if_neg h2', hsel]
    exact ⟨_, rfl, by simp [Error.Is, gasManagement.ErrInvalidGasPriceSelector]⟩
  · intro h
    unfold gasManagement.NewGasStation
    rw [h]
    exact ⟨_, rfl, rfl, rfl, rfl⟩

/-- C16, witness: polling every second with a request time of a millisecond and the selector
fast is accepted; half a second is refused; the selector `slow` is refused. -/
theorem C16_gas_station_check_args_witness :
    gasManagement.checkArgs (gasManagement.argsWithSelector .EthFastGasPrice) = none ∧
    gasManagement.checkArgs
        { gasManagement.argsWithSelector .EthFastGasPrice with
          RequestPollingInterval := 500000000, RequestTime := 0 } =
      some (.wrapf gasManagement.ErrInvalidValue
        " in checkArgs for value RequestPollingInterval" []) ∧
    (∃ e : Error,
      gasManagement.checkArgs (gasManagement.argsWithSelector (.other "slow")) = some e ∧
      e.Is gasManagement.ErrInvalidGasPriceSelector = true) :=
  ⟨(C16_gas_station_check_args (gasManagement.argsWithSelector .EthFastGasPrice)).2.1.2
      ⟨by decide, by decide, Or.inl rfl⟩,
    ((C16_gas_station_check_args
      { gasManagement.argsWithSelector .EthFastGasPrice with
        RequestPollingInterval := 500000000, RequestTime := 0 }).2.2.1 (by decide)).1,
    (C16_gas_station_check_args (gasManagement.argsWithSelector (.other "slow"))).2.2.2.2.1
      "slow" (by decide) (by decide) rfl⟩

/-! ## Polls of the gas station -/

theorem gasManagement.doRequestReturningBytes_ok (x : gasManagement.HTTPExchange)
    (h : (gasManagement.doRequestReturningBytes x).2 = none) :
    gasManagement.doRequestReturningBytes x = (some x.body, none) := by
  unfold gasManagement.doRequestReturningBytes at h ⊢
  split_ifs at h ⊢ <;> simp_all

theorem gasManagement.doRequest_cases
    (unmarshal : List Nat → gasManagement.gasStationResponse × Option Error)
    (gs : gasManagement.gasStation) (x : gasManagement.HTTPExchange) :
    (∃ e, gasManagement.doRequest unmarshal gs x = (gs, some e) ∧
      ((gasManagement.doRequestReturningBytes x).2 = some e ∨
        ((gasManagement.doRequestReturningBytes x).2 = none ∧
          (unmarshal x.body).2 = some e))) ∨
    ((gasManagement.doRequestReturningBytes x).2 = none ∧ (unmarshal x.body).2 = none ∧
      gasManagement.doRequest unmarshal gs x =
        ({ gs with latestResponse := some (unmarshal x.body).1 }, none)) := by
  unfold gasManagement.doRequest
  cases hb : (gasManagement.doRequestReturningBytes x).2 with
  | some e =>
    left
    refine ⟨e, ?_, Or.inl rfl⟩
    rcases hb' : gasManagement.doRequestReturningBytes x with ⟨bytes, err⟩
    rw [hb'] at hb
    simp only at hb
    subst hb
    rfl
  | none =>
    rw [gasManagement.doRequestReturningBytes_ok x hb]
    rcases hu : unmarshal x.body with ⟨response, uerr⟩
    cases uerr with
    | some e => simp [hu]
    | none => simp [hu]

theorem gasManagement.doRequest_error_independent
    (unmarshal : List Nat → gasManagement.gasStationResponse × Option Error)
    (gs gs' : gasManagement.gasStation) (x : gasManagement.HTTPExchange) :
    (gasManagement.doRequest unmarshal gs x).2 = (gasManagement.doRequest unmarshal gs' x).2 := by
  unfold gasManagement.doRequest
  rcases gasManagement.doRequestReturningBytes x with ⟨bytes, err⟩
  cases err with
  | some e => rfl
  | none =>
    simp only []
    rcases unmarshal (bytes.getD []) with ⟨response, uerr⟩
    cases uerr <;> rfl

theorem gasManagement.doRequest_failed
    (unmarshal : List Nat → gasManagement.gasStationResponse × Option Error)
    (gs : gasManagement.gasStation) (x : gasManagement.HTTPExchange)
    (h : (gasManagement.doRequest unmarshal gs x).2 ≠ none) :
    (gasManagement.doRequest unmarshal gs x).1 = gs := by
  rcases gasManagement.doRequest_cases unmarshal gs x with ⟨e, he, -⟩ | ⟨-, -, hr⟩
  · rw [he]
  · rw [hr] at h; exact absurd rfl h

theorem gasManagement.processLoop_all_failed
    (unmarshal : List Nat → gasManagement.gasStationResponse × Option Error)
    (gs : gasManagement.gasStation) (polls : List gasManagement.HTTPExchange)
    (hfail : ∀ x ∈ polls, (gasManagement.doRequest unmarshal gs x).2 ≠ none) :
    gasManagement.processLoop unmarshal gs polls = gs := by
  induction polls with
  | nil => rfl
  | cons x rest ih =>
    have hx := hfail x (List.mem_cons_self x rest)
    rw [gasManagement.processLoop, gasManagement.doRequest_failed unmarshal gs x hx]
    exact ih (fun y hy => hfail y (List.mem_cons_of_mem x hy))

/-- C17: on a station that has fetched no response, after any number of polls that all fail
the station is as it was and `GetCurrentGasPrice` returns 0 with
`ErrLatestGasPricesWereNotFetched`, whatever the selector and the maximum.  A poll that fails
leaves any station, also one that has fetched a response, as it was; a poll fails when the
round trip or the decoding of the body gives an error, and otherwise stores the response
decoded. -/
theorem C17_gas_price_before_first_success
    (unmarshal : List Nat → gasManagement.gasStationResponse × Option Error)
    (gs : gasManagement.gasStation) (polls : List gasManagement.HTTPExchange)
    (hnone : gs.latestResponse = none)
    (hfail : ∀ x ∈ polls, (gasManagement.doRequest unmarshal gs x).2 ≠ none) :
    gasManagement.processLoop unmarshal gs polls = gs ∧
    gasManagement.GetCurrentGasPrice (gasManagement.processLoop unmarshal gs polls) =
      (0, some gasManagement.ErrLatestGasPricesWereNotFetched) ∧
    (∀ (g : gasManagement.gasStation) (x : gasManagement.HTTPExchange),
      (gasManagement.doRequest unmarshal g x).2 ≠ none →
      (gasManagement.doRequest unmarshal g x).1 = g) ∧
    (∀ (g : gasManagement.gasStation) (x : gasManagement.HTTPExchange),
      (gasManagement.doRequest unmarshal g x).2 = none ↔
        (gasManagement.doRequestReturningBytes x).2 = none ∧
        (unmarshal x.body).2 = none) ∧
    (∀ (g : gasManagement.gasStation) (x : gasManagement.HTTPExchange),
      (gasManagement.doRequest unmarshal g x).2 = none →
      (gasManagement.doRequest unmarshal g x).1 =
        { g with latestResponse := some (unmarshal x.body).1 }) := by
  have hloop := gasManagement.processLoop_all_failed unmarshal gs polls hfail
  refine ⟨hloop, ?_, gasManagement.doRequest_failed unmarshal, ?_, ?_⟩
  · rw [hloop]
    simp [gasManagement.GetCurrentGasPrice, hnone]
  · intro g x
    rcases gasManagement.doRequest_cases unmarshal g x with ⟨e, he, hwhy⟩ | ⟨h1, h2, hr⟩
    · rw [he]
      constructor
      · intro h; cases h
      · rintro ⟨h1, h2⟩
        rcases hwhy with h | ⟨-, h⟩
        · rw [h1] at h; cases h
        · rw [h2] at h; cases h
    · rw [hr]
      exact ⟨fun _ => ⟨h1, h2⟩, fun _ => rfl⟩
  · intro g x h
    rcases gasManagement.doRequest_cases unmarshal g x with ⟨e, he, -⟩ | ⟨-, -, hr⟩
    · rw [he] at h; cases h
    · rw [hr]

/-- C17, witness: a refused request and an undecodable body leave the fresh station without
a response, so that the price read is the error; and the same refused request after a
decoded response leaves that response in place. -/
theorem C17_gas_price_before_first_success_witness :
    gasManagement.processLoop gasManagement.decodeFour gasManagement.freshStation
        [gasManagement.HTTPExchange.refused, gasManagement.HTTPExchange.ok [1, 2]] =
      gasManagement.freshStation ∧
    gasManagement.GetCurrentGasPrice
        (gasManagement.processLoop gasManagement.decodeFour gasManagement.freshStation
          [gasManagement.HTTPExchange.refused, gasManagement.HTTPExchange.ok [1, 2]]) =
      (0, some gasManagement.ErrLatestGasPricesWereNotFetched) ∧
    (gasManagement.doRequest gasManagement.decodeFour (gasManagement.stationWithFast 50)
        gasManagement.HTTPExchange.refused).1 = gasManagement.stationWithFast 50 :=
  have h := C17_gas_price_before_first_success gasManagement.decodeFour
    gasManagement.freshStation
    [gasManagement.HTTPExchange.refused, gasManagement.HTTPExchange.ok [1, 2]] rfl (by decide)
  ⟨h.1, h.2.1, h.2.2.1 (gasManagement.stationWithFast 50) gasManagement.HTTPExchange.refused
    (by decide)⟩

/-! ## Logging and the last-error metric -/

theorem ethElrond.PrintInfo_apply (r : ethElrond.Rendering) (level : LogLevel)
    (message : String) (extras : List LogArg) (s : ethElrond.State) :
    ethElrond.PrintInfo r level message extras s =
      .ret () ⟨s.executor, s.history ++ .log level message extras ::
        (if level = .LogWarning ∨ level = .LogError then
          [.setStringMetric MetricLastError (ethElrond.setExecutionMessageInStatusHandler.loop r
            (r.levelString level ++ ": " ++ message) extras)]
        else [])⟩ := by
  cases level <;>
    simp [ethElrond.PrintInfo, ethElrond.setExecutionMessageInStatusHandler]

theorem stringMetricWrites_append (metric : String) (h1 h2 : List Event) :
    stringMetricWrites metric (h1 ++ h2) =
      stringMetricWrites metric h1 ++ stringMetricWrites metric h2 := by
  simp [stringMetricWrites, List.filterMap_append]

theorem ethElrond.waitForQuorumOnTransferStep_apply (c : Collaborators)
    (r : ethElrond.Rendering) (t : ethElrond.State) :
    elrondToEth.waitForQuorumOnTransferStep.Execute (ethElrond.asExecutor c r) t =
      if t.executor.quorumRetriesOnEthereum < t.executor.maxQuorumRetriesOnEthereum then
        match c.ethereumClient.IsQuorumReached t.history t.executor.msgHash with
        | (_, some err) =>
          .ret .GettingPendingBatchFromElrond
            ⟨{ t.executor with
                quorumRetriesOnEthereum := toUint64 (t.executor.quorumRetriesOnEthereum + 1) },
              t.history ++ [.ethereum (.IsQuorumReached t.executor.msgHash),
                .log .LogError "error while checking the quorum on Ethereum"
                  [.str "error", .err (some err)],
                .setStringMetric MetricLastError
                  (ethElrond.setExecutionMessageInStatusHandler.loop r
                    (r.levelString .LogError ++ ": " ++
                      "error while checking the quorum on Ethereum")
                    [.str "error", .err (some err)])]⟩
        | (isQuorumReached, none) =>
          .ret (if isQuorumReached then .PerformingTransfer else .WaitingForQuorumOnTransfer)
            ⟨{ t.executor with
                quorumRetriesOnEthereum := toUint64 (t.executor.quorumRetriesOnEthereum + 1) },
              t.history ++ [.ethereum (.IsQuorumReached t.executor.msgHash),
                .log .LogDebug "quorum reached check"
                  [.str "is reached", .bool isQuorumReached]]⟩
      else
        .ret .GettingPendingBatchFromElrond
          ⟨t.executor, t.history ++
            [.log .LogDebug "max number of retries reached, resetting counter" []]⟩ := by
  simp only [elrondToEth.waitForQuorumOnTransferStep.Execute, ethElrond.asExecutor,
    Prog.bind_apply, ethElrond.ProcessMaxQuorumRetriesOnEthereum_apply]
  by_cases hlt : t.executor.quorumRetriesOnEthereum < t.executor.maxQuorumRetriesOnEthereum
  · simp only [hlt, if_true, ethElrond.ProcessQuorumReachedOnEthereum, Prog.bind_apply,
      getExecutor_apply, call_apply, ethElrond.PrintInfo_apply]
    rcases hq : c.ethereumClient.IsQuorumReached t.history t.executor.msgHash with
      ⟨isQuorumReached, _ | err⟩
    · cases isQuorumReached <;>
        simp [hq, elrondToEth.waitForQuorumOnTransferStep.Identifier, ethElrond.PrintInfo_apply]
    · simp [hq, ethElrond.PrintInfo_apply]
  · simp [hlt, ethElrond.PrintInfo_apply]

/-- C18: `PrintInfo` of the `bridges/ethElrond` executor always returns, leaves the executor's
fields as they are and records the call on the logger with the level, message and extras it
was given; it records one write of the last-error metric right after it when the level is
Warning or Error, and nothing else at any other level, so that the values written to the
metric are those written before, followed by the new message exactly at those two levels.  A
visit of the wait-for-quorum step that ends because the retries are used up, or because the
quorum is not reached, logs at Debug only and writes nothing to the metric. -/
theorem C18_print_info_last_error (c : Collaborators) (r : ethElrond.Rendering) :
    (∀ (level : LogLevel) (message : String) (extras : List LogArg) (s : ethElrond.State),
      ethElrond.PrintInfo r level message extras s =
          .ret () ⟨s.executor, s.history ++ .log level message extras ::
            (if level = .LogWarning ∨ level = .LogError then
              [.setStringMetric MetricLastError
                (ethElrond.setExecutionMessageInStatusHandler.loop r
                  (r.levelString level ++ ": " ++ message) extras)]
            else [])⟩ ∧
        stringMetricWrites MetricLastError
            (ethElrond.PrintInfo r level message extras s).state.history =
          stringMetricWrites MetricLastError s.history ++
            (if level = .LogWarning ∨ level = .LogError then
              [ethElrond.setExecutionMessageInStatusHandler.loop r
                (r.levelString level ++ ": " ++ message) extras]
            else [])) ∧
    (∀ t : ethElrond.State,
      ¬ t.executor.quorumRetriesOnEthereum < t.executor.maxQuorumRetriesOnEthereum →
        elrondToEth.waitForQuorumOnTransferStep.Execute (ethElrond.asExecutor c r) t =
            .ret .GettingPendingBatchFromElrond
              ⟨t.executor, t.history ++
                [.log .LogDebug "max number of retries reached, resetting counter" []]⟩ ∧
          stringMetricWrites MetricLastError
              (elrondToEth.waitForQuorumOnTransferStep.Execute
                (ethElrond.asExecutor c r) t).state.history =
            stringMetricWrites MetricLastError t.history) ∧
    (∀ t : ethElrond.State,
      t.executor.quorumRetriesOnEthereum < t.executor.maxQuorumRetriesOnEthereum →
      c.ethereumClient.IsQuorumReached t.history t.executor.msgHash = (false, none) →
        elrondToEth.waitForQuorumOnTransferStep.Execute (ethElrond.asExecutor c r) t =
            .ret .WaitingForQuorumOnTransfer
              ⟨{ t.executor with
                  quorumRetriesOnEthereum := toUint64 (t.executor.quorumRetriesOnEthereum + 1) },
                t.history ++ [.ethereum (.IsQuorumReached t.executor.msgHash),
                  .log .LogDebug "quorum reached check" [.str "is reached", .bool false]]⟩ ∧
          stringMetricWrites MetricLastError
              (elrondToEth.waitForQuorumOnTransferStep.Execute
                (ethElrond.asExecutor c r) t).state.history =
            stringMetricWrites MetricLastError t.history) := by
  refine ⟨?_, ?_, ?_⟩
  · intro level message extras s
    refine ⟨ethElrond.PrintInfo_apply r level message extras s, ?_⟩
    rw [ethElrond.PrintInfo_apply]
    cases level <;> simp [Res.state, stringMetricWrites, List.filterMap_append]
  · intro t hlt
    rw [ethElrond.waitForQuorumOnTransferStep_apply]
    simp [hlt, Res.state, stringMetricWrites, List.filterMap_append]
  · intro t hlt hq
    rw [ethElrond.waitForQuorumOnTransferStep_apply]
    simp [hlt, hq, Res.state, stringMetricWrites, List.filterMap_append]

/-- Witness of C18: an error with one pair of extras and one extra without partner writes
the pair to the metric; a visit of the wait-for-quorum step on quiet collaborators, where the
quorum is not reached, writes nothing. -/
theorem C18_print_info_last_error_witness :
    ethElrond.PrintInfo ethElrond.Rendering.plain .LogError "boom"
        [.str "error", .str "timeout", .str "odd"] (ethElrond.stateHolding 2 none) =
      .ret () ⟨ethElrond.executorHolding 2 none,
        [.log .LogError "boom" [.str "error", .str "timeout", .str "odd"],
          .setStringMetric "MetricLastError" "ERROR: boom error = timeout"]⟩ ∧
    stringMetricWrites MetricLastError
        (elrondToEth.waitForQuorumOnTransferStep.Execute
          (ethElrond.asExecutor (Collaborators.around ElrondClient.quiet EthereumClient.quiet)
            ethElrond.Rendering.plain) (ethElrond.stateHolding 2 none)).state.history =
      [] :=
  ⟨((C18_print_info_last_error (Collaborators.around ElrondClient.quiet EthereumClient.quiet)
      ethElrond.Rendering.plain).1 .LogError "boom" [.str "error", .str "timeout", .str "odd"]
      (ethElrond.stateHolding 2 none)).1,
    ((C18_print_info_last_error (Collaborators.around ElrondClient.quiet EthereumClient.quiet)
      ethElrond.Rendering.plain).2.2 (ethElrond.stateHolding 2 none) (by decide) rfl).2⟩

/-! ## What an operation leaves as it is -/

set_option linter.unusedTactic false
set_option linter.unreachableTactic false

theorem Prog.keeps_pure {ε α β : Type} (f : ε → β) (a : α) :
    Prog.Keeps f (Pure.pure a : Prog (ExecState ε) α) := fun _ => rfl

theorem Prog.keeps_crash {ε α β : Type} (f : ε → β) :
    Prog.Keeps f (Prog.crash : Prog (ExecState ε) α) := fun _ => rfl

theorem Prog.keeps_call {ε α β : Type} (f : ε → β) (event : Event)
    (response : List Event → α) :
    Prog.Keeps f (Bridge.call event response : Prog (ExecState ε) α) := fun _ => rfl

theorem Prog.keeps_getExecutor {ε β : Type} (f : ε → β) :
    Prog.Keeps f (Bridge.getExecutor : Prog (ExecState ε) ε) := fun _ => rfl

theorem Prog.keeps_modifyExecutor {ε β : Type} (f : ε → β) (g : ε → ε)
    (h : ∀ e, f (g e) = f e) :
    Prog.Keeps f (Bridge.modifyExecutor g : Prog (ExecState ε) Unit) := fun s => h s.executor

theorem Prog.keeps_bind {ε α γ β : Type} (f : ε → β) (p : Prog (ExecState ε) α)
    (g : α → Prog (ExecState ε) γ) (hp : Prog.Keeps f p) (hg : ∀ a, Prog.Keeps f (g a)) :
    Prog.Keeps f (p >>= g) := by
  intro s
  have h1 := hp s
  rw [Prog.bind_apply]
  cases hps : p s with
  | ret a s1 =>
    rw [hps] at h1
    exact (hg a s1).trans h1
  | crash s1 =>
    rw [hps] at h1
    exact h1

theorem Prog.keeps_discard {ε α β : Type} (f : ε → β) (p : Prog (ExecState ε) α)
    (hp : Prog.Keeps f p) : Prog.Keeps f (Prog.discard p) :=
  Prog.keeps_bind f p _ hp (fun _ => Prog.keeps_pure f _)

theorem ethElrond.PrintInfo_keeps {β : Type} (f : ethElrond.bridgeExecutor → β)
    (r : ethElrond.Rendering) (level : LogLevel) (message : String) (extras : List LogArg) :
    Prog.Keeps f (ethElrond.PrintInfo r level message extras) := by
  unfold ethElrond.PrintInfo ethElrond.setExecutionMessageInStatusHandler
  repeat' (first
    | exact Prog.keeps_pure f _
    | exact Prog.keeps_call f _ _
    | exact Prog.keeps_getExecutor f
    | exact Prog.keeps_crash f
    | refine Prog.keeps_bind f _ _ ?_ (fun _ => ?_)
    | split
    | dsimp only)

theorem ethElrond.GetBatchFromElrond_keeps {β : Type} (f : ethElrond.bridgeExecutor → β)
    (c : Collaborators) : Prog.Keeps f (ethElrond.GetBatchFromElrond c) := by
  unfold ethElrond.GetBatchFromElrond
  repeat' (first
    | exact Prog.keeps_pure f _
    | exact Prog.keeps_call f _ _
    | exact Prog.keeps_getExecutor f
    | exact Prog.keeps_crash f
    | refine Prog.keeps_bind f _ _ ?_ (fun _ => ?_)
    | split
    | dsimp only)

theorem ethElrond.StoreBatchFromElrond_keeps {β : Type} (f : ethElrond.bridgeExecutor → β)
    (hbatch : ∀ e b, f { e with batch := b } = f e) (batch : Option TransferBatch) :
    Prog.Keeps f (ethElrond.StoreBatchFromElrond batch) := by
  unfold ethElrond.StoreBatchFromElrond
  repeat' (first
    | exact Prog.keeps_pure f _
    | exact Prog.keeps_call f _ _
    | exact Prog.keeps_getExecutor f
    | exact Prog.keeps_crash f
    | exact Prog.keeps_modifyExecutor f _ (fun e => hbatch e _)
    | refine Prog.keeps_bind f _ _ ?_ (fun _ => ?_)
    | split
    | dsimp only)

theorem ethElrond.MyTurnAsLeader_keeps {β : Type} (f : ethElrond.bridgeExecutor → β) (c : Collaborators) :
    Prog.Keeps f (ethElrond.MyTurnAsLeader c) := by
  unfold ethElrond.MyTurnAsLeader
  repeat' (first
    | exact Prog.keeps_pure f _
    | exact Prog.keeps_call f _ _
    | exact Prog.keeps_getExecutor f
    | exact Prog.keeps_crash f
    | refine Prog.keeps_bind f _ _ ?_ (fun _ => ?_)
    | split
    | dsimp only)

theorem ethElrond.GetStoredBatch_keeps {β : Type} (f : ethElrond.bridgeExecutor → β) :
    Prog.Keeps f (ethElrond.GetStoredBatch) := by
  unfold ethElrond.GetStoredBatch
  repeat' (first
    | exact Prog.keeps_pure f _
    | exact Prog.keeps_call f _ _
    | exact Prog.keeps_getExecutor f
    | exact Prog.keeps_crash f
    | refine Prog.keeps_bind f _ _ ?_ (fun _ => ?_)
    | split
    | dsimp only)

theorem ethElrond.GetLastExecutedEthBatchIDFromElrond_keeps {β : Type} (f : ethElrond.bridgeExecutor → β) (c : Collaborators) :
    Prog.Keeps f (ethElrond.GetLastExecutedEthBatchIDFromElrond c) := by
  unfold ethElrond.GetLastExecutedEthBatchIDFromElrond
  repeat' (first
    | exact Prog.keeps_pure f _
    | exact Prog.keeps_call f _ _
    | exact Prog.keeps_getExecutor f
    | exact Prog.keeps_crash f
    | refine Prog.keeps_bind f _ _ ?_ (fun _ => ?_)
    | split
    | dsimp only)

theorem ethElrond.verifyDepositNonces_keeps {β : Type} (f : ethElrond.bridgeExecutor → β) (lastNonce : Nat) :
    Prog.Keeps f (ethElrond.verifyDepositNonces lastNonce) := by
  unfold ethElrond.verifyDepositNonces
  repeat' (first
    | exact Prog.keeps_pure f _
    | exact Prog.keeps_call f _ _
    | exact Prog.keeps_getExecutor f
    | exact Prog.keeps_crash f
    | refine Prog.keeps_bind f _ _ ?_ (fun _ => ?_)
    | split
    | dsimp only)

theorem ethElrond.VerifyLastDepositNonceExecutedOnEthereumBatch_keeps {β : Type} (f : ethElrond.bridgeExecutor → β) (c : Collaborators) :
    Prog.Keeps f (ethElrond.VerifyLastDepositNonceExecutedOnEthereumBatch c) := by
  unfold ethElrond.VerifyLastDepositNonceExecutedOnEthereumBatch
  repeat' (first
    | exact Prog.keeps_pure f _
    | exact Prog.keeps_call f _ _
    | exact Prog.keeps_getExecutor f
    | exact Prog.keeps_crash f
    | exact ethElrond.verifyDepositNonces_keeps f _
    | refine Prog.keeps_bind f _ _ ?_ (fun _ => ?_)
    | split
    | dsimp only)

theorem ethElrond.GetAndStoreActionIDForProposeTransferOnElrond_keeps {β : Type} (f : ethElrond.bridgeExecutor → β) (hactionID : ∀ e a, f { e with actionID := a } = f e) (c : Collaborators) :
    Prog.Keeps f (ethElrond.GetAndStoreActionIDForProposeTransferOnElrond c) := by
  unfold ethElrond.GetAndStoreActionIDForProposeTransferOnElrond
  repeat' (first
    | exact Prog.keeps_pure f _
    | exact Prog.keeps_call f _ _
    | exact Prog.keeps_getExecutor f
    | exact Prog.keeps_crash f
    | exact Prog.keeps_modifyExecutor f _ (fun e => hactionID e _)
    | refine Prog.keeps_bind f _ _ ?_ (fun _ => ?_)
    | split
    | dsimp only)

theorem ethElrond.GetAndStoreActionIDForProposeSetStatusFromElrond_keeps {β : Type} (f : ethElrond.bridgeExecutor → β) (hactionID : ∀ e a, f { e with actionID := a } = f e) (c : Collaborators) :
    Prog.Keeps f (ethElrond.GetAndStoreActionIDForProposeSetStatusFromElrond c) := by
  unfold ethElrond.GetAndStoreActionIDForProposeSetStatusFromElrond
  repeat' (first
    | exact Prog.keeps_pure f _
    | exact Prog.keeps_call f _ _
    | exact Prog.keeps_getExecutor f
    | exact Prog.keeps_crash f
    | exact Prog.keeps_modifyExecutor f _ (fun e => hactionID e _)
    | refine Prog.keeps_bind f _ _ ?_ (fun _ => ?_)
    | split
    | dsimp only)

theorem ethElrond.GetStoredActionID_keeps {β : Type} (f : ethElrond.bridgeExecutor → β) :
    Prog.Keeps f (ethElrond.GetStoredActionID) := by
  unfold ethElrond.GetStoredActionID
  repeat' (first
    | exact Prog.keeps_pure f _
    | exact Prog.keeps_call f _ _
    | exact Prog.keeps_getExecutor f
    | exact Prog.keeps_crash f
    | refine Prog.keeps_bind f _ _ ?_ (fun _ => ?_)
    | split
    | dsimp only)

theorem ethElrond.WasTransferProposedOnElrond_keeps {β : Type} (f : ethElrond.bridgeExecutor → β) (c : Collaborators) :
    Prog.Keeps f (ethElrond.WasTransferProposedOnElrond c) := by
  unfold ethElrond.WasTransferProposedOnElrond
  repeat' (first
    | exact Prog.keeps_pure f _
    | exact Prog.keeps_call f _ _
    | exact Prog.keeps_getExecutor f
    | exact Prog.keeps_crash f
    | refine Prog.keeps_bind f _ _ ?_ (fun _ => ?_)
    | split
    | dsimp only)

theorem ethElrond.ProposeTransferOnElrond_keeps {β : Type} (f : ethElrond.bridgeExecutor → β) (c : Collaborators) :
    Prog.Keeps f (ethElrond.ProposeTransferOnElrond c) := by
  unfold ethElrond.ProposeTransferOnElrond
  repeat' (first
    | exact Prog.keeps_pure f _
    | exact Prog.keeps_call f _ _
    | exact Prog.keeps_getExecutor f
    | exact Prog.keeps_crash f
    | refine Prog.keeps_bind f _ _ ?_ (fun _ => ?_)
    | split
    | dsimp only)

theorem ethElrond.ProcessMaxRetriesOnWasTransferProposedOnElrond_keeps {β : Type} (f : ethElrond.bridgeExecutor → β) (hretriesOnWasProposed : ∀ e n, f { e with retriesOnWasProposed := n } = f e) :
    Prog.Keeps f (ethElrond.ProcessMaxRetriesOnWasTransferProposedOnElrond) := by
  unfold ethElrond.ProcessMaxRetriesOnWasTransferProposedOnElrond
  repeat' (first
    | exact Prog.keeps_pure f _
    | exact Prog.keeps_call f _ _
    | exact Prog.keeps_getExecutor f
    | exact Prog.keeps_crash f
    | exact Prog.keeps_modifyExecutor f _ (fun e => hretriesOnWasProposed e _)
    | refine Prog.keeps_bind f _ _ ?_ (fun _ => ?_)
    | split
    | dsimp only)

theorem ethElrond.ResetRetriesOnWasTransferProposedOnElrond_keeps {β : Type} (f : ethElrond.bridgeExecutor → β) (hretriesOnWasProposed : ∀ e n, f { e with retriesOnWasProposed := n } = f e) :
    Prog.Keeps f (ethElrond.ResetRetriesOnWasTransferProposedOnElrond) := by
  unfold ethElrond.ResetRetriesOnWasTransferProposedOnElrond
  repeat' (first
    | exact Prog.keeps_pure f _
    | exact Prog.keeps_call f _ _
    | exact Prog.keeps_getExecutor f
    | exact Prog.keeps_crash f
    | exact Prog.keeps_modifyExecutor f _ (fun e => hretriesOnWasProposed e _)
    | refine Prog.keeps_bind f _ _ ?_ (fun _ => ?_)
    | split
    | dsimp only)

theorem ethElrond.WasSetStatusProposedOnElrond_keeps {β : Type} (f : ethElrond.bridgeExecutor → β) (c : Collaborators) :
    Prog.Keeps f (ethElrond.WasSetStatusProposedOnElrond c) := by
  unfold ethElrond.WasSetStatusProposedOnElrond
  repeat' (first
    | exact Prog.keeps_pure f _
    | exact Prog.keeps_call f _ _
    | exact Prog.keeps_getExecutor f
    | exact Prog.keeps_crash f
    | refine Prog.keeps_bind f _ _ ?_ (fun _ => ?_)
    | split
    | dsimp only)

theorem ethElrond.ProposeSetStatusOnElrond_keeps {β : Type} (f : ethElrond.bridgeExecutor → β) (c : Collaborators) :
    Prog.Keeps f (ethElrond.ProposeSetStatusOnElrond c) := by
  unfold ethElrond.ProposeSetStatusOnElrond
  repeat' (first
    | exact Prog.keeps_pure f _
    | exact Prog.keeps_call f _ _
    | exact Prog.keeps_getExecutor f
    | exact Prog.keeps_crash f
    | refine Prog.keeps_bind f _ _ ?_ (fun _ => ?_)
    | split
    | dsimp only)

theorem ethElrond.WasActionSignedOnElrond_keeps {β : Type} (f : ethElrond.bridgeExecutor → β) (c : Collaborators) :
    Prog.Keeps f (ethElrond.WasActionSignedOnElrond c) := by
  unfold ethElrond.WasActionSignedOnElrond
  repeat' (first
    | exact Prog.keeps_pure f _
    | exact Prog.keeps_call f _ _
    | exact Prog.keeps_getExecutor f
    | exact Prog.keeps_crash f
    | refine Prog.keeps_bind f _ _ ?_ (fun _ => ?_)
    | split
    | dsimp only)

theorem ethElrond.SignActionOnElrond_keeps {β : Type} (f : ethElrond.bridgeExecutor → β) (c : Collaborators) :
    Prog.Keeps f (ethElrond.SignActionOnElrond c) := by
  unfold ethElrond.SignActionOnElrond
  repeat' (first
    | exact Prog.keeps_pure f _
    | exact Prog.keeps_call f _ _
    | exact Prog.keeps_getExecutor f
    | exact Prog.keeps_crash f
    | refine Prog.keeps_bind f _ _ ?_ (fun _ => ?_)
    | split
    | dsimp only)

theorem ethElrond.ProcessQuorumReachedOnElrond_keeps {β : Type} (f : ethElrond.bridgeExecutor → β) (c : Collaborators) :
    Prog.Keeps f (ethElrond.ProcessQuorumReachedOnElrond c) := by
  unfold ethElrond.ProcessQuorumReachedOnElrond
  repeat' (first
    | exact Prog.keeps_pure f _
    | exact Prog.keeps_call f _ _
    | exact Prog.keeps_getExecutor f
    | exact Prog.keeps_crash f
    | refine Prog.keeps_bind f _ _ ?_ (fun _ => ?_)
    | split
    | dsimp only)

theorem ethElrond.GetBatchStatusesFromEthereum_keeps {β : Type} (f : ethElrond.bridgeExecutor → β) (c : Collaborators) :
    Prog.Keeps f (ethElrond.GetBatchStatusesFromEthereum c) := by
  unfold ethElrond.GetBatchStatusesFromEthereum
  repeat' (first
    | exact Prog.keeps_pure f _
    | exact Prog.keeps_call f _ _
    | exact Prog.keeps_getExecutor f
    | exact Prog.keeps_crash f
    | refine Prog.keeps_bind f _ _ ?_ (fun _ => ?_)
    | split
    | dsimp only)

theorem ethElrond.WasActionPerformedOnElrond_keeps {β : Type} (f : ethElrond.bridgeExecutor → β) (c : Collaborators) :
    Prog.Keeps f (ethElrond.WasActionPerformedOnElrond c) := by
  unfold ethElrond.WasActionPerformedOnElrond
  repeat' (first
    | exact Prog.keeps_pure f _
    | exact Prog.keeps_call f _ _
    | exact Prog.keeps_getExecutor f
    | exact Prog.keeps_crash f
    | refine Prog.keeps_bind f _ _ ?_ (fun _ => ?_)
    | split
    | dsimp only)

theorem ethElrond.PerformActionOnElrond_keeps {β : Type} (f : ethElrond.bridgeExecutor → β) (c : Collaborators) :
    Prog.Keeps f (ethElrond.PerformActionOnElrond c) := by
  unfold ethElrond.PerformActionOnElrond
  repeat' (first
    | exact Prog.keeps_pure f _
    | exact Prog.keeps_call f _ _
    | exact Prog.keeps_getExecutor f
    | exact Prog.keeps_crash f
    | refine Prog.keeps_bind f _ _ ?_ (fun _ => ?_)
    | split
    | dsimp only)

theorem ethElrond.ResolveNewDepositsStatuses_keeps {β : Type} (f : ethElrond.bridgeExecutor → β) (hbatch : ∀ e b, f { e with batch := b } = f e) (c : Collaborators) (numDeposits : Nat) :
    Prog.Keeps f (ethElrond.ResolveNewDepositsStatuses c numDeposits) := by
  unfold ethElrond.ResolveNewDepositsStatuses
  repeat' (first
    | exact Prog.keeps_pure f _
    | exact Prog.keeps_call f _ _
    | exact Prog.keeps_getExecutor f
    | exact Prog.keeps_crash f
    | exact Prog.keeps_modifyExecutor f _ (fun e => hbatch e _)
    | refine Prog.keeps_bind f _ _ ?_ (fun _ => ?_)
    | split
    | dsimp only)

theorem ethElrond.ProcessMaxQuorumRetriesOnElrond_keeps {β : Type} (f : ethElrond.bridgeExecutor → β) (hquorumRetriesOnElrond : ∀ e n, f { e with quorumRetriesOnElrond := n } = f e) :
    Prog.Keeps f (ethElrond.ProcessMaxQuorumRetriesOnElrond) := by
  unfold ethElrond.ProcessMaxQuorumRetriesOnElrond
  repeat' (first
    | exact Prog.keeps_pure f _
    | exact Prog.keeps_call f _ _
    | exact Prog.keeps_getExecutor f
    | exact Prog.keeps_crash f
    | exact Prog.keeps_modifyExecutor f _ (fun e => hquorumRetriesOnElrond e _)
    | refine Prog.keeps_bind f _ _ ?_ (fun _ => ?_)
    | split
    | dsimp only)

theorem ethElrond.ResetRetriesCountOnElrond_keeps {β : Type} (f : ethElrond.bridgeExecutor → β) (hquorumRetriesOnElrond : ∀ e n, f { e with quorumRetriesOnElrond := n } = f e) :
    Prog.Keeps f (ethElrond.ResetRetriesCountOnElrond) := by
  unfold ethElrond.ResetRetriesCountOnElrond
  repeat' (first
    | exact Prog.keeps_pure f _
    | exact Prog.keeps_call f _ _
    | exact Prog.keeps_getExecutor f
    | exact Prog.keeps_crash f
    | exact Prog.keeps_modifyExecutor f _ (fun e => hquorumRetriesOnElrond e _)
    | refine Prog.keeps_bind f _ _ ?_ (fun _ => ?_)
    | split
    | dsimp only)

theorem ethElrond.GetAndStoreBatchFromEthereum_keeps {β : Type} (f : ethElrond.bridgeExecutor → β) (hbatch : ∀ e b, f { e with batch := b } = f e) (c : Collaborators) (nonce : Nat) :
    Prog.Keeps f (ethElrond.GetAndStoreBatchFromEthereum c nonce) := by
  unfold ethElrond.GetAndStoreBatchFromEthereum
  repeat' (first
    | exact Prog.keeps_pure f _
    | exact Prog.keeps_call f _ _
    | exact Prog.keeps_getExecutor f
    | exact Prog.keeps_crash f
    | exact Prog.keeps_modifyExecutor f _ (fun e => hbatch e _)
    | refine Prog.keeps_bind f _ _ ?_ (fun _ => ?_)
    | split
    | dsimp only)

theorem ethElrond.WasTransferPerformedOnEthereum_keeps {β : Type} (f : ethElrond.bridgeExecutor → β) (c : Collaborators) :
    Prog.Keeps f (ethElrond.WasTransferPerformedOnEthereum c) := by
  unfold ethElrond.WasTransferPerformedOnEthereum
  repeat' (first
    | exact Prog.keeps_pure f _
    | exact Prog.keeps_call f _ _
    | exact Prog.keeps_getExecutor f
    | exact Prog.keeps_crash f
    | refine Prog.keeps_bind f _ _ ?_ (fun _ => ?_)
    | split
    | dsimp only)

theorem ethElrond.SignTransferOnEthereum_keeps {β : Type} (f : ethElrond.bridgeExecutor → β) (hmsgHash : ∀ e h, f { e with msgHash := h } = f e) (c : Collaborators) :
    Prog.Keeps f (ethElrond.SignTransferOnEthereum c) := by
  unfold ethElrond.SignTransferOnEthereum
  repeat' (first
    | exact Prog.keeps_pure f _
    | exact Prog.keeps_call f _ _
    | exact Prog.keeps_getExecutor f
    | exact Prog.keeps_crash f
    | exact Prog.keeps_modifyExecutor f _ (fun e => hmsgHash e _)
    | refine Prog.keeps_bind f _ _ ?_ (fun _ => ?_)
    | split
    | dsimp only)

theorem ethElrond.PerformTransferOnEthereum_keeps {β : Type} (f : ethElrond.bridgeExecutor → β) (c : Collaborators) :
    Prog.Keeps f (ethElrond.PerformTransferOnEthereum c) := by
  unfold ethElrond.PerformTransferOnEthereum
  repeat' (first
    | exact Prog.keeps_pure f _
    | exact Prog.keeps_call f _ _
    | exact Prog.keeps_getExecutor f
    | exact Prog.keeps_crash f
    | refine Prog.keeps_bind f _ _ ?_ (fun _ => ?_)
    | split
    | dsimp only)

theorem ethElrond.ProcessQuorumReachedOnEthereum_keeps {β : Type} (f : ethElrond.bridgeExecutor → β) (c : Collaborators) :
    Prog.Keeps f (ethElrond.ProcessQuorumReachedOnEthereum c) := by
  unfold ethElrond.ProcessQuorumReachedOnEthereum
  repeat' (first
    | exact Prog.keeps_pure f _
    | exact Prog.keeps_call f _ _
    | exact Prog.keeps_getExecutor f
    | exact Prog.keeps_crash f
    | refine Prog.keeps_bind f _ _ ?_ (fun _ => ?_)
    | split
    | dsimp only)

theorem ethElrond.ProcessMaxQuorumRetriesOnEthereum_keeps {β : Type} (f : ethElrond.bridgeExecutor → β) (hquorumRetriesOnEthereum : ∀ e n, f { e with quorumRetriesOnEthereum := n } = f e) :
    Prog.Keeps f (ethElrond.ProcessMaxQuorumRetriesOnEthereum) := by
  unfold ethElrond.ProcessMaxQuorumRetriesOnEthereum
  repeat' (first
    | exact Prog.keeps_pure f _
    | exact Prog.keeps_call f _ _
    | exact Prog.keeps_getExecutor f
    | exact Prog.keeps_crash f
    | exact Prog.keeps_modifyExecutor f _ (fun e => hquorumRetriesOnEthereum e _)
    | refine Prog.keeps_bind f _ _ ?_ (fun _ => ?_)
    | split
    | dsimp only)

theorem ethElrond.ResetRetriesCountOnEthereum_keeps {β : Type} (f : ethElrond.bridgeExecutor → β) (hquorumRetriesOnEthereum : ∀ e n, f { e with quorumRetriesOnEthereum := n } = f e) :
    Prog.Keeps f (ethElrond.ResetRetriesCountOnEthereum) := by
  unfold ethElrond.ResetRetriesCountOnEthereum
  repeat' (first
    | exact Prog.keeps_pure f _
    | exact Prog.keeps_call f _ _
    | exact Prog.keeps_getExecutor f
    | exact Prog.keeps_crash f
    | exact Prog.keeps_modifyExecutor f _ (fun e => hquorumRetriesOnEthereum e _)
    | refine Prog.keeps_bind f _ _ ?_ (fun _ => ?_)
    | split
    | dsimp only)

theorem ethElrond.ClearStoredP2PSignaturesForEthereum_keeps {β : Type} (f : ethElrond.bridgeExecutor → β) :
    Prog.Keeps f (ethElrond.ClearStoredP2PSignaturesForEthereum) := by
  unfold ethElrond.ClearStoredP2PSignaturesForEthereum
  repeat' (first
    | exact Prog.keeps_pure f _
    | exact Prog.keeps_call f _ _
    | exact Prog.keeps_getExecutor f
    | exact Prog.keeps_crash f
    | refine Prog.keeps_bind f _ _ ?_ (fun _ => ?_)
    | split
    | dsimp only)

theorem ethElrond.ValidateBatch_keeps {β : Type} (f : ethElrond.bridgeExecutor → β) (c : Collaborators) (batch : Option TransferBatch) :
    Prog.Keeps f (ethElrond.ValidateBatch c batch) := by
  unfold ethElrond.ValidateBatch
  repeat' (first
    | exact Prog.keeps_pure f _
    | exact Prog.keeps_call f _ _
    | exact Prog.keeps_getExecutor f
    | exact Prog.keeps_crash f
    | refine Prog.keeps_bind f _ _ ?_ (fun _ => ?_)
    | split
    | dsimp only)

theorem ethElrond.CheckElrondClientAvailability_keeps {β : Type} (f : ethElrond.bridgeExecutor → β) (c : Collaborators) :
    Prog.Keeps f (ethElrond.CheckElrondClientAvailability c) := by
  unfold ethElrond.CheckElrondClientAvailability
  repeat' (first
    | exact Prog.keeps_pure f _
    | exact Prog.keeps_call f _ _
    | exact Prog.keeps_getExecutor f
    | exact Prog.keeps_crash f
    | refine Prog.keeps_bind f _ _ ?_ (fun _ => ?_)
    | split
    | dsimp only)

theorem ethElrond.CheckEthereumClientAvailability_keeps {β : Type} (f : ethElrond.bridgeExecutor → β) (c : Collaborators) :
    Prog.Keeps f (ethElrond.CheckEthereumClientAvailability c) := by
  unfold ethElrond.CheckEthereumClientAvailability
  repeat' (first
    | exact Prog.keeps_pure f _
    | exact Prog.keeps_call f _ _
    | exact Prog.keeps_getExecutor f
    | exact Prog.keeps_crash f
    | refine Prog.keeps_bind f _ _ ?_ (fun _ => ?_)
    | split
    | dsimp only)

theorem ethElrond.waitWithContextSucceeded_keeps {β : Type} (f : ethElrond.bridgeExecutor → β) (c : Collaborators) :
    Prog.Keeps f (ethElrond.waitWithContextSucceeded c) := by
  unfold ethElrond.waitWithContextSucceeded
  repeat' (first
    | exact Prog.keeps_pure f _
    | exact Prog.keeps_call f _ _
    | exact Prog.keeps_getExecutor f
    | exact Prog.keeps_crash f
    | refine Prog.keeps_bind f _ _ ?_ (fun _ => ?_)
    | split
    | dsimp only)

theorem ethElrond.WaitForTransferConfirmation_iteration_keeps {β : Type} (f : ethElrond.bridgeExecutor → β) (c : Collaborators) :
    Prog.Keeps f (ethElrond.WaitForTransferConfirmation.iteration c) := by
  unfold ethElrond.WaitForTransferConfirmation.iteration
  repeat' (first
    | exact Prog.keeps_pure f _
    | exact Prog.keeps_call f _ _
    | exact Prog.keeps_getExecutor f
    | exact Prog.keeps_crash f
    | exact ethElrond.waitWithContextSucceeded_keeps f _
    | exact ethElrond.WasTransferPerformedOnEthereum_keeps f _
    | refine Prog.keeps_bind f _ _ ?_ (fun _ => ?_)
    | split
    | dsimp only)

theorem ethElrond.WaitAndReturnFinalBatchStatuses_iteration_keeps {β : Type} (f : ethElrond.bridgeExecutor → β) (c : Collaborators) :
    Prog.Keeps f (ethElrond.WaitAndReturnFinalBatchStatuses.iteration c) := by
  unfold ethElrond.WaitAndReturnFinalBatchStatuses.iteration
  repeat' (first
    | exact Prog.keeps_pure f _
    | exact Prog.keeps_call f _ _
    | exact Prog.keeps_getExecutor f
    | exact Prog.keeps_crash f
    | exact ethElrond.waitWithContextSucceeded_keeps f _
    | exact ethElrond.GetBatchStatusesFromEthereum_keeps f _
    | refine Prog.keeps_bind f _ _ ?_ (fun _ => ?_)
    | split
    | dsimp only)

theorem ethElrond.WaitForTransferConfirmation_loop_keeps {β : Type}
    (f : ethElrond.bridgeExecutor → β) (c : Collaborators) (n : Nat) :
    ∀ wasPerformed : Bool,
      Prog.Keeps f (ethElrond.WaitForTransferConfirmation.loop c n wasPerformed) := by
  induction n with
  | zero => exact fun _ => Prog.keeps_pure f _
  | succ n ih =>
    intro wasPerformed
    unfold ethElrond.WaitForTransferConfirmation.loop
    split
    · exact Prog.keeps_pure f _
    · exact Prog.keeps_bind f _ _ (ethElrond.WaitForTransferConfirmation_iteration_keeps f c) ih

theorem ethElrond.WaitForTransferConfirmation_keeps {β : Type}
    (f : ethElrond.bridgeExecutor → β) (c : Collaborators) :
    Prog.Keeps f (ethElrond.WaitForTransferConfirmation c) :=
  ethElrond.WaitForTransferConfirmation_loop_keeps f c ethElrond.splits false

theorem ethElrond.WaitAndReturnFinalBatchStatuses_loop_keeps {β : Type}
    (f : ethElrond.bridgeExecutor → β) (c : Collaborators) (n : Nat) :
    Prog.Keeps f (ethElrond.WaitAndReturnFinalBatchStatuses.loop c n) := by
  induction n with
  | zero => exact Prog.keeps_pure f _
  | succ n ih =>
    unfold ethElrond.WaitAndReturnFinalBatchStatuses.loop
    refine Prog.keeps_bind f _ _ (ethElrond.WaitAndReturnFinalBatchStatuses_iteration_keeps f c)
      (fun result => ?_)
    split
    · exact Prog.keeps_pure f _
    · exact ih

theorem ethElrond.WaitAndReturnFinalBatchStatuses_keeps {β : Type}
    (f : ethElrond.bridgeExecutor → β) (c : Collaborators) :
    Prog.Keeps f (ethElrond.WaitAndReturnFinalBatchStatuses c) :=
  ethElrond.WaitAndReturnFinalBatchStatuses_loop_keeps f c ethElrond.splits

/-- An operation other than `SignTransferOnEthereum` keeps every observation of the fields
that does not depend on the stored batch, the action id and the three counters. -/
theorem ethElrond.Operation.run_keeps {β : Type} (f : ethElrond.bridgeExecutor → β)
    (hbatch : ∀ e b, f { e with batch := b } = f e)
    (hactionID : ∀ e a, f { e with actionID := a } = f e)
    (hquorumRetriesOnEthereum : ∀ e n, f { e with quorumRetriesOnEthereum := n } = f e)
    (hquorumRetriesOnElrond : ∀ e n, f { e with quorumRetriesOnElrond := n } = f e)
    (hretriesOnWasProposed : ∀ e n, f { e with retriesOnWasProposed := n } = f e)
    (c : Collaborators) (r : ethElrond.Rendering) (op : ethElrond.Operation)
    (hop : op ≠ .SignTransferOnEthereum) : Prog.Keeps f (op.run c r) := by
  cases op with
  | PrintInfo level message extras =>
    exact ethElrond.PrintInfo_keeps f r level message extras
  | MyTurnAsLeader =>
    exact Prog.keeps_discard f _ (ethElrond.MyTurnAsLeader_keeps f c)
  | GetBatchFromElrond =>
    exact Prog.keeps_discard f _ (ethElrond.GetBatchFromElrond_keeps f c)
  | StoreBatchFromElrond batch =>
    exact Prog.keeps_discard f _ (ethElrond.StoreBatchFromElrond_keeps f hbatch batch)
  | GetStoredBatch =>
    exact Prog.keeps_discard f _ (ethElrond.GetStoredBatch_keeps f)
  | GetLastExecutedEthBatchIDFromElrond =>
    exact Prog.keeps_discard f _ (ethElrond.GetLastExecutedEthBatchIDFromElrond_keeps f c)
  | VerifyLastDepositNonceExecutedOnEthereumBatch =>
    exact Prog.keeps_discard f _ (ethElrond.VerifyLastDepositNonceExecutedOnEthereumBatch_keeps f c)
  | GetAndStoreActionIDForProposeTransferOnElrond =>
    exact Prog.keeps_discard f _ (ethElrond.GetAndStoreActionIDForProposeTransferOnElrond_keeps f hactionID c)
  | GetAndStoreActionIDForProposeSetStatusFromElrond =>
    exact Prog.keeps_discard f _ (ethElrond.GetAndStoreActionIDForProposeSetStatusFromElrond_keeps f hactionID c)
  | GetStoredActionID =>
    exact Prog.keeps_discard f _ (ethElrond.GetStoredActionID_keeps f)
  | WasTransferProposedOnElrond =>
    exact Prog.keeps_discard f _ (ethElrond.WasTransferProposedOnElrond_keeps f c)
  | ProposeTransferOnElrond =>
    exact Prog.keeps_discard f _ (ethElrond.ProposeTransferOnElrond_keeps f c)
  | ProcessMaxRetriesOnWasTransferProposedOnElrond =>
    exact Prog.keeps_discard f _ (ethElrond.ProcessMaxRetriesOnWasTransferProposedOnElrond_keeps f hretriesOnWasProposed)
  | ResetRetriesOnWasTransferProposedOnElrond =>
    exact ethElrond.ResetRetriesOnWasTransferProposedOnElrond_keeps f hretriesOnWasProposed
  | WasSetStatusProposedOnElrond =>
    exact Prog.keeps_discard f _ (ethElrond.WasSetStatusProposedOnElrond_keeps f c)
  | ProposeSetStatusOnElrond =>
    exact Prog.keeps_discard f _ (ethElrond.ProposeSetStatusOnElrond_keeps f c)
  | WasActionSignedOnElrond =>
    exact Prog.keeps_discard f _ (ethElrond.WasActionSignedOnElrond_keeps f c)
  | SignActionOnElrond =>
    exact Prog.keeps_discard f _ (ethElrond.SignActionOnElrond_keeps f c)
  | ProcessQuorumReachedOnElrond =>
    exact Prog.keeps_discard f _ (ethElrond.ProcessQuorumReachedOnElrond_keeps f c)
  | WaitForTransferConfirmation =>
    exact ethElrond.WaitForTransferConfirmation_keeps f c
  | WaitAndReturnFinalBatchStatuses =>
    exact Prog.keeps_discard f _ (ethElrond.WaitAndReturnFinalBatchStatuses_keeps f c)
  | GetBatchStatusesFromEthereum =>
    exact Prog.keeps_discard f _ (ethElrond.GetBatchStatusesFromEthereum_keeps f c)
  | WasActionPerformedOnElrond =>
    exact Prog.keeps_discard f _ (ethElrond.WasActionPerformedOnElrond_keeps f c)
  | PerformActionOnElrond =>
    exact Prog.keeps_discard f _ (ethElrond.PerformActionOnElrond_keeps f c)
  | ResolveNewDepositsStatuses numDeposits =>
    exact ethElrond.ResolveNewDepositsStatuses_keeps f hbatch c numDeposits
  | ProcessMaxQuorumRetriesOnElrond =>
    exact Prog.keeps_discard f _ (ethElrond.ProcessMaxQuorumRetriesOnElrond_keeps f hquorumRetriesOnElrond)
  | ResetRetriesCountOnElrond =>
    exact ethElrond.ResetRetriesCountOnElrond_keeps f hquorumRetriesOnElrond
  | GetAndStoreBatchFromEthereum nonce =>
    exact Prog.keeps_discard f _ (ethElrond.GetAndStoreBatchFromEthereum_keeps f hbatch c nonce)
  | WasTransferPerformedOnEthereum =>
    exact Prog.keeps_discard f _ (ethElrond.WasTransferPerformedOnEthereum_keeps f c)
  | SignTransferOnEthereum => exact absurd rfl hop
  | PerformTransferOnEthereum =>
    exact Prog.keeps_discard f _ (ethElrond.PerformTransferOnEthereum_keeps f c)
  | ProcessQuorumReachedOnEthereum =>
    exact Prog.keeps_discard f _ (ethElrond.ProcessQuorumReachedOnEthereum_keeps f c)
  | ProcessMaxQuorumRetriesOnEthereum =>
    exact Prog.keeps_discard f _ (ethElrond.ProcessMaxQuorumRetriesOnEthereum_keeps f hquorumRetriesOnEthereum)
  | ResetRetriesCountOnEthereum =>
    exact ethElrond.ResetRetriesCountOnEthereum_keeps f hquorumRetriesOnEthereum
  | ClearStoredP2PSignaturesForEthereum =>
    exact ethElrond.ClearStoredP2PSignaturesForEthereum_keeps f
  | ValidateBatch batch =>
    exact Prog.keeps_discard f _ (ethElrond.ValidateBatch_keeps f c batch)
  | CheckElrondClientAvailability =>
    exact Prog.keeps_discard f _ (ethElrond.CheckElrondClientAvailability_keeps f c)
  | CheckEthereumClientAvailability =>
    exact Prog.keeps_discard f _ (ethElrond.CheckEthereumClientAvailability_keeps f c)

theorem ethElrond.Operation.runAll_keeps {β : Type} (f : ethElrond.bridgeExecutor → β)
    (hbatch : ∀ e b, f { e with batch := b } = f e)
    (hactionID : ∀ e a, f { e with actionID := a } = f e)
    (hquorumRetriesOnEthereum : ∀ e n, f { e with quorumRetriesOnEthereum := n } = f e)
    (hquorumRetriesOnElrond : ∀ e n, f { e with quorumRetriesOnElrond := n } = f e)
    (hretriesOnWasProposed : ∀ e n, f { e with retriesOnWasProposed := n } = f e)
    (c : Collaborators) (r : ethElrond.Rendering) (ops : List ethElrond.Operation)
    (hops : ethElrond.Operation.SignTransferOnEthereum ∉ ops) :
    Prog.Keeps f (ethElrond.Operation.runAll c r ops) := by
  induction ops with
  | nil => exact Prog.keeps_pure f _
  | cons op rest ih =>
    unfold ethElrond.Operation.runAll
    refine Prog.keeps_bind f _ _
      (ethElrond.Operation.run_keeps f hbatch hactionID hquorumRetriesOnEthereum
        hquorumRetriesOnElrond hretriesOnWasProposed c r op ?_) (fun _ => ih ?_)
    · intro h
      exact hops (h ▸ List.mem_cons_self _ _)
    · intro h
      exact hops (List.mem_cons_of_mem _ h)

/-! ## The message hash -/

theorem ethElrond.SignTransferOnEthereum_apply (c : Collaborators) (s : ethElrond.State) :
    ethElrond.SignTransferOnEthereum c s =
      match s.executor.batch with
      | none => .ret (some ethElrond.ErrNilBatch) s
      | some batch =>
        match c.ethereumClient.GenerateMessageHash s.history batch with
        | (hash, none) =>
          .ret none ⟨{ s.executor with msgHash := hash },
            s.history ++ [.ethereum (.GenerateMessageHash batch),
              .log .LogInfo "generated message hash on Ethereum"
                [.str "hash", .num hash, .str "batch ID", .num batch.ID],
              .ethereum (.BroadcastSignatureForMessageHash hash)]⟩
        | (_, some err) =>
          .ret (some err) ⟨s.executor, s.history ++ [.ethereum (.GenerateMessageHash batch)]⟩ := by
  simp only [ethElrond.SignTransferOnEthereum, Prog.bind_apply, getExecutor_apply]
  cases hb : s.executor.batch with
  | none => rfl
  | some batch =>
    rcases hg : c.ethereumClient.GenerateMessageHash s.history batch with ⟨hash, _ | err⟩ <;>
      simp [hg, hb]

theorem ethElrond.ProcessQuorumReachedOnEthereum_apply (c : Collaborators)
    (s : ethElrond.State) :
    ethElrond.ProcessQuorumReachedOnEthereum c s =
      .ret (c.ethereumClient.IsQuorumReached s.history s.executor.msgHash)
        ⟨s.executor, s.history ++ [.ethereum (.IsQuorumReached s.executor.msgHash)]⟩ := rfl

/-- The calls that `PerformTransferOnEthereum` records: the transfer is executed with the
stored message hash, and it is executed once the quorum size was read. -/
theorem ethElrond.PerformTransferOnEthereum_calls (c : Collaborators) (t : ethElrond.State) :
    ∃ calls : List Event,
      (ethElrond.PerformTransferOnEthereum c t).state = ⟨t.executor, t.history ++ calls⟩ ∧
      (∀ m b q, Event.ethereum (.ExecuteTransfer m b q) ∈ calls → m = t.executor.msgHash) ∧
      (∀ b q, t.executor.batch = some b →
        c.ethereumClient.GetQuorumSize t.history = (some q, none) →
        Event.ethereum (.ExecuteTransfer t.executor.msgHash b (ethElrond.bigIntInt64 q)) ∈
          calls) := by
  cases hb : t.executor.batch with
  | none =>
    refine ⟨[], ?_, ?_, ?_⟩
    · simp [ethElrond.PerformTransferOnEthereum, hb, Res.state]
    · simp
    · simp
  | some batch =>
    rcases hq : c.ethereumClient.GetQuorumSize t.history with ⟨quorumSize, _ | err⟩
    · cases quorumSize with
      | none =>
        refine ⟨[.ethereum .GetQuorumSize], ?_, ?_, ?_⟩
        · simp [ethElrond.PerformTransferOnEthereum, hb, hq, Res.state]
        · simp
        · simp
      | some q =>
        rcases he : c.ethereumClient.ExecuteTransfer
            (t.history ++ [.ethereum .GetQuorumSize,
              .log .LogDebug "fetched quorum size" [.str "quorum", .num (ethElrond.bigIntInt64 q)]])
            t.executor.msgHash batch (ethElrond.bigIntInt64 q) with ⟨hash, _ | err⟩
        · refine ⟨[.ethereum .GetQuorumSize,
            .log .LogDebug "fetched quorum size" [.str "quorum", .num (ethElrond.bigIntInt64 q)],
            .ethereum (.ExecuteTransfer t.executor.msgHash batch (ethElrond.bigIntInt64 q)),
            .log .LogInfo "sent execute transfer"
              [.str "hash", .str hash, .str "batch ID", .num batch.ID]], ?_, ?_, ?_⟩
          · simp [ethElrond.PerformTransferOnEthereum, hb, hq, he, Res.state]
          · simp
            intro m b q hm _ _
            exact hm
          · simp
        · refine ⟨[.ethereum .GetQuorumSize,
            .log .LogDebug "fetched quorum size" [.str "quorum", .num (ethElrond.bigIntInt64 q)],
            .ethereum (.ExecuteTransfer t.executor.msgHash batch (ethElrond.bigIntInt64 q))],
            ?_, ?_, ?_⟩
          · simp [ethElrond.PerformTransferOnEthereum, hb, hq, he, Res.state]
          · simp
            intro m b q hm _ _
            exact hm
          · simp
    · refine ⟨[.ethereum .GetQuorumSize], ?_, ?_, ?_⟩
      · simp [ethElrond.PerformTransferOnEthereum, hb, hq, Res.state]
      · simp
      · simp

/-- C19: on an executor that holds the batch `b`: when `GenerateMessageHash` of `b` answers the
hash `h` without error, `SignTransferOnEthereum` returns nil, stores `h` and records the hash
request, one log line and the broadcast of `h`, nothing else; after any operations that
follow, `SignTransferOnEthereum` not among them, the stored hash is still `h`,
`ProcessQuorumReachedOnEthereum` asks the client about `h` and returns its answer, and
`PerformTransferOnEthereum` executes no transfer with another hash and executes the one with
`h` once the quorum size was read.  When `GenerateMessageHash` answers an error,
`SignTransferOnEthereum` returns it, records the hash request only (no broadcast) and leaves
the fields, the stored hash among them, as they were.  In any state, a
`SignTransferOnEthereum` that returns an error leaves the fields as they were. -/
theorem C19_message_hash (c : Collaborators) (r : ethElrond.Rendering) (s : ethElrond.State)
    (b : TransferBatch) (hb : s.executor.batch = some b) :
    (∀ h : Hash, c.ethereumClient.GenerateMessageHash s.history b = (h, none) →
      ethElrond.SignTransferOnEthereum c s =
          .ret none ⟨{ s.executor with msgHash := h },
            s.history ++ [.ethereum (.GenerateMessageHash b),
              .log .LogInfo "generated message hash on Ethereum"
                [.str "hash", .num h, .str "batch ID", .num b.ID],
              .ethereum (.BroadcastSignatureForMessageHash h)]⟩ ∧
        ∀ ops : List ethElrond.Operation, ethElrond.Operation.SignTransferOnEthereum ∉ ops →
          ∀ t : ethElrond.State,
            t = (ethElrond.Operation.runAll c r ops
              (ethElrond.SignTransferOnEthereum c s).state).state →
            t.executor.msgHash = h ∧
            ethElrond.ProcessQuorumReachedOnEthereum c t =
              .ret (c.ethereumClient.IsQuorumReached t.history h)
                ⟨t.executor, t.history ++ [.ethereum (.IsQuorumReached h)]⟩ ∧
            ∃ calls : List Event,
              (ethElrond.PerformTransferOnEthereum c t).state =
                ⟨t.executor, t.history ++ calls⟩ ∧
              (∀ m b2 q, Event.ethereum (.ExecuteTransfer m b2 q) ∈ calls → m = h) ∧
              (∀ b2 q, t.executor.batch = some b2 →
                c.ethereumClient.GetQuorumSize t.history = (some q, none) →
                Event.ethereum (.ExecuteTransfer h b2 (ethElrond.bigIntInt64 q)) ∈ calls)) ∧
    (∀ (h : Hash) (err : Error),
      c.ethereumClient.GenerateMessageHash s.history b = (h, some err) →
        ethElrond.SignTransferOnEthereum c s =
          .ret (some err) ⟨s.executor, s.history ++ [.ethereum (.GenerateMessageHash b)]⟩) ∧
    (∀ (t t2 : ethElrond.State) (err : Error),
      ethElrond.SignTransferOnEthereum c t = .ret (some err) t2 →
        t2.executor = t.executor ∧
        ∀ h : Hash, Event.ethereum (.BroadcastSignatureForMessageHash h) ∈ t2.history →
          Event.ethereum (.BroadcastSignatureForMessageHash h) ∈ t.history) := by
  refine ⟨?_, ?_, ?_⟩
  · intro h hg
    have hsign : ethElrond.SignTransferOnEthereum c s =
        .ret none ⟨{ s.executor with msgHash := h },
          s.history ++ [.ethereum (.GenerateMessageHash b),
            .log .LogInfo "generated message hash on Ethereum"
              [.str "hash", .num h, .str "batch ID", .num b.ID],
            .ethereum (.BroadcastSignatureForMessageHash h)]⟩ := by
      rw [ethElrond.SignTransferOnEthereum_apply]
      simp [hb, hg]
    refine ⟨hsign, ?_⟩
    intro ops hops t ht
    have hkeep := ethElrond.Operation.runAll_keeps (fun e => e.msgHash)
      (fun _ _ => rfl) (fun _ _ => rfl) (fun _ _ => rfl) (fun _ _ => rfl) (fun _ _ => rfl)
      c r ops hops (ethElrond.SignTransferOnEthereum c s).state
    have hmsg : t.executor.msgHash = h := by
      rw [ht]
      refine hkeep.trans ?_
      rw [hsign]
      rfl
    refine ⟨hmsg, ?_, ?_⟩
    · rw [ethElrond.ProcessQuorumReachedOnEthereum_apply, hmsg]
    · obtain ⟨calls, h1, h2, h3⟩ := ethElrond.PerformTransferOnEthereum_calls c t
      rw [hmsg] at h2 h3
      exact ⟨calls, h1, h2, h3⟩
  · intro h err hg
    rw [ethElrond.SignTransferOnEthereum_apply]
    simp [hb, hg]
  · intro t t2 err hrun
    rw [ethElrond.SignTransferOnEthereum_apply] at hrun
    cases hbt : t.executor.batch with
    | none =>
      simp [hbt] at hrun
      obtain ⟨_, rfl⟩ := hrun
      exact ⟨rfl, fun _ hmem => hmem⟩
    | some batch =>
      rcases hg : c.ethereumClient.GenerateMessageHash t.history batch with ⟨hash, _ | e⟩
      · simp [hbt, hg] at hrun
      · simp [hbt, hg] at hrun
        obtain ⟨_, rfl⟩ := hrun
        refine ⟨rfl, ?_⟩
        intro h hmem
        simpa using hmem

/-- Witness of C19: the executor holds batch 1; the client answers hash 77.  After the
signature, a retry count and a transfer, the stored hash is 77, and the transfer was executed
with hash 77. -/
theorem C19_message_hash_witness :
    ethElrond.SignTransferOnEthereum
        (Collaborators.around ElrondClient.quiet (EthereumClient.hashing 77 none))
        (ethElrond.stateHolding 2 (some (batchWithNonces 1 [1, 2]))) =
      .ret none ⟨{ ethElrond.executorHolding 2 (some (batchWithNonces 1 [1, 2])) with
          msgHash := 77 },
        [.ethereum (.GenerateMessageHash (batchWithNonces 1 [1, 2])),
          .log .LogInfo "generated message hash on Ethereum"
            [.str "hash", .num 77, .str "batch ID", .num 1],
          .ethereum (.BroadcastSignatureForMessageHash 77)]⟩ ∧
    (ethElrond.Operation.runAll
        (Collaborators.around ElrondClient.quiet (EthereumClient.hashing 77 none))
        ethElrond.Rendering.plain
        [.ProcessMaxQuorumRetriesOnEthereum, .PerformTransferOnEthereum]
        (ethElrond.SignTransferOnEthereum
          (Collaborators.around ElrondClient.quiet (EthereumClient.hashing 77 none))
          (ethElrond.stateHolding 2
            (some (batchWithNonces 1 [1, 2])))).state).state.executor.msgHash = 77 ∧
    ethElrond.SignTransferOnEthereum
        (Collaborators.around ElrondClient.quiet (EthereumClient.hashing 5 (some (.external 1))))
        (ethElrond.stateHolding 2 (some (batchWithNonces 1 [1, 2]))) =
      .ret (some (.external 1)) ⟨ethElrond.executorHolding 2 (some (batchWithNonces 1 [1, 2])),
        [.ethereum (.GenerateMessageHash (batchWithNonces 1 [1, 2]))]⟩ :=
  ⟨((C19_message_hash
      (Collaborators.around ElrondClient.quiet (EthereumClient.hashing 77 none))
      ethElrond.Rendering.plain (ethElrond.stateHolding 2 (some (batchWithNonces 1 [1, 2])))
      (batchWithNonces 1 [1, 2]) rfl).1 77 rfl).1,
    (((C19_message_hash
      (Collaborators.around ElrondClient.quiet (EthereumClient.hashing 77 none))
      ethElrond.Rendering.plain (ethElrond.stateHolding 2 (some (batchWithNonces 1 [1, 2])))
      (batchWithNonces 1 [1, 2]) rfl).1 77 rfl).2
        [.ProcessMaxQuorumRetriesOnEthereum, .PerformTransferOnEthereum] (by simp) _ rfl).1,
    (C19_message_hash
      (Collaborators.around ElrondClient.quiet (EthereumClient.hashing 5 (some (.external 1))))
      ethElrond.Rendering.plain (ethElrond.stateHolding 2 (some (batchWithNonces 1 [1, 2])))
      (batchWithNonces 1 [1, 2]) rfl).2.1 5 (.external 1) rfl⟩

/-! ## Quorum never reached on Ethereum -/

theorem Prog.keeps_bind_right {ε α γ β : Type} (f : ε → β) (p : Prog (ExecState ε) α)
    (g : α → Prog (ExecState ε) γ) (hg : ∀ a, Prog.Keeps f (g a)) (s : ExecState ε) :
    f ((p >>= g) s).state.executor = f (p s).state.executor := by
  rw [Prog.bind_apply]
  cases hps : p s with
  | ret a s1 => exact hg a s1
  | crash s1 => rfl

theorem Prog.returns_pure {σ α : Type} (a : α) : Prog.Returns (Pure.pure a : Prog σ α) :=
  fun s => ⟨a, s, rfl⟩

theorem Prog.returns_bind {σ α β : Type} (p : Prog σ α) (g : α → Prog σ β)
    (hp : Prog.Returns p) (hg : ∀ a, Prog.Returns (g a)) : Prog.Returns (p >>= g) := by
  intro s
  obtain ⟨a, s1, h1⟩ := hp s
  obtain ⟨b, s2, h2⟩ := hg a s1
  exact ⟨b, s2, by rw [Prog.bind_apply, h1]; exact h2⟩

theorem Prog.bind_returns_at {σ α β : Type} (p : Prog σ α) (g : α → Prog σ β) (s s1 : σ)
    (a : α) (hp : p s = .ret a s1) (hg : ∃ b s2, g a s1 = .ret b s2) :
    ∃ b s2, (p >>= g) s = .ret b s2 := by
  obtain ⟨b, s2, h2⟩ := hg
  exact ⟨b, s2, by rw [Prog.bind_apply, hp]; exact h2⟩

theorem ethElrond.PrintInfo_returns (r : ethElrond.Rendering) (level : LogLevel)
    (message : String) (extras : List LogArg) :
    Prog.Returns (ethElrond.PrintInfo r level message extras) :=
  fun s => ⟨(), _, ethElrond.PrintInfo_apply r level message extras s⟩

theorem ethElrond.StoreBatchFromElrond_returns (batch : Option TransferBatch) :
    Prog.Returns (ethElrond.StoreBatchFromElrond batch) := by
  intro s
  cases batch with
  | none => exact ⟨_, _, rfl⟩
  | some b => exact ⟨_, _, rfl⟩

/-- The counter of the quorum retries on Ethereum is zero after `getPendingStep.Execute` on
the executor, from any state and whatever the step meets. -/
theorem ethElrond.getPendingStep_resets_quorumRetriesOnEthereum (c : Collaborators)
    (r : ethElrond.Rendering) (batchToString : TransferBatch → String)
    (t : ethElrond.State) :
    (elrondToEth.getPendingStep.Execute (ethElrond.asExecutor c r) batchToString
      t).state.executor.quorumRetriesOnEthereum = 0 := by
  unfold elrondToEth.getPendingStep.Execute
  refine (Prog.keeps_bind_right (fun e => e.quorumRetriesOnEthereum) _ _ (fun _ => ?_) t).trans
    rfl
  simp only [ethElrond.asExecutor]
  repeat' (first
    | exact Prog.keeps_pure _ _
    | exact ethElrond.PrintInfo_keeps _ _ _ _ _
    | exact ethElrond.ResetRetriesCountOnElrond_keeps (fun e => e.quorumRetriesOnEthereum)
        (fun _ _ => rfl)
    | exact ethElrond.GetBatchFromElrond_keeps _ _
    | exact ethElrond.StoreBatchFromElrond_keeps (fun e => e.quorumRetriesOnEthereum)
        (fun _ _ => rfl) _
    | exact ethElrond.WasTransferPerformedOnEthereum_keeps _ _
    | refine Prog.keeps_bind _ _ _ ?_ (fun _ => ?_)
    | split)

/-- The step `getPendingStep.Execute` returns on the executor unless the Elrond client
answers a nil batch with a nil error. -/
theorem ethElrond.getPendingStep_returns_of_pending (c : Collaborators)
    (r : ethElrond.Rendering) (batchToString : TransferBatch → String) (t : ethElrond.State)
    (hne : c.elrondClient.GetPending t.history ≠ (none, none)) :
    ∃ id t2, elrondToEth.getPendingStep.Execute (ethElrond.asExecutor c r) batchToString t =
      .ret id t2 := by
  unfold elrondToEth.getPendingStep.Execute
  simp only [ethElrond.asExecutor]
  refine Prog.bind_returns_at _ _ t _ () rfl ?_
  refine Prog.bind_returns_at _ _ _ _ () rfl ?_
  have hget : ∃ t3, ethElrond.GetBatchFromElrond c
      (⟨{ ({ t.executor with quorumRetriesOnEthereum := 0 } : ethElrond.bridgeExecutor) with
          quorumRetriesOnElrond := 0 }, t.history⟩ : ethElrond.State) =
        .ret (c.elrondClient.GetPending t.history) t3 := by
    rcases hp : c.elrondClient.GetPending t.history with ⟨_ | b, _ | err⟩
    · exact absurd hp hne
    · exact ⟨_, by simp [ethElrond.GetBatchFromElrond, hp]; rfl⟩
    · exact ⟨_, by simp [ethElrond.GetBatchFromElrond, hp]; rfl⟩
    · exact ⟨_, by simp [ethElrond.GetBatchFromElrond, hp]; rfl⟩
  obtain ⟨t3, hget⟩ := hget
  refine Prog.bind_returns_at _ _ _ t3 _ hget ?_
  refine (?_ : Prog.Returns _) t3
  repeat' (first
    | exact Prog.returns_pure _
    | exact ethElrond.PrintInfo_returns _ _ _ _
    | exact ethElrond.StoreBatchFromElrond_returns _
    | exact fun s => ethElrond.WasTransferPerformedOnEthereum_returns c s
    | refine Prog.returns_bind _ _ ?_ (fun _ => ?_)
    | split)

theorem ethElrond.stateAfter_waitForQuorumOnTransferStep (c : Collaborators)
    (r : ethElrond.Rendering) (s : ethElrond.State)
    (hB : s.executor.maxQuorumRetriesOnEthereum < uint64Size)
    (h0 : s.executor.quorumRetriesOnEthereum = 0)
    (hq : ∀ history hash, c.ethereumClient.IsQuorumReached history hash = (false, none))
    (n : Nat) (hn : n ≤ s.executor.maxQuorumRetriesOnEthereum) :
    (Prog.stateAfter (elrondToEth.waitForQuorumOnTransferStep.Execute
      (ethElrond.asExecutor c r)) n s).executor =
        { s.executor with quorumRetriesOnEthereum := n } := by
  induction n with
  | zero =>
    obtain ⟨executor, history⟩ := s
    cases executor
    simp_all [Prog.stateAfter]
  | succ n ih =>
    have ih1 := ih (by omega)
    have h3 : toUint64 (n + 1) = n + 1 := toUint64_of_lt (by omega)
    have hlt : n < s.executor.maxQuorumRetriesOnEthereum := by omega
    rw [Prog.stateAfter, ethElrond.waitForQuorumOnTransferStep_apply]
    simp [ih1, hq, hlt, h3, Res.state]

/-- C20: on the `bridges/ethElrond` executor with a bound `B` of quorum retries on Ethereum,
a 64-bit value (so also for `B ≥ 1`), the counter at 0 and an Ethereum client that answers every `IsQuorumReached`
with false and no error: each of the first `B` consecutive executions of
`waitForQuorumOnTransferStep` returns `WaitingForQuorumOnTransfer` and leaves the counter at
the number of executions made; the execution after them returns
`GettingPendingBatchFromElrond` with the counter at `B`; and `getPendingStep`, executed in
any state, so also afterwards, ends with the counter at 0, and returns unless the Elrond
client answers a nil batch together with a nil error. -/
theorem C20_quorum_never_reached (c : Collaborators) (r : ethElrond.Rendering)
    (batchToString : TransferBatch → String) (s : ethElrond.State)
    (hB : s.executor.maxQuorumRetriesOnEthereum < uint64Size)
    (h0 : s.executor.quorumRetriesOnEthereum = 0)
    (hq : ∀ history hash, c.ethereumClient.IsQuorumReached history hash = (false, none)) :
    (∀ k : Nat, 1 ≤ k → k ≤ s.executor.maxQuorumRetriesOnEthereum →
      (Prog.nthRun (elrondToEth.waitForQuorumOnTransferStep.Execute
          (ethElrond.asExecutor c r)) k s).value? = some .WaitingForQuorumOnTransfer ∧
        (Prog.nthRun (elrondToEth.waitForQuorumOnTransferStep.Execute
          (ethElrond.asExecutor c r)) k s).state.executor =
            { s.executor with quorumRetriesOnEthereum := k }) ∧
    ((Prog.nthRun (elrondToEth.waitForQuorumOnTransferStep.Execute (ethElrond.asExecutor c r))
        (s.executor.maxQuorumRetriesOnEthereum + 1) s).value? =
          some .GettingPendingBatchFromElrond ∧
      (Prog.nthRun (elrondToEth.waitForQuorumOnTransferStep.Execute (ethElrond.asExecutor c r))
        (s.executor.maxQuorumRetriesOnEthereum + 1) s).state.executor =
          { s.executor with quorumRetriesOnEthereum := s.executor.maxQuorumRetriesOnEthereum }) ∧
    (∀ t : ethElrond.State,
      (elrondToEth.getPendingStep.Execute (ethElrond.asExecutor c r) batchToString
        t).state.executor.quorumRetriesOnEthereum = 0 ∧
      (c.elrondClient.GetPending t.history ≠ (none, none) →
        ∃ id t2, elrondToEth.getPendingStep.Execute (ethElrond.asExecutor c r) batchToString t =
          .ret id t2)) := by
  refine ⟨?_, ?_, ?_⟩
  · intro k hk1 hkB
    obtain ⟨n, rfl⟩ : ∃ n, k = n + 1 := ⟨k - 1, by omega⟩
    have hst := ethElrond.stateAfter_waitForQuorumOnTransferStep c r s hB h0 hq n (by omega)
    have h3 : toUint64 (n + 1) = n + 1 := toUint64_of_lt (by omega)
    have hlt : n < s.executor.maxQuorumRetriesOnEthereum := by omega
    simp only [Prog.nthRun, Nat.add_sub_cancel]
    rw [ethElrond.waitForQuorumOnTransferStep_apply]
    simp [hst, hq, hlt, h3, Res.state, Res.value?]
  · have hst := ethElrond.stateAfter_waitForQuorumOnTransferStep c r s hB h0 hq
      s.executor.maxQuorumRetriesOnEthereum (le_refl _)
    simp only [Prog.nthRun, Nat.add_sub_cancel]
    rw [ethElrond.waitForQuorumOnTransferStep_apply]
    simp [hst, Res.state, Res.value?]
  · intro t
    exact ⟨ethElrond.getPendingStep_resets_quorumRetriesOnEthereum c r batchToString t,
      ethElrond.getPendingStep_returns_of_pending c r batchToString t⟩

/-- Witness of C20: bound 2 and quiet collaborators, whose quorum is never reached.  The
second visit waits again with the counter at 2, the third returns to the initial step, and
the initial step executed after the three visits leaves the counter at 0. -/
theorem C20_quorum_never_reached_witness :
    (Prog.nthRun (elrondToEth.waitForQuorumOnTransferStep.Execute
        (ethElrond.asExecutor (Collaborators.around ElrondClient.quiet EthereumClient.quiet)
          ethElrond.Rendering.plain)) 2 (ethElrond.stateHolding 2 none)).value? =
      some .WaitingForQuorumOnTransfer ∧
    (Prog.nthRun (elrondToEth.waitForQuorumOnTransferStep.Execute
        (ethElrond.asExecutor (Collaborators.around ElrondClient.quiet EthereumClient.quiet)
          ethElrond.Rendering.plain)) 3 (ethElrond.stateHolding 2 none)).value? =
      some .GettingPendingBatchFromElrond ∧
    (elrondToEth.getPendingStep.Execute
        (ethElrond.asExecutor (Collaborators.around ElrondClient.quiet EthereumClient.quiet)
          ethElrond.Rendering.plain) (fun _ => "")
        (Prog.stateAfter (elrondToEth.waitForQuorumOnTransferStep.Execute
          (ethElrond.asExecutor (Collaborators.around ElrondClient.quiet EthereumClient.quiet)
            ethElrond.Rendering.plain)) 3
          (ethElrond.stateHolding 2 none))).state.executor.quorumRetriesOnEthereum = 0 :=
  have h := C20_quorum_never_reached
    (Collaborators.around ElrondClient.quiet EthereumClient.quiet) ethElrond.Rendering.plain
    (fun _ => "") (ethElrond.stateHolding 2 none) (by decide) rfl (fun _ _ => rfl)
  ⟨(h.1 2 (by decide) (by decide)).1, h.2.1.1, (h.2.2 _).1⟩

/-! ## The counters after the initial step -/

/-- What `getPendingStep.Execute` leaves of the executor's fields, seen through an
observation `f` that does not read the stored batch: the fields it started from, the two
quorum counters put to zero. -/
theorem ethElrond.getPendingStep_fields {β : Type} (f : ethElrond.bridgeExecutor → β)
    (hbatch : ∀ e b, f { e with batch := b } = f e) (c : Collaborators)
    (r : ethElrond.Rendering) (batchToString : TransferBatch → String)
    (t : ethElrond.State) :
    f (elrondToEth.getPendingStep.Execute (ethElrond.asExecutor c r) batchToString
        t).state.executor =
      f { ({ t.executor with quorumRetriesOnEthereum := 0 } : ethElrond.bridgeExecutor) with
          quorumRetriesOnElrond := 0 } := by
  unfold elrondToEth.getPendingStep.Execute
  simp only [ethElrond.asExecutor]
  have h1 : ∀ g : Unit → Prog ethElrond.State StepIdentifier,
      (ethElrond.ResetRetriesCountOnEthereum >>= g) t =
        g () ⟨{ t.executor with quorumRetriesOnEthereum := 0 }, t.history⟩ := fun _ => rfl
  have h2 : ∀ g : Unit → Prog ethElrond.State StepIdentifier,
      (ethElrond.ResetRetriesCountOnElrond >>= g)
          ⟨{ t.executor with quorumRetriesOnEthereum := 0 }, t.history⟩ =
        g () ⟨{ ({ t.executor with quorumRetriesOnEthereum := 0 } :
            ethElrond.bridgeExecutor) with quorumRetriesOnElrond := 0 }, t.history⟩ :=
    fun _ => rfl
  rw [h1, h2]
  refine (?_ : Prog.Keeps f _) _
  repeat' (first
    | exact Prog.keeps_pure _ _
    | exact ethElrond.PrintInfo_keeps _ _ _ _ _
    | exact ethElrond.GetBatchFromElrond_keeps _ _
    | exact ethElrond.StoreBatchFromElrond_keeps f hbatch _
    | exact ethElrond.WasTransferPerformedOnEthereum_keeps _ _
    | refine Prog.keeps_bind _ _ _ ?_ (fun _ => ?_)
    | split)

/-- C21, as amended: after every execution of `getPendingStep` on the `bridges/ethElrond`
executor, whether it returns or stops at a nil dereference, the counters of the quorum
retries on Ethereum and on Elrond are zero, and the counter of the was-proposed retries,
which the step does not reset, has the value it had before. -/
theorem C21_counters_after_get_pending (c : Collaborators) (r : ethElrond.Rendering)
    (batchToString : TransferBatch → String) (t : ethElrond.State) :
    (elrondToEth.getPendingStep.Execute (ethElrond.asExecutor c r) batchToString
        t).state.executor.quorumRetriesOnEthereum = 0 ∧
    (elrondToEth.getPendingStep.Execute (ethElrond.asExecutor c r) batchToString
        t).state.executor.quorumRetriesOnElrond = 0 ∧
    (elrondToEth.getPendingStep.Execute (ethElrond.asExecutor c r) batchToString
        t).state.executor.retriesOnWasProposed = t.executor.retriesOnWasProposed :=
  ⟨ethElrond.getPendingStep_fields (fun e => e.quorumRetriesOnEthereum) (fun _ _ => rfl)
      c r batchToString t,
    ethElrond.getPendingStep_fields (fun e => e.quorumRetriesOnElrond) (fun _ _ => rfl)
      c r batchToString t,
    ethElrond.getPendingStep_fields (fun e => e.retriesOnWasProposed) (fun _ _ => rfl)
      c r batchToString t⟩

/-- C21 as stated fails: on an executor with bound 2 whose was-proposed retries were counted
once, `getPendingStep` fetches and stores the pending batch, returns
`SigningProposedTransferOnEthereum`, and the counter of the was-proposed retries is still 1. -/
theorem C21_was_proposed_retries_not_reset :
    (ethElrond.ProcessMaxRetriesOnWasTransferProposedOnElrond
      (ethElrond.stateHolding 2 none)).state.executor.retriesOnWasProposed = 1 ∧
    (elrondToEth.getPendingStep.Execute
        (ethElrond.asExecutor
          (Collaborators.around (ElrondClient.pending (batchWithNonces 1 [1, 2]))
            EthereumClient.quiet) ethElrond.Rendering.plain) (fun _ => "")
        (ethElrond.ProcessMaxRetriesOnWasTransferProposedOnElrond
          (ethElrond.stateHolding 2 none)).state).value? =
      some .SigningProposedTransferOnEthereum ∧
    ¬ (elrondToEth.getPendingStep.Execute
        (ethElrond.asExecutor
          (Collaborators.around (ElrondClient.pending (batchWithNonces 1 [1, 2]))
            EthereumClient.quiet) ethElrond.Rendering.plain) (fun _ => "")
        (ethElrond.ProcessMaxRetriesOnWasTransferProposedOnElrond
          (ethElrond.stateHolding 2 none)).state).state.executor.retriesOnWasProposed = 0 := by
  decide

/-- Witness of C21: on quiet collaborators with a pending batch, from an executor whose three
counters are at 1, the step leaves the counters at 0, 0 and 1. -/
theorem C21_counters_after_get_pending_witness :
    (elrondToEth.getPendingStep.Execute
        (ethElrond.asExecutor
          (Collaborators.around (ElrondClient.pending (batchWithNonces 1 [1, 2]))
            EthereumClient.quiet) ethElrond.Rendering.plain) (fun _ => "")
        ⟨{ ethElrond.executorHolding 2 none with
            quorumRetriesOnEthereum := 1, quorumRetriesOnElrond := 1,
            retriesOnWasProposed := 1 }, []⟩).state.executor.quorumRetriesOnEthereum = 0 ∧
    (elrondToEth.getPendingStep.Execute
        (ethElrond.asExecutor
          (Collaborators.around (ElrondClient.pending (batchWithNonces 1 [1, 2]))
            EthereumClient.quiet) ethElrond.Rendering.plain) (fun _ => "")
        ⟨{ ethElrond.executorHolding 2 none with
            quorumRetriesOnEthereum := 1, quorumRetriesOnElrond := 1,
            retriesOnWasProposed := 1 }, []⟩).state.executor.quorumRetriesOnElrond = 0 ∧
    (elrondToEth.getPendingStep.Execute
        (ethElrond.asExecutor
          (Collaborators.around (ElrondClient.pending (batchWithNonces 1 [1, 2]))
            EthereumClient.quiet) ethElrond.Rendering.plain) (fun _ => "")
        ⟨{ ethElrond.executorHolding 2 none with
            quorumRetriesOnEthereum := 1, quorumRetriesOnElrond := 1,
            retriesOnWasProposed := 1 }, []⟩).state.executor.retriesOnWasProposed = 1 :=
  C21_counters_after_get_pending
    (Collaborators.around (ElrondClient.pending (batchWithNonces 1 [1, 2]))
      EthereumClient.quiet) ethElrond.Rendering.plain (fun _ => "")
    ⟨{ ethElrond.executorHolding 2 none with
        quorumRetriesOnEthereum := 1, quorumRetriesOnElrond := 1,
        retriesOnWasProposed := 1 }, []⟩

/-! ## The initial step and the deposit nonces -/

/-- The outcomes of the v2 `getPendingStep.Execute` on any bridge once the batch is fetched,
stored and read back: they follow `WasTransferPerformedOnEthereum` alone, and the error
returned is nil. -/
theorem v2.elrondToEth.steps.getPendingStep_outcomes_v2 {σ : Type}
    (bridge : v2.elrondToEth.steps.ElrondToEthBridge σ)
    (batchToString : TransferBatch → String) (s s1 s2 s3 s4 s5 s6 s7 : σ)
    (b b2 : TransferBatch)
    (h1 : bridge.ResetRetriesCountOnEthereum s = .ret () s1)
    (h2 : bridge.ResetRetriesCountOnElrond s1 = .ret () s2)
    (h3 : bridge.GetBatchFromElrond s2 = .ret (some b, none) s3)
    (h4 : bridge.StoreBatchFromElrond (some b) s3 = .ret none s4)
    (h5 : bridge.GetStoredBatchFromElrond s4 = .ret (some b2) s5)
    (h6 : bridge.Log .LogInfo ("fetched new batch from Elrond " ++ batchToString b) [] s5 =
      .ret () s6) :
    (∀ (wasPerformed : Bool) (err : Error) (s8 : σ),
      bridge.WasTransferPerformedOnEthereum s6 = .ret (wasPerformed, some err) s7 →
      bridge.Log .LogError "error determining if transfer was performed or not"
        [.str "error", .err (some err)] s7 = .ret () s8 →
      v2.elrondToEth.steps.getPendingStep.Execute bridge batchToString s =
        .ret (.GettingPendingBatchFromElrond, none) s8) ∧
    (∀ s8 : σ, bridge.WasTransferPerformedOnEthereum s6 = .ret (true, none) s7 →
      bridge.Log .LogInfo "transfer performed" [] s7 = .ret () s8 →
      v2.elrondToEth.steps.getPendingStep.Execute bridge batchToString s =
        .ret (.ProposingSetStatusOnElrond, none) s8) ∧
    (bridge.WasTransferPerformedOnEthereum s6 = .ret (false, none) s7 →
      v2.elrondToEth.steps.getPendingStep.Execute bridge batchToString s =
        .ret (.SigningProposedTransferOnEthereum, none) s7) := by
  refine ⟨?_, ?_, ?_⟩
  · intro wasPerformed err s8 h7 h8
    simp [v2.elrondToEth.steps.getPendingStep.Execute, h1, h2, h3, h4, h5, h6, h7, h8]
  · intro s8 h7 h8
    simp [v2.elrondToEth.steps.getPendingStep.Execute, h1, h2, h3, h4, h5, h6, h7, h8]
  · intro h7
    simp [v2.elrondToEth.steps.getPendingStep.Execute, h1, h2, h3, h4, h5, h6, h7]

/-- The step `getPendingStep.Execute` on the `bridges/ethElrond` executor when the Elrond
client answers a pending batch: the step resets the two quorum counters, records the fetch,
the batch metric and one log line, stores the batch and asks the Ethereum client whether the
batch was executed, nothing else; its outcome follows that answer alone. -/
theorem ethElrond.getPendingStep_apply_fetched (c : Collaborators) (r : ethElrond.Rendering)
    (batchToString : TransferBatch → String) (t : ethElrond.State) (b : TransferBatch)
    (hp : c.elrondClient.GetPending t.history = (some b, none)) :
    elrondToEth.getPendingStep.Execute (ethElrond.asExecutor c r) batchToString t =
      match c.ethereumClient.WasExecuted
          (t.history ++ [.elrond .GetPending,
            .setIntMetric MetricNumBatches (toInt64 (toInt64 b.ID - 1)),
            .log .LogInfo ("fetched new batch from Elrond " ++ batchToString b) []])
          b.ID with
      | (_, some err) =>
        .ret .GettingPendingBatchFromElrond
          ⟨{ t.executor with
              quorumRetriesOnEthereum := 0, quorumRetriesOnElrond := 0, batch := some b },
            t.history ++ [.elrond .GetPending,
              .setIntMetric MetricNumBatches (toInt64 (toInt64 b.ID - 1)),
              .log .LogInfo ("fetched new batch from Elrond " ++ batchToString b) [],
              .ethereum (.WasExecuted b.ID),
              .log .LogError "error determining if transfer was performed or not"
                [.str "error", .err (some err)],
              .setStringMetric MetricLastError
                (ethElrond.setExecutionMessageInStatusHandler.loop r
                  (r.levelString .LogError ++ ": " ++
                    "error determining if transfer was performed or not")
                  [.str "error", .err (some err)])]⟩
      | (true, none) =>
        .ret .ResolvingSetStatusOnElrond
          ⟨{ t.executor with
              quorumRetriesOnEthereum := 0, quorumRetriesOnElrond := 0, batch := some b },
            t.history ++ [.elrond .GetPending,
              .setIntMetric MetricNumBatches (toInt64 (toInt64 b.ID - 1)),
              .log .LogInfo ("fetched new batch from Elrond " ++ batchToString b) [],
              .ethereum (.WasExecuted b.ID),
              .log .LogInfo "transfer performed" []]⟩
      | (false, none) =>
        .ret .SigningProposedTransferOnEthereum
          ⟨{ t.executor with
              quorumRetriesOnEthereum := 0, quorumRetriesOnElrond := 0, batch := some b },
            t.history ++ [.elrond .GetPending,
              .setIntMetric MetricNumBatches (toInt64 (toInt64 b.ID - 1)),
              .log .LogInfo ("fetched new batch from Elrond " ++ batchToString b) [],
              .ethereum (.WasExecuted b.ID)]⟩ := by
  rcases hw : c.ethereumClient.WasExecuted
      (t.history ++ [.elrond .GetPending,
        .setIntMetric MetricNumBatches (toInt64 (toInt64 b.ID - 1)),
        .log .LogInfo ("fetched new batch from Elrond " ++ batchToString b) []])
      b.ID with ⟨wasPerformed, _ | err⟩
  · cases wasPerformed <;>
      simp [elrondToEth.getPendingStep.Execute, ethElrond.asExecutor,
        ethElrond.ResetRetriesCountOnEthereum, ethElrond.ResetRetriesCountOnElrond,
        ethElrond.GetBatchFromElrond, ethElrond.StoreBatchFromElrond,
        ethElrond.WasTransferPerformedOnEthereum, ethElrond.PrintInfo_apply, hp, hw]
  · simp [elrondToEth.getPendingStep.Execute, ethElrond.asExecutor,
      ethElrond.ResetRetriesCountOnEthereum, ethElrond.ResetRetriesCountOnElrond,
      ethElrond.GetBatchFromElrond, ethElrond.StoreBatchFromElrond,
      ethElrond.WasTransferPerformedOnEthereum, ethElrond.PrintInfo_apply, hp, hw,
      elrondToEth.getPendingStep.Identifier]

/-- C22, as amended: neither `getPendingStep` verifies the deposit nonces.
On the `bridges/ethElrond` executor, when the Elrond client answers a pending batch `b`,
whatever the nonces of its deposits: the step resets the two quorum counters, records the
fetch, the batch metric and one log line, stores `b` and asks the Ethereum client whether the
batch was executed, nothing else; it returns the initial step when that query errors,
`ResolvingSetStatusOnElrond` when the transfer was performed and
`SigningProposedTransferOnEthereum` when it was not.
On any v2 bridge, once the two resets, the fetch of a batch `b2`, its storing without error,
its reading back and the log line are made, whatever the nonces of `b2`: the step calls
`WasTransferPerformedOnEthereum` and nothing else but the logger; it returns the initial step
when that call errors and `SigningProposedTransferOnEthereum` when the transfer was not
performed, with a nil error. -/
theorem C22_get_pending_does_not_verify_nonces (c : Collaborators) (r : ethElrond.Rendering)
    (batchToString : TransferBatch → String) (t : ethElrond.State) (b : TransferBatch)
    (hp : c.elrondClient.GetPending t.history = (some b, none))
    {σ : Type} (bridge : v2.elrondToEth.steps.ElrondToEthBridge σ)
    (s s1 s2 s3 s4 s5 s6 s7 : σ) (b2 b3 : TransferBatch)
    (h1 : bridge.ResetRetriesCountOnEthereum s = .ret () s1)
    (h2 : bridge.ResetRetriesCountOnElrond s1 = .ret () s2)
    (h3 : bridge.GetBatchFromElrond s2 = .ret (some b2, none) s3)
    (h4 : bridge.StoreBatchFromElrond (some b2) s3 = .ret none s4)
    (h5 : bridge.GetStoredBatchFromElrond s4 = .ret (some b3) s5)
    (h6 : bridge.Log .LogInfo ("fetched new batch from Elrond " ++ batchToString b2) [] s5 =
      .ret () s6) :
    (elrondToEth.getPendingStep.Execute (ethElrond.asExecutor c r) batchToString t =
      match c.ethereumClient.WasExecuted
          (t.history ++ [.elrond .GetPending,
            .setIntMetric MetricNumBatches (toInt64 (toInt64 b.ID - 1)),
            .log .LogInfo ("fetched new batch from Elrond " ++ batchToString b) []])
          b.ID with
      | (_, some err) =>
        .ret .GettingPendingBatchFromElrond
          ⟨{ t.executor with
              quorumRetriesOnEthereum := 0, quorumRetriesOnElrond := 0, batch := some b },
            t.history ++ [.elrond .GetPending,
              .setIntMetric MetricNumBatches (toInt64 (toInt64 b.ID - 1)),
              .log .LogInfo ("fetched new batch from Elrond " ++ batchToString b) [],
              .ethereum (.WasExecuted b.ID),
              .log .LogError "error determining if transfer was performed or not"
                [.str "error", .err (some err)],
              .setStringMetric MetricLastError
                (ethElrond.setExecutionMessageInStatusHandler.loop r
                  (r.levelString .LogError ++ ": " ++
                    "error determining if transfer was performed or not")
                  [.str "error", .err (some err)])]⟩
      | (true, none) =>
        .ret .ResolvingSetStatusOnElrond
          ⟨{ t.executor with
              quorumRetriesOnEthereum := 0, quorumRetriesOnElrond := 0, batch := some b },
            t.history ++ [.elrond .GetPending,
              .setIntMetric MetricNumBatches (toInt64 (toInt64 b.ID - 1)),
              .log .LogInfo ("fetched new batch from Elrond " ++ batchToString b) [],
              .ethereum (.WasExecuted b.ID),
              .log .LogInfo "transfer performed" []]⟩
      | (false, none) =>
        .ret .SigningProposedTransferOnEthereum
          ⟨{ t.executor with
              quorumRetriesOnEthereum := 0, quorumRetriesOnElrond := 0, batch := some b },
            t.history ++ [.elrond .GetPending,
              .setIntMetric MetricNumBatches (toInt64 (toInt64 b.ID - 1)),
              .log .LogInfo ("fetched new batch from Elrond " ++ batchToString b) [],
              .ethereum (.WasExecuted b.ID)]⟩) ∧
    (∀ (wasPerformed : Bool) (err : Error) (s8 : σ),
      bridge.WasTransferPerformedOnEthereum s6 = .ret (wasPerformed, some err) s7 →
      bridge.Log .LogError "error determining if transfer was performed or not"
        [.str "error", .err (some err)] s7 = .ret () s8 →
      v2.elrondToEth.steps.getPendingStep.Execute bridge batchToString s =
        .ret (.GettingPendingBatchFromElrond, none) s8) ∧
    (bridge.WasTransferPerformedOnEthereum s6 = .ret (false, none) s7 →
      v2.elrondToEth.steps.getPendingStep.Execute bridge batchToString s =
        .ret (.SigningProposedTransferOnEthereum, none) s7) :=
  have hv2 := v2.elrondToEth.steps.getPendingStep_outcomes_v2 bridge batchToString
    s s1 s2 s3 s4 s5 s6 s7 b2 b3 h1 h2 h3 h4 h5 h6
  ⟨ethElrond.getPendingStep_apply_fetched c r batchToString t b hp, hv2.1, hv2.2.2⟩

/-- C22 as stated fails: the pending batch has the nonces 1 and 3, a gap.  The
`bridges/ethElrond` step stores it and returns `SigningProposedTransferOnEthereum`; the calls
it records are the fetch, the batch metric, one log line and the query whether the batch was
executed, no read of a last executed nonce; and the verification of the deposit nonces, run
on the state the step leaves, fails with an error wrapping `ErrInvalidDepositNonce`.  The v2
step, on a stub bridge that fetches the same batch and stores it, returns
`SigningProposedTransferOnEthereum` as well, having called no method but the resets, the
fetch, the store, the read of the stored batch, the logger and the query. -/
theorem C22_nonce_gap_advances :
    elrondToEth.getPendingStep.Execute
        (ethElrond.asExecutor
          (Collaborators.around (ElrondClient.pending (batchWithNonces 1 [1, 3]))
            EthereumClient.quiet) ethElrond.Rendering.plain) (fun _ => "")
        (ethElrond.stateHolding 2 none) =
      .ret .SigningProposedTransferOnEthereum
        ⟨ethElrond.executorHolding 2 (some (batchWithNonces 1 [1, 3])),
          [.elrond .GetPending, .setIntMetric MetricNumBatches 0,
            .log .LogInfo "fetched new batch from Elrond " [],
            .ethereum (.WasExecuted 1)]⟩ ∧
    (((ethElrond.VerifyLastDepositNonceExecutedOnEthereumBatch
        (Collaborators.around (ElrondClient.pending (batchWithNonces 1 [1, 3]))
          EthereumClient.quiet)
        (ethElrond.stateHolding 2 (some (batchWithNonces 1 [1, 3])))).value?.bind id).map
      (fun err => err.Is ethElrond.ErrInvalidDepositNonce)) = some true ∧
    v2.elrondToEth.steps.getPendingStep.Execute
        (v2.elrondToEth.steps.ElrondToEthBridge.following elrondToEth.Script.gap
          (some (batchWithNonces 1 [1, 3]))) (fun _ => "") [] =
      .ret (.SigningProposedTransferOnEthereum, none)
        ["ResetRetriesCountOnEthereum", "ResetRetriesCountOnElrond", "GetBatchFromElrond",
          "StoreBatchFromElrond", "GetStoredBatchFromElrond", "GetLogger",
          "WasTransferPerformedOnEthereum"] := by
  decide

/-- Witness of C22: the batch with the nonces 1 and 3, on quiet collaborators for the
`bridges/ethElrond` step and on the stub bridge for the v2 step. -/
theorem C22_get_pending_does_not_verify_nonces_witness :
    elrondToEth.getPendingStep.Execute
        (ethElrond.asExecutor
          (Collaborators.around (ElrondClient.pending (batchWithNonces 1 [1, 3]))
            EthereumClient.quiet) ethElrond.Rendering.plain) (fun _ => "")
        (ethElrond.stateHolding 2 none) =
      .ret .SigningProposedTransferOnEthereum
        ⟨ethElrond.executorHolding 2 (some (batchWithNonces 1 [1, 3])),
          [.elrond .GetPending, .setIntMetric MetricNumBatches 0,
            .log .LogInfo "fetched new batch from Elrond " [],
            .ethereum (.WasExecuted 1)]⟩ ∧
    v2.elrondToEth.steps.getPendingStep.Execute
        (v2.elrondToEth.steps.ElrondToEthBridge.following elrondToEth.Script.gap
          (some (batchWithNonces 1 [1, 3]))) (fun _ => "") [] =
      .ret (.SigningProposedTransferOnEthereum, none)
        ["ResetRetriesCountOnEthereum", "ResetRetriesCountOnElrond", "GetBatchFromElrond",
          "StoreBatchFromElrond", "GetStoredBatchFromElrond", "GetLogger",
          "WasTransferPerformedOnEthereum"] :=
  have h := C22_get_pending_does_not_verify_nonces
    (Collaborators.around (ElrondClient.pending (batchWithNonces 1 [1, 3]))
      EthereumClient.quiet) ethElrond.Rendering.plain (fun _ => "")
    (ethElrond.stateHolding 2 none) (batchWithNonces 1 [1, 3]) rfl
    (v2.elrondToEth.steps.ElrondToEthBridge.following elrondToEth.Script.gap
      (some (batchWithNonces 1 [1, 3])))
    [] ["ResetRetriesCountOnEthereum"]
    ["ResetRetriesCountOnEthereum", "ResetRetriesCountOnElrond"]
    ["ResetRetriesCountOnEthereum", "ResetRetriesCountOnElrond", "GetBatchFromElrond"]
    ["ResetRetriesCountOnEthereum", "ResetRetriesCountOnElrond", "GetBatchFromElrond",
      "StoreBatchFromElrond"]
    ["ResetRetriesCountOnEthereum", "ResetRetriesCountOnElrond", "GetBatchFromElrond",
      "StoreBatchFromElrond", "GetStoredBatchFromElrond"]
    ["ResetRetriesCountOnEthereum", "ResetRetriesCountOnElrond", "GetBatchFromElrond",
      "StoreBatchFromElrond", "GetStoredBatchFromElrond", "GetLogger"]
    ["ResetRetriesCountOnEthereum", "ResetRetriesCountOnElrond", "GetBatchFromElrond",
      "StoreBatchFromElrond", "GetStoredBatchFromElrond", "GetLogger",
      "WasTransferPerformedOnEthereum"]
    (batchWithNonces 1 [1, 3]) (batchWithNonces 1 [1, 3]) rfl rfl rfl rfl rfl rfl
  ⟨h.1, h.2.2 rfl⟩

/-! ## The two initial steps side by side -/

/-- C23: the same answers for both stubs, the batch fetched, stored and read back, the
transfer found performed on Ethereum.  The `bridges/ethElrond` step returns
`ResolvingSetStatusOnElrond`; the v2 step returns `ProposingSetStatusOnElrond`, with a nil
error.  When the transfer was not performed both return
`SigningProposedTransferOnEthereum`. -/
theorem C23_v2_get_pending_skips_resolving :
    elrondToEth.getPendingStep.Execute
        (elrondToEth.Executor.scripted elrondToEth.Script.performed) (fun _ => "") [] =
      .ret .ResolvingSetStatusOnElrond
        ["ResetRetriesCountOnEthereum", "ResetRetriesCountOnElrond", "GetBatchFromElrond",
          "StoreBatchFromElrond", "PrintInfo", "WasTransferPerformedOnEthereum",
          "PrintInfo"] ∧
    v2.elrondToEth.steps.getPendingStep.Execute
        (v2.elrondToEth.steps.ElrondToEthBridge.following elrondToEth.Script.performed
          (some (batchWithNonces 1 [1]))) (fun _ => "") [] =
      .ret (.ProposingSetStatusOnElrond, none)
        ["ResetRetriesCountOnEthereum", "ResetRetriesCountOnElrond", "GetBatchFromElrond",
          "StoreBatchFromElrond", "GetStoredBatchFromElrond", "GetLogger",
          "WasTransferPerformedOnEthereum", "GetLogger"] ∧
    (elrondToEth.getPendingStep.Execute
        (elrondToEth.Executor.scripted elrondToEth.Script.happy) (fun _ => "") []).value? =
      some .SigningProposedTransferOnEthereum ∧
    (v2.elrondToEth.steps.getPendingStep.Execute
        (v2.elrondToEth.steps.ElrondToEthBridge.following elrondToEth.Script.happy
          (some (batchWithNonces 1 [1]))) (fun _ => "") []).value? =
      some (.SigningProposedTransferOnEthereum, none) := by
  decide

/-! ## Fetching the batch from Ethereum, the two executors side by side -/

theorem v2.GetAndStoreBatchFromEthereum_apply_v2 (c : v2.Collaborators) (nonce : Nat)
    (s : v2.State) :
    v2.GetAndStoreBatchFromEthereum c nonce s =
      match c.ethereumClient.GetBatch s.history nonce with
      | (_, some err) => .ret (some err) ⟨s.executor, s.history ++ [.ethereum (.GetBatch nonce)]⟩
      | (batch, none) =>
        .ret none ⟨{ s.executor with batch := batch },
          s.history ++ [.ethereum (.GetBatch nonce)]⟩ := by
  rcases hg : c.ethereumClient.GetBatch s.history nonce with ⟨batch, _ | err⟩ <;>
    simp [v2.GetAndStoreBatchFromEthereum, hg]

/-- C24: both executors are asked for nonce 5 and hold no batch.  The client answers batch 6:
the `bridges/ethElrond` executor returns an error wrapping `ErrBatchNotFound` and stores
nothing, the v2 executor returns nil and stores batch 6.  The client answers batch 5 without
deposits: the same difference. -/
theorem C24_v2_stores_any_fetched_batch :
    ethElrond.GetAndStoreBatchFromEthereum
        (Collaborators.around ElrondClient.quiet
          (EthereumClient.serving (some (batchWithNonces 6 [1]))))
        5 (ethElrond.stateHolding 1 none) =
      .ret (some (.wrapf ethElrond.ErrBatchNotFound
          ", requested nonce: %d, fetched nonce: %d, num deposits: %d" [.num 5, .num 6, .num 1]))
        ⟨ethElrond.executorHolding 1 none, [.ethereum (.GetBatch 5)]⟩ ∧
    v2.GetAndStoreBatchFromEthereum
        (v2.Collaborators.around ElrondClient.quiet
          (EthereumClient.serving (some (batchWithNonces 6 [1]))))
        5 ⟨v2.executorHolding none, []⟩ =
      .ret none ⟨v2.executorHolding (some (batchWithNonces 6 [1])),
        [.ethereum (.GetBatch 5)]⟩ ∧
    (ethElrond.GetAndStoreBatchFromEthereum
        (Collaborators.around ElrondClient.quiet
          (EthereumClient.serving (some (batchWithNonces 5 []))))
        5 (ethElrond.stateHolding 1 none)).state.executor.batch = none ∧
    v2.GetAndStoreBatchFromEthereum
        (v2.Collaborators.around ElrondClient.quiet
          (EthereumClient.serving (some (batchWithNonces 5 []))))
        5 ⟨v2.executorHolding none, []⟩ =
      .ret none ⟨v2.executorHolding (some (batchWithNonces 5 [])),
        [.ethereum (.GetBatch 5)]⟩ := by
  decide

/-! ## Operations on an executor without a batch -/

/-- `ResolveNewDepositsStatuses` for every state: on a stored batch it returns and replaces
the batch; on a nil batch it hands the nil receiver over, without a guard of its own, so that
it returns from an unchanged state when `ResolveNewDeposits` returns on a nil receiver and
stops when that method stops. -/
theorem ethElrond.ResolveNewDepositsStatuses_apply (c : Collaborators) (numDeposits : Nat)
    (s : ethElrond.State) :
    ethElrond.ResolveNewDepositsStatuses c numDeposits s =
      match s.executor.batch with
      | none => if c.resolveNewDepositsReturnsOnNilBatch then .ret () s else .crash s
      | some batch =>
        .ret () ⟨{ s.executor with
          batch := some (batch.ResolveNewDeposits (toInt64 numDeposits)) }, s.history⟩ := by
  simp only [ethElrond.ResolveNewDepositsStatuses, Prog.bind_apply, getExecutor_apply]
  cases s.executor.batch with
  | none => cases c.resolveNewDepositsReturnsOnNilBatch <;> rfl
  | some batch => rfl

/-! ## Fetching the batch from Elrond -/

theorem ethElrond.GetBatchFromElrond_apply (c : Collaborators) (s : ethElrond.State) :
    ethElrond.GetBatchFromElrond c s =
      match c.elrondClient.GetPending s.history with
      | (batch, some err) =>
        .ret (batch, some err) ⟨s.executor, s.history ++ [.elrond .GetPending]⟩
      | (some b, none) =>
        .ret (some b, none) ⟨s.executor, s.history ++ [.elrond .GetPending,
          .setIntMetric MetricNumBatches (toInt64 (toInt64 b.ID - 1))]⟩
      | (none, none) => .crash ⟨s.executor, s.history ++ [.elrond .GetPending]⟩ := by
  rcases hp : c.elrondClient.GetPending s.history with ⟨_ | b, _ | err⟩ <;>
    simp [ethElrond.GetBatchFromElrond, hp]

/-- C26: the Elrond client reports no pending batch, a nil batch with a nil error.
`GetBatchFromElrond` stops at the nil batch once the client was asked, before any metric is
set, and so does `getPendingStep`, which never comes to its branch for a nil batch. -/
theorem C26_get_batch_from_elrond_nil_batch :
    ElrondClient.quiet.GetPending [] = (none, none) ∧
    ethElrond.GetBatchFromElrond (Collaborators.around ElrondClient.quiet EthereumClient.quiet)
        (ethElrond.stateHolding 2 none) =
      .crash ⟨ethElrond.executorHolding 2 none, [.elrond .GetPending]⟩ ∧
    elrondToEth.getPendingStep.Execute
        (ethElrond.asExecutor (Collaborators.around ElrondClient.quiet EthereumClient.quiet)
          ethElrond.Rendering.plain) (fun _ => "") (ethElrond.stateHolding 2 none) =
      .crash ⟨ethElrond.executorHolding 2 none, [.elrond .GetPending]⟩ := by
  decide

/-! ## The nonces of an accepted batch -/

/-- An accepted run of deposits carries the nonces `startNonce`, `startNonce + 1`, ... as long
as the last of them fits in 64 bits. -/
theorem ethElrond.verifyDepositNoncesLoop_nonces (deposits : List DepositTransfer) :
    ∀ startNonce : Nat, startNonce + deposits.length ≤ uint64Size →
      ethElrond.verifyDepositNoncesLoop startNonce deposits = none →
      ∀ (i : Nat) (h : i < deposits.length), (deposits.get ⟨i, h⟩).Nonce = startNonce + i := by
  induction deposits with
  | nil => intro _ _ _ i h; simp at h
  | cons dt rest ih =>
    intro startNonce hle hacc i hi
    simp only [List.length_cons] at hle
    by_cases hd : dt.Nonce = startNonce
    · simp only [ethElrond.verifyDepositNoncesLoop, hd, bne_self_eq_false, Bool.false_eq_true,
        if_false] at hacc
      cases i with
      | zero => simpa using hd
      | succ j =>
        have hj : j < rest.length := by simpa using hi
        have hnext : toUint64 (startNonce + 1) = startNonce + 1 := toUint64_of_lt (by omega)
        rw [hnext] at hacc
        have := ih (startNonce + 1) (by omega) hacc j hj
        simp only [List.get_eq_getElem, List.getElem_cons_succ] at this ⊢
        omega
    · have hne : (dt.Nonce != startNonce) = true := by simpa using hd
      simp [ethElrond.verifyDepositNoncesLoop, hne] at hacc

/-- An accepted run of deposits, of any length and from any 64-bit start: the nonce at index
`i` is `startNonce + i` reduced modulo `2^64`. -/
theorem ethElrond.verifyDepositNoncesLoop_nonces_mod (deposits : List DepositTransfer) :
    ∀ startNonce : Nat, startNonce < uint64Size →
      ethElrond.verifyDepositNoncesLoop startNonce deposits = none →
      ∀ (i : Nat) (h : i < deposits.length),
        (deposits.get ⟨i, h⟩).Nonce = toUint64 (startNonce + i) := by
  induction deposits with
  | nil => intro _ _ _ i h; simp at h
  | cons dt rest ih =>
    intro startNonce hlt hacc i hi
    by_cases hd : dt.Nonce = startNonce
    · simp only [ethElrond.verifyDepositNoncesLoop, hd, bne_self_eq_false, Bool.false_eq_true,
        if_false] at hacc
      cases i with
      | zero =>
        show dt.Nonce = toUint64 (startNonce + 0)
        rw [Nat.add_zero, toUint64_of_lt hlt]
        exact hd
      | succ j =>
        have hj : j < rest.length := by simpa using hi
        have hlt2 : toUint64 (startNonce + 1) < uint64Size :=
          Nat.mod_lt _ (by decide)
        have := ih (toUint64 (startNonce + 1)) hlt2 hacc j hj
        simp only [List.get_eq_getElem, List.getElem_cons_succ] at this ⊢
        rw [this]
        simp only [toUint64, uint64Size]
        omega
    · have hne : (dt.Nonce != startNonce) = true := by simpa using hd
      simp [ethElrond.verifyDepositNoncesLoop, hne] at hacc

/-- The nonces of a batch that `verifyDepositNonces` accepts, for every last executed nonce:
the nonce at index `i` is `L + 1 + i` reduced modulo `2^64`. -/
theorem ethElrond.verifyDepositNonces_nonces_mod (s : ethElrond.State) (b : TransferBatch)
    (L : Nat) (hb : s.executor.batch = some b)
    (hacc : (ethElrond.verifyDepositNonces L s).value? = some none) :
    ∀ (i : Nat) (h : i < b.Deposits.length),
      (b.Deposits.get ⟨i, h⟩).Nonce = toUint64 (L + 1 + i) := by
  have hloop : ethElrond.verifyDepositNoncesLoop (toUint64 (L + 1)) b.Deposits = none := by
    simpa [ethElrond.verifyDepositNonces, hb, Res.value?] using hacc
  intro i hi
  have := ethElrond.verifyDepositNoncesLoop_nonces_mod b.Deposits (toUint64 (L + 1))
    (Nat.mod_lt _ (by decide)) hloop i hi
  rw [this]
  simp only [toUint64, uint64Size]
  omega

/-- Why the length of the deposits is bounded in the theorem below: in a run of more than
`2^64` accepted deposits, which no slice of the code holds, the deposits at the indices 0 and
`2^64` carry the same nonce. -/
theorem ethElrond.verifyDepositNonces_repeats (s : ethElrond.State) (b : TransferBatch)
    (L : Nat) (hb : s.executor.batch = some b)
    (hacc : (ethElrond.verifyDepositNonces L s).value? = some none)
    (hlong : uint64Size < b.Deposits.length) :
    (b.Deposits.get ⟨0, by omega⟩).Nonce = (b.Deposits.get ⟨uint64Size, hlong⟩).Nonce := by
  rw [ethElrond.verifyDepositNonces_nonces_mod s b L hb hacc 0 (by omega),
    ethElrond.verifyDepositNonces_nonces_mod s b L hb hacc uint64Size hlong]
  simp only [toUint64, uint64Size]
  omega

/-- C27, as amended: for every last executed nonce `L` and every stored batch that
`verifyDepositNonces` accepts, the length of the deposits being that of a slice (at most
`2^64`): the nonce of the deposit at index `i` is `L + 1 + i` reduced modulo `2^64`, and the
nonces are pairwise distinct.  When `L + len(deposits) < 2^64` no reduction takes place: the
nonce at index `i` is `L + 1 + i`, the nonces are strictly increasing as integers and all
greater than `L`. -/
theorem C27_accepted_nonces_increase (s : ethElrond.State) (b : TransferBatch) (L : Nat)
    (hb : s.executor.batch = some b)
    (hlen : b.Deposits.length ≤ uint64Size)
    (hacc : (ethElrond.verifyDepositNonces L s).value? = some none) :
    (∀ (i : Nat) (h : i < b.Deposits.length),
      (b.Deposits.get ⟨i, h⟩).Nonce = toUint64 (L + 1 + i)) ∧
    (b.Deposits.map (fun d => d.Nonce)).Nodup ∧
    (L + b.Deposits.length < uint64Size →
      (∀ (i : Nat) (h : i < b.Deposits.length), (b.Deposits.get ⟨i, h⟩).Nonce = L + 1 + i) ∧
      (b.Deposits.map (fun d => d.Nonce)).Pairwise (fun m n => m < n) ∧
      ∀ n ∈ b.Deposits.map (fun d => d.Nonce), L < n) := by
  have hmod := ethElrond.verifyDepositNonces_nonces_mod s b L hb hacc
  refine ⟨hmod, ?_, ?_⟩
  · rw [List.Nodup, List.pairwise_iff_getElem]
    intro i j hi hj hij
    simp only [List.length_map] at hi hj
    have h1 := hmod i hi
    have h2 := hmod j hj
    simp only [List.get_eq_getElem, toUint64, uint64Size] at h1 h2
    simp only [uint64Size] at hlen
    simp only [List.getElem_map, h1, h2]
    omega
  · intro hrep
    have hnonces : ∀ (i : Nat) (h : i < b.Deposits.length),
        (b.Deposits.get ⟨i, h⟩).Nonce = L + 1 + i := by
      intro i hi
      rw [hmod i hi]
      exact toUint64_of_lt (by omega)
    have hpair : (b.Deposits.map (fun d => d.Nonce)).Pairwise (fun m n => m < n) := by
      rw [List.pairwise_iff_getElem]
      intro i j hi hj hij
      simp only [List.length_map] at hi hj
      have h1 := hnonces i hi
      have h2 := hnonces j hj
      simp only [List.get_eq_getElem] at h1 h2
      simp only [List.getElem_map, h1, h2]
      omega
    refine ⟨hnonces, hpair, ?_⟩
    intro n hn
    obtain ⟨i, hi, rfl⟩ := List.getElem_of_mem hn
    simp only [List.length_map] at hi
    have h1 := hnonces i hi
    simp only [List.get_eq_getElem] at h1
    simp only [List.getElem_map, h1]
    omega

/-- C27 as stated fails at the end of the 64-bit range.  With `L = 2^64 - 1` the batch whose
only deposit has nonce 0 is accepted, and 0 is not greater than `L`; with `L = 2^64 - 2` the
batch with the nonces `2^64 - 1` and 0 is accepted, and its nonces do not increase. -/
theorem C27_nonce_wraps_around :
    (ethElrond.verifyDepositNonces 18446744073709551615
      (ethElrond.stateHolding 1 (some (batchWithNonces 1 [0])))).value? = some none ∧
    ¬ (18446744073709551615 < 0) ∧
    (ethElrond.verifyDepositNonces 18446744073709551614
      (ethElrond.stateHolding 1
        (some (batchWithNonces 1 [18446744073709551615, 0])))).value? = some none ∧
    ¬ ((batchWithNonces 1 [18446744073709551615, 0]).Deposits.map
      (fun d => d.Nonce)).Pairwise (fun m n => m < n) := by
  decide

/-- Witness of C27: the batch with the nonces `2^64 - 1` and 0, accepted after
`L = 2^64 - 2`, has distinct nonces; the batch with the nonces 1 and 2, accepted after
`L = 0`, has increasing nonces, all greater than 0. -/
theorem C27_accepted_nonces_increase_witness :
    ((batchWithNonces 1 [18446744073709551615, 0]).Deposits.map (fun d => d.Nonce)).Nodup ∧
    ((batchWithNonces 1 [1, 2]).Deposits.map (fun d => d.Nonce)).Nodup ∧
    ((batchWithNonces 1 [1, 2]).Deposits.map (fun d => d.Nonce)).Pairwise (fun m n => m < n) ∧
    ∀ n ∈ (batchWithNonces 1 [1, 2]).Deposits.map (fun d => d.Nonce), 0 < n :=
  ⟨(C27_accepted_nonces_increase
      (ethElrond.stateHolding 1 (some (batchWithNonces 1 [18446744073709551615, 0])))
      (batchWithNonces 1 [18446744073709551615, 0]) 18446744073709551614 rfl (by decide)
      (by decide)).2.1,
    (C27_accepted_nonces_increase (ethElrond.stateHolding 1 (some (batchWithNonces 1 [1, 2])))
      (batchWithNonces 1 [1, 2]) 0 rfl (by decide) (by decide)).2.1,
    ((C27_accepted_nonces_increase (ethElrond.stateHolding 1 (some (batchWithNonces 1 [1, 2])))
      (batchWithNonces 1 [1, 2]) 0 rfl (by decide) (by decide)).2.2 (by decide)).2.1,
    ((C27_accepted_nonces_increase (ethElrond.stateHolding 1 (some (batchWithNonces 1 [1, 2])))
      (batchWithNonces 1 [1, 2]) 0 rfl (by decide) (by decide)).2.2 (by decide)).2.2⟩

/-! ## The selector of a constructed gas station -/

theorem gasManagement.doRequest_gasPriceSelector
    (unmarshal : List Nat → gasManagement.gasStationResponse × Option Error)
    (gs : gasManagement.gasStation) (x : gasManagement.HTTPExchange) :
    (gasManagement.doRequest unmarshal gs x).1.gasPriceSelector = gs.gasPriceSelector ∧
    (gasManagement.doRequest unmarshal gs x).1.maximumGasPrice = gs.maximumGasPrice := by
  unfold gasManagement.doRequest
  split
  · split <;> exact ⟨rfl, rfl⟩
  · exact ⟨rfl, rfl⟩

theorem gasManagement.processLoop_gasPriceSelector
    (unmarshal : List Nat → gasManagement.gasStationResponse × Option Error)
    (polls : List gasManagement.HTTPExchange) :
    ∀ gs : gasManagement.gasStation,
      (gasManagement.processLoop unmarshal gs polls).gasPriceSelector = gs.gasPriceSelector ∧
      (gasManagement.processLoop unmarshal gs polls).maximumGasPrice = gs.maximumGasPrice := by
  induction polls with
  | nil => exact fun _ => ⟨rfl, rfl⟩
  | cons x rest ih =>
    intro gs
    have h1 := ih (gasManagement.doRequest unmarshal gs x).1
    have h2 := gasManagement.doRequest_gasPriceSelector unmarshal gs x
    exact ⟨h1.1.trans h2.1, h1.2.trans h2.2⟩

/-- The selector of a station that `NewGasStation` returns is one of the four constants. -/
theorem gasManagement.NewGasStation_selector (args : gasManagement.ArgsGasStation)
    (gs : gasManagement.gasStation)
    (hnew : gasManagement.NewGasStation args = (some gs, none)) :
    gs.gasPriceSelector = .EthFastGasPrice ∨ gs.gasPriceSelector = .EthFastestGasPrice ∨
    gs.gasPriceSelector = .EthSafeLowGasPrice ∨ gs.gasPriceSelector = .EthAverageGasPrice := by
  unfold gasManagement.NewGasStation at hnew
  cases hc : gasManagement.checkArgs args with
  | some err => simp [hc] at hnew
  | none =>
    simp only [hc, Prod.mk.injEq, Option.some.injEq, and_true] at hnew
    subst hnew
    unfold gasManagement.checkArgs at hc
    split at hc
    · cases hc
    · split at hc
      · cases hc
      · cases hsel : args.GasPriceSelector <;> simp [hsel] at hc ⊢

/-- C28: on a station that `NewGasStation` returned, after any polls, whatever they gave,
`GetCurrentGasPrice` returns no error that wraps `ErrInvalidGasPriceSelector`: an error it
returns is `ErrLatestGasPricesWereNotFetched`, or wraps
`ErrGasPriceIsHigherThanTheMaximumSet`. -/
theorem C28_selector_default_unreachable
    (unmarshal : List Nat → gasManagement.gasStationResponse × Option Error)
    (args : gasManagement.ArgsGasStation) (gs : gasManagement.gasStation)
    (hnew : gasManagement.NewGasStation args = (some gs, none))
    (polls : List gasManagement.HTTPExchange) (err : Error)
    (herr : (gasManagement.GetCurrentGasPrice
      (gasManagement.processLoop unmarshal gs polls)).2 = some err) :
    err.Is gasManagement.ErrInvalidGasPriceSelector = false ∧
    (err = gasManagement.ErrLatestGasPricesWereNotFetched ∨
      err.Is gasManagement.ErrGasPriceIsHigherThanTheMaximumSet = true) := by
  have hsel := gasManagement.NewGasStation_selector args gs hnew
  rw [← (gasManagement.processLoop_gasPriceSelector unmarshal polls gs).1] at hsel
  generalize gasManagement.processLoop unmarshal gs polls = station at hsel herr
  unfold gasManagement.GetCurrentGasPrice at herr
  cases hl : station.latestResponse with
  | none =>
    simp only [hl, Option.some.injEq] at herr
    subst herr
    exact ⟨by decide, Or.inl rfl⟩
  | some response =>
    simp only [hl] at herr
    rcases hsel with h | h | h | h <;>
    · simp only [h] at herr
      split at herr
      · simp only [Option.some.injEq] at herr
        subst herr
        simp [Error.Is, gasManagement.ErrGasPriceIsHigherThanTheMaximumSet,
          gasManagement.ErrInvalidGasPriceSelector,
          gasManagement.ErrLatestGasPricesWereNotFetched]
      · simp at herr

/-- Witness of C28: the station for the selector fast with maximum 100, after one poll that
reads a fast price of 200: the error of `GetCurrentGasPrice` wraps
`ErrGasPriceIsHigherThanTheMaximumSet` and not `ErrInvalidGasPriceSelector`. -/
theorem C28_selector_default_unreachable_witness :
    (gasManagement.GetCurrentGasPrice
      (gasManagement.processLoop gasManagement.decodeFour gasManagement.freshStation
        [gasManagement.HTTPExchange.ok [200, 0, 0, 0]])).2 =
      some (.wrapf gasManagement.ErrGasPriceIsHigherThanTheMaximumSet
        " maximum value: %d, fetched value: %d, gas price selector: %s"
        [.num 100, .num 200, .str "EthFastGasPrice"]) ∧
    (Error.wrapf gasManagement.ErrGasPriceIsHigherThanTheMaximumSet
        " maximum value: %d, fetched value: %d, gas price selector: %s"
        [.num 100, .num 200, .str "EthFastGasPrice"]).Is
      gasManagement.ErrInvalidGasPriceSelector = false :=
  ⟨by decide,
    (C28_selector_default_unreachable gasManagement.decodeFour
      (gasManagement.argsWithSelector .EthFastGasPrice) gasManagement.freshStation rfl
      [gasManagement.HTTPExchange.ok [200, 0, 0, 0]] _ (by decide)).1⟩

/-! ## The retry counters stay within their bounds -/

theorem toUint64_le (n : Nat) : toUint64 n ≤ n := Nat.mod_le n uint64Size

/-- A program that keeps the counters and their bounds keeps them within bounds. -/
theorem ethElrond.CountersWithinBounds_of_keeps {α : Type} (p : Prog ethElrond.State α)
    (hp : Prog.Keeps ethElrond.bridgeExecutor.counters p) (s : ethElrond.State)
    (h : s.executor.CountersWithinBounds) : (p s).state.executor.CountersWithinBounds := by
  have heq := hp s
  simp only [ethElrond.bridgeExecutor.counters, Prod.mk.injEq] at heq
  obtain ⟨⟨h1, h2⟩, ⟨h3, h4⟩, h5, h6⟩ := heq
  unfold ethElrond.bridgeExecutor.CountersWithinBounds at h ⊢
  rw [h1, h2, h3, h4, h5, h6]
  exact h

theorem ethElrond.ProcessMaxQuorumRetriesOnEthereum_within_bounds (s : ethElrond.State)
    (h : s.executor.CountersWithinBounds) :
    (Prog.discard ethElrond.ProcessMaxQuorumRetriesOnEthereum
      s).state.executor.CountersWithinBounds := by
  have hle := toUint64_le (s.executor.quorumRetriesOnEthereum + 1)
  unfold ethElrond.bridgeExecutor.CountersWithinBounds at h ⊢
  by_cases hlt : s.executor.quorumRetriesOnEthereum < s.executor.maxQuorumRetriesOnEthereum
  · simp [Prog.discard, ethElrond.ProcessMaxQuorumRetriesOnEthereum_apply, hlt, Res.state]
    omega
  · simp [Prog.discard, ethElrond.ProcessMaxQuorumRetriesOnEthereum_apply, hlt, Res.state]
    omega

theorem ethElrond.ProcessMaxQuorumRetriesOnElrond_within_bounds (s : ethElrond.State)
    (h : s.executor.CountersWithinBounds) :
    (Prog.discard ethElrond.ProcessMaxQuorumRetriesOnElrond
      s).state.executor.CountersWithinBounds := by
  have hle := toUint64_le (s.executor.quorumRetriesOnElrond + 1)
  unfold ethElrond.bridgeExecutor.CountersWithinBounds at h ⊢
  by_cases hlt : s.executor.quorumRetriesOnElrond < s.executor.maxQuorumRetriesOnElrond
  · simp [Prog.discard, ethElrond.ProcessMaxQuorumRetriesOnElrond_apply, hlt, Res.state]
    omega
  · simp [Prog.discard, ethElrond.ProcessMaxQuorumRetriesOnElrond_apply, hlt, Res.state]
    omega

theorem ethElrond.ProcessMaxRetriesOnWasTransferProposedOnElrond_within_bounds
    (s : ethElrond.State) (h : s.executor.CountersWithinBounds) :
    (Prog.discard ethElrond.ProcessMaxRetriesOnWasTransferProposedOnElrond
      s).state.executor.CountersWithinBounds := by
  have hle := toUint64_le (s.executor.retriesOnWasProposed + 1)
  unfold ethElrond.bridgeExecutor.CountersWithinBounds at h ⊢
  by_cases hlt : s.executor.retriesOnWasProposed < s.executor.maxRetriesOnWasProposed
  · simp [Prog.discard, ethElrond.ProcessMaxRetriesOnWasTransferProposedOnElrond_apply, hlt, Res.state]
    omega
  · simp [Prog.discard, ethElrond.ProcessMaxRetriesOnWasTransferProposedOnElrond_apply, hlt, Res.state]
    omega

theorem ethElrond.ResetRetriesCountOnEthereum_within_bounds (s : ethElrond.State)
    (h : s.executor.CountersWithinBounds) :
    (ethElrond.ResetRetriesCountOnEthereum s).state.executor.CountersWithinBounds :=
  ⟨Nat.zero_le _, h.2.1, h.2.2⟩

theorem ethElrond.ResetRetriesCountOnElrond_within_bounds (s : ethElrond.State)
    (h : s.executor.CountersWithinBounds) :
    (ethElrond.ResetRetriesCountOnElrond s).state.executor.CountersWithinBounds :=
  ⟨h.1, Nat.zero_le _, h.2.2⟩

theorem ethElrond.ResetRetriesOnWasTransferProposedOnElrond_within_bounds
    (s : ethElrond.State) (h : s.executor.CountersWithinBounds) :
    (ethElrond.ResetRetriesOnWasTransferProposedOnElrond
      s).state.executor.CountersWithinBounds :=
  ⟨h.1, h.2.1, Nat.zero_le _⟩

/-- Every operation of the executor keeps the counters within their bounds. -/
theorem ethElrond.Operation.run_within_bounds (c : Collaborators) (r : ethElrond.Rendering)
    (op : ethElrond.Operation) (s : ethElrond.State) (h : s.executor.CountersWithinBounds) :
    (op.run c r s).state.executor.CountersWithinBounds := by
  cases op with
  | PrintInfo level message extras =>
    exact ethElrond.CountersWithinBounds_of_keeps _ (ethElrond.PrintInfo_keeps ethElrond.bridgeExecutor.counters r level message extras) s h
  | MyTurnAsLeader =>
    exact ethElrond.CountersWithinBounds_of_keeps _
      (Prog.keeps_discard ethElrond.bridgeExecutor.counters _ (ethElrond.MyTurnAsLeader_keeps ethElrond.bridgeExecutor.counters c)) s h
  | GetBatchFromElrond =>
    exact ethElrond.CountersWithinBounds_of_keeps _
      (Prog.keeps_discard ethElrond.bridgeExecutor.counters _ (ethElrond.GetBatchFromElrond_keeps ethElrond.bridgeExecutor.counters c)) s h
  | StoreBatchFromElrond batch =>
    exact ethElrond.CountersWithinBounds_of_keeps _
      (Prog.keeps_discard ethElrond.bridgeExecutor.counters _ (ethElrond.StoreBatchFromElrond_keeps ethElrond.bridgeExecutor.counters (fun _ _ => rfl) batch)) s h
  | GetStoredBatch =>
    exact ethElrond.CountersWithinBounds_of_keeps _
      (Prog.keeps_discard ethElrond.bridgeExecutor.counters _ (ethElrond.GetStoredBatch_keeps ethElrond.bridgeExecutor.counters)) s h
  | GetLastExecutedEthBatchIDFromElrond =>
    exact ethElrond.CountersWithinBounds_of_keeps _
      (Prog.keeps_discard ethElrond.bridgeExecutor.counters _ (ethElrond.GetLastExecutedEthBatchIDFromElrond_keeps ethElrond.bridgeExecutor.counters c)) s h
  | VerifyLastDepositNonceExecutedOnEthereumBatch =>
    exact ethElrond.CountersWithinBounds_of_keeps _
      (Prog.keeps_discard ethElrond.bridgeExecutor.counters _ (ethElrond.VerifyLastDepositNonceExecutedOnEthereumBatch_keeps ethElrond.bridgeExecutor.counters c)) s h
  | GetAndStoreActionIDForProposeTransferOnElrond =>
    exact ethElrond.CountersWithinBounds_of_keeps _
      (Prog.keeps_discard ethElrond.bridgeExecutor.counters _ (ethElrond.GetAndStoreActionIDForProposeTransferOnElrond_keeps ethElrond.bridgeExecutor.counters (fun _ _ => rfl) c)) s h
  | GetAndStoreActionIDForProposeSetStatusFromElrond =>
    exact ethElrond.CountersWithinBounds_of_keeps _
      (Prog.keeps_discard ethElrond.bridgeExecutor.counters _ (ethElrond.GetAndStoreActionIDForProposeSetStatusFromElrond_keeps ethElrond.bridgeExecutor.counters (fun _ _ => rfl) c)) s h
  | GetStoredActionID =>
    exact ethElrond.CountersWithinBounds_of_keeps _
      (Prog.keeps_discard ethElrond.bridgeExecutor.counters _ (ethElrond.GetStoredActionID_keeps ethElrond.bridgeExecutor.counters)) s h
  | WasTransferProposedOnElrond =>
    exact ethElrond.CountersWithinBounds_of_keeps _
      (Prog.keeps_discard ethElrond.bridgeExecutor.counters _ (ethElrond.WasTransferProposedOnElrond_keeps ethElrond.bridgeExecutor.counters c)) s h
  | ProposeTransferOnElrond =>
    exact ethElrond.CountersWithinBounds_of_keeps _
      (Prog.keeps_discard ethElrond.bridgeExecutor.counters _ (ethElrond.ProposeTransferOnElrond_keeps ethElrond.bridgeExecutor.counters c)) s h
  | ProcessMaxRetriesOnWasTransferProposedOnElrond =>
    exact ethElrond.ProcessMaxRetriesOnWasTransferProposedOnElrond_within_bounds s h
  | ResetRetriesOnWasTransferProposedOnElrond =>
    exact ethElrond.ResetRetriesOnWasTransferProposedOnElrond_within_bounds s h
  | WasSetStatusProposedOnElrond =>
    exact ethElrond.CountersWithinBounds_of_keeps _
      (Prog.keeps_discard ethElrond.bridgeExecutor.counters _ (ethElrond.WasSetStatusProposedOnElrond_keeps ethElrond.bridgeExecutor.counters c)) s h
  | ProposeSetStatusOnElrond =>
    exact ethElrond.CountersWithinBounds_of_keeps _
      (Prog.keeps_discard ethElrond.bridgeExecutor.counters _ (ethElrond.ProposeSetStatusOnElrond_keeps ethElrond.bridgeExecutor.counters c)) s h
  | WasActionSignedOnElrond =>
    exact ethElrond.CountersWithinBounds_of_keeps _
      (Prog.keeps_discard ethElrond.bridgeExecutor.counters _ (ethElrond.WasActionSignedOnElrond_keeps ethElrond.bridgeExecutor.counters c)) s h
  | SignActionOnElrond =>
    exact ethElrond.CountersWithinBounds_of_keeps _
      (Prog.keeps_discard ethElrond.bridgeExecutor.counters _ (ethElrond.SignActionOnElrond_keeps ethElrond.bridgeExecutor.counters c)) s h
  | ProcessQuorumReachedOnElrond =>
    exact ethElrond.CountersWithinBounds_of_keeps _
      (Prog.keeps_discard ethElrond.bridgeExecutor.counters _ (ethElrond.ProcessQuorumReachedOnElrond_keeps ethElrond.bridgeExecutor.counters c)) s h
  | WaitForTransferConfirmation =>
    exact ethElrond.CountersWithinBounds_of_keeps _ (ethElrond.WaitForTransferConfirmation_keeps ethElrond.bridgeExecutor.counters c) s h
  | WaitAndReturnFinalBatchStatuses =>
    exact ethElrond.CountersWithinBounds_of_keeps _
      (Prog.keeps_discard ethElrond.bridgeExecutor.counters _ (ethElrond.WaitAndReturnFinalBatchStatuses_keeps ethElrond.bridgeExecutor.counters c)) s h
  | GetBatchStatusesFromEthereum =>
    exact ethElrond.CountersWithinBounds_of_keeps _
      (Prog.keeps_discard ethElrond.bridgeExecutor.counters _ (ethElrond.GetBatchStatusesFromEthereum_keeps ethElrond.bridgeExecutor.counters c)) s h
  | WasActionPerformedOnElrond =>
    exact ethElrond.CountersWithinBounds_of_keeps _
      (Prog.keeps_discard ethElrond.bridgeExecutor.counters _ (ethElrond.WasActionPerformedOnElrond_keeps ethElrond.bridgeExecutor.counters c)) s h
  | PerformActionOnElrond =>
    exact ethElrond.CountersWithinBounds_of_keeps _
      (Prog.keeps_discard ethElrond.bridgeExecutor.counters _ (ethElrond.PerformActionOnElrond_keeps ethElrond.bridgeExecutor.counters c)) s h
  | ResolveNewDepositsStatuses numDeposits =>
    exact ethElrond.CountersWithinBounds_of_keeps _ (ethElrond.ResolveNewDepositsStatuses_keeps ethElrond.bridgeExecutor.counters (fun _ _ => rfl) c numDeposits) s h
  | ProcessMaxQuorumRetriesOnElrond =>
    exact ethElrond.ProcessMaxQuorumRetriesOnElrond_within_bounds s h
  | ResetRetriesCountOnElrond =>
    exact ethElrond.ResetRetriesCountOnElrond_within_bounds s h
  | GetAndStoreBatchFromEthereum nonce =>
    exact ethElrond.CountersWithinBounds_of_keeps _
      (Prog.keeps_discard ethElrond.bridgeExecutor.counters _ (ethElrond.GetAndStoreBatchFromEthereum_keeps ethElrond.bridgeExecutor.counters (fun _ _ => rfl) c nonce)) s h
  | WasTransferPerformedOnEthereum =>
    exact ethElrond.CountersWithinBounds_of_keeps _
      (Prog.keeps_discard ethElrond.bridgeExecutor.counters _ (ethElrond.WasTransferPerformedOnEthereum_keeps ethElrond.bridgeExecutor.counters c)) s h
  | SignTransferOnEthereum =>
    exact ethElrond.CountersWithinBounds_of_keeps _
      (Prog.keeps_discard ethElrond.bridgeExecutor.counters _ (ethElrond.SignTransferOnEthereum_keeps ethElrond.bridgeExecutor.counters (fun _ _ => rfl) c)) s h
  | PerformTransferOnEthereum =>
    exact ethElrond.CountersWithinBounds_of_keeps _
      (Prog.keeps_discard ethElrond.bridgeExecutor.counters _ (ethElrond.PerformTransferOnEthereum_keeps ethElrond.bridgeExecutor.counters c)) s h
  | ProcessQuorumReachedOnEthereum =>
    exact ethElrond.CountersWithinBounds_of_keeps _
      (Prog.keeps_discard ethElrond.bridgeExecutor.counters _ (ethElrond.ProcessQuorumReachedOnEthereum_keeps ethElrond.bridgeExecutor.counters c)) s h
  | ProcessMaxQuorumRetriesOnEthereum =>
    exact ethElrond.ProcessMaxQuorumRetriesOnEthereum_within_bounds s h
  | ResetRetriesCountOnEthereum =>
    exact ethElrond.ResetRetriesCountOnEthereum_within_bounds s h
  | ClearStoredP2PSignaturesForEthereum =>
    exact ethElrond.CountersWithinBounds_of_keeps _ (ethElrond.ClearStoredP2PSignaturesForEthereum_keeps ethElrond.bridgeExecutor.counters) s h
  | ValidateBatch batch =>
    exact ethElrond.CountersWithinBounds_of_keeps _
      (Prog.keeps_discard ethElrond.bridgeExecutor.counters _ (ethElrond.ValidateBatch_keeps ethElrond.bridgeExecutor.counters c batch)) s h
  | CheckElrondClientAvailability =>
    exact ethElrond.CountersWithinBounds_of_keeps _
      (Prog.keeps_discard ethElrond.bridgeExecutor.counters _ (ethElrond.CheckElrondClientAvailability_keeps ethElrond.bridgeExecutor.counters c)) s h
  | CheckEthereumClientAvailability =>
    exact ethElrond.CountersWithinBounds_of_keeps _
      (Prog.keeps_discard ethElrond.bridgeExecutor.counters _ (ethElrond.CheckEthereumClientAvailability_keeps ethElrond.bridgeExecutor.counters c)) s h

theorem ethElrond.Operation.runAll_within_bounds (c : Collaborators)
    (r : ethElrond.Rendering) (ops : List ethElrond.Operation) :
    ∀ s : ethElrond.State, s.executor.CountersWithinBounds →
      (ethElrond.Operation.runAll c r ops s).state.executor.CountersWithinBounds := by
  induction ops with
  | nil => exact fun _ h => h
  | cons op rest ih =>
    intro s h
    have h1 := ethElrond.Operation.run_within_bounds c r op s h
    unfold ethElrond.Operation.runAll
    rw [Prog.bind_apply]
    cases hrun : op.run c r s with
    | ret a s1 =>
      rw [hrun] at h1
      exact ih s1 h1
    | crash s1 =>
      rw [hrun] at h1
      exact h1

/-- C29: from the executor that `NewBridgeExecutor` returns, after any sequence of the
executor's operations, on any collaborators, each retry counter is at most its bound.  In any
state, each of the three `ProcessMax...` and of the three `Reset...` operations records no
call and changes no field but its own counter: the executor after it, with that counter put
back, is the executor before it. -/
theorem C29_counters_within_bounds (durationLimit : Int)
    (args : ethElrond.ArgsBridgeExecutor) (e : ethElrond.bridgeExecutor) (c : Collaborators)
    (r : ethElrond.Rendering)
    (hnew : ethElrond.NewBridgeExecutor durationLimit args = (some e, none)) :
    (∀ ops : List ethElrond.Operation,
      (ethElrond.Operation.runAll c r ops ⟨e, []⟩).state.executor.CountersWithinBounds) ∧
    (∀ s : ethElrond.State,
      ({ (ethElrond.ProcessMaxQuorumRetriesOnEthereum s).state.executor with
          quorumRetriesOnEthereum := s.executor.quorumRetriesOnEthereum } = s.executor ∧
        (ethElrond.ProcessMaxQuorumRetriesOnEthereum s).state.history = s.history) ∧
      ({ (ethElrond.ResetRetriesCountOnEthereum s).state.executor with
          quorumRetriesOnEthereum := s.executor.quorumRetriesOnEthereum } = s.executor ∧
        (ethElrond.ResetRetriesCountOnEthereum s).state.history = s.history) ∧
      ({ (ethElrond.ProcessMaxQuorumRetriesOnElrond s).state.executor with
          quorumRetriesOnElrond := s.executor.quorumRetriesOnElrond } = s.executor ∧
        (ethElrond.ProcessMaxQuorumRetriesOnElrond s).state.history = s.history) ∧
      ({ (ethElrond.ResetRetriesCountOnElrond s).state.executor with
          quorumRetriesOnElrond := s.executor.quorumRetriesOnElrond } = s.executor ∧
        (ethElrond.ResetRetriesCountOnElrond s).state.history = s.history) ∧
      ({ (ethElrond.ProcessMaxRetriesOnWasTransferProposedOnElrond s).state.executor with
          retriesOnWasProposed := s.executor.retriesOnWasProposed } = s.executor ∧
        (ethElrond.ProcessMaxRetriesOnWasTransferProposedOnElrond s).state.history =
          s.history) ∧
      ({ (ethElrond.ResetRetriesOnWasTransferProposedOnElrond s).state.executor with
          retriesOnWasProposed := s.executor.retriesOnWasProposed } = s.executor ∧
        (ethElrond.ResetRetriesOnWasTransferProposedOnElrond s).state.history =
          s.history)) := by
  constructor
  · intro ops
    refine ethElrond.Operation.runAll_within_bounds c r ops ⟨e, []⟩ ?_
    unfold ethElrond.NewBridgeExecutor at hnew
    cases hc : ethElrond.checkArgs durationLimit args with
    | some err => simp [hc] at hnew
    | none =>
      simp only [hc, Prod.mk.injEq, Option.some.injEq, and_true] at hnew
      subst hnew
      exact ⟨Nat.zero_le _, Nat.zero_le _, Nat.zero_le _⟩
  · intro s
    refine ⟨?_, ⟨rfl, rfl⟩, ?_, ⟨rfl, rfl⟩, ?_, ⟨rfl, rfl⟩⟩
    · rw [ethElrond.ProcessMaxQuorumRetriesOnEthereum_apply]
      split <;> exact ⟨rfl, rfl⟩
    · rw [ethElrond.ProcessMaxQuorumRetriesOnElrond_apply]
      split <;> exact ⟨rfl, rfl⟩
    · rw [ethElrond.ProcessMaxRetriesOnWasTransferProposedOnElrond_apply]
      split <;> exact ⟨rfl, rfl⟩

/-- Witness of C29: the executor with every bound at 2, after three counts of the quorum
retries on Ethereum, a read of the stored batch and one count on Elrond: the counters are
within their bounds. -/
theorem C29_counters_within_bounds_witness :
    (ethElrond.Operation.runAll
        (Collaborators.around ElrondClient.quiet EthereumClient.quiet)
        ethElrond.Rendering.plain
        [.ProcessMaxQuorumRetriesOnEthereum, .ProcessMaxQuorumRetriesOnEthereum,
          .ProcessMaxQuorumRetriesOnEthereum, .GetStoredBatch,
          .ProcessMaxQuorumRetriesOnElrond]
        ⟨ethElrond.executorHolding 2 none, []⟩).state.executor.CountersWithinBounds :=
  (C29_counters_within_bounds 1 (ethElrond.argsWithBounds 2 2 2)
    (ethElrond.executorHolding 2 none)
    (Collaborators.around ElrondClient.quiet EthereumClient.quiet)
    ethElrond.Rendering.plain (by decide)).1 _

/-! ## The quorum check of the legacy executor -/

/-- What `isQuorumReachedOnBridge` returns, for every response: whether the quorum that
`GetQuorum` returned is at most the number of signers, with or without an error. -/
theorem bridgeExecutors.isQuorumReachedOnBridge_value {ι : Type}
    (c : bridgeExecutors.Collaborators ι) (errorText : Error → String)
    (side : bridgeExecutors.Side) (s : bridgeExecutors.ethElrondBridgeExecutor ι) :
    (bridgeExecutors.isQuorumReachedOnBridge c errorText side s).value? =
      some (decide ((c.quorumProvider
          (s.history ++ [.SignersCount side s.actionId])).1 ≤
        c.bridge side s.history s.actionId)) := by
  rcases hq : c.quorumProvider (s.history ++ [.SignersCount side s.actionId]) with
    ⟨quorum, _ | err⟩ <;>
    simp [bridgeExecutors.isQuorumReachedOnBridge, bridgeExecutors.getFields,
      bridgeExecutors.record, bridgeExecutors.isQuorumReached, hq, Res.value?]

/-- C30: the quorum provider fails and returns the quorum 0 beside its error; no one has
signed.  `IsQuorumReachedForProposeTransfer` and `IsQuorumReachedForProposeSetStatus` log the
error and return true.  When `GetQuorum` succeeds with quorum 3, two signers give false and
three give true. -/
theorem C30_failed_quorum_lookup_counts_as_reached :
    bridgeExecutors.IsQuorumReachedForProposeTransfer
        (bridgeExecutors.Collaborators.answering 0 (0, some (.external 1))) errorTextPlain
        ⟨"EthToElrond", 7, []⟩ =
      .ret true ⟨"EthToElrond", 7,
        [.SignersCount .destination 7, .GetQuorum,
          .log .LogError "EthToElrond: external error" [],
          .log .LogInfo "EthToElrond: got signatures"
            [.str "got", .num 0, .str "quorum", .num 0]]⟩ ∧
    (bridgeExecutors.IsQuorumReachedForProposeSetStatus
        (bridgeExecutors.Collaborators.answering 0 (0, some (.external 1))) errorTextPlain
        ⟨"EthToElrond", 7, []⟩).value? = some true ∧
    (bridgeExecutors.IsQuorumReachedForProposeTransfer
        (bridgeExecutors.Collaborators.answering 2 (3, none)) errorTextPlain
        ⟨"EthToElrond", 7, []⟩).value? = some false ∧
    (bridgeExecutors.IsQuorumReachedForProposeTransfer
        (bridgeExecutors.Collaborators.answering 3 (3, none)) errorTextPlain
        ⟨"EthToElrond", 7, []⟩).value? = some true := by
  decide

end Bridge
